import Mathlib

/-!
# Mediaverse: the client-side session gate

A shallow embedding of the session logic that the Mediaverse admin console
(`mediaverse-admin`) and end-user app (`my-app`) repeat in their components:
`isTokenExpired`, `verifyToken`, the logout handlers and `handleLogin`.

Conventions of the embedding

* JavaScript strings are Lean strings; the host functions that scan text
  (`split`, `atob`, `JSON.parse`, string-to-number conversion) work on the list
  of code points of the string.
* JavaScript numbers are exact: a finite number is a decimal
  `mant * 10 ^ exp10`, next to `NaN` and the two infinities. Rounding to IEEE
  doubles is not modelled. For a whole number of seconds `exp` and a clock
  reading `now` within the range of `Date.now()` the comparison
  `exp * 1000 < now` has the same outcome exactly and in doubles: the product
  is exact up to `2 ^ 53`, and beyond it rounding keeps it beyond every clock
  reading. The results on the token check are stated for such `exp`.
* A thrown exception is the `error` case of `Except`.
* `localStorage` is an association list from keys to string values.
* `Date.now()` is an explicit argument `now`, in milliseconds.
-/

namespace Mediaverse

/-! ## Numbers -/

/-- The finite number `mant * 10 ^ exp10`. -/
structure Decimal where
  mant : Int
  exp10 : Int
deriving DecidableEq, Repr

/-- The values of the JavaScript type Number. -/
inductive JSNumber where
  | nan
  | inf (negative : Bool)
  | fin (d : Decimal)
deriving DecidableEq, Repr

/-- The product `x * k` of a number and an integer constant, as `payload.exp * 1000`. -/
def JSNumber.mulInt (x : JSNumber) (k : Int) : JSNumber :=
  match x with
  | .nan => .nan
  | .inf neg => if k = 0 then .nan else .inf (if k < 0 then !neg else neg)
  | .fin d => .fin ⟨d.mant * k, d.exp10⟩

/-- The comparison `x < n` of a number with an integer, as `... < Date.now()`:
false when `x` is `NaN`. -/
def JSNumber.ltInt (x : JSNumber) (n : Int) : Bool :=
  match x with
  | .nan => false
  | .inf neg => neg
  | .fin d =>
    if 0 ≤ d.exp10 then decide (d.mant * 10 ^ d.exp10.toNat < n)
    else decide (d.mant < n * 10 ^ (-d.exp10).toNat)

/-- The decimal `d` denotes the integer `e`. -/
def Decimal.IsInt (d : Decimal) (e : Int) : Prop :=
  if 0 ≤ d.exp10 then d.mant * 10 ^ d.exp10.toNat = e
  else d.mant = e * 10 ^ (-d.exp10).toNat

instance (d : Decimal) (e : Int) : Decidable (d.IsInt e) := by
  unfold Decimal.IsInt
  infer_instance

/-! ## JSON values -/

/-- The values `JSON.parse` returns. An object keeps its properties in creation
order (the special place of array-index keys is not modelled; no property is
read by position). -/
inductive JSValue where
  | null
  | bool (b : Bool)
  | number (d : Decimal)
  | string (s : String)
  | array (items : List JSValue)
  | object (fields : List (String × JSValue))
deriving Repr

/-- The exceptions the modelled code can raise. -/
inductive JSError where
  | typeError
  | syntaxError
  | invalidCharacter
  | illegalArguments
deriving DecidableEq, Repr

/-- The code points of a string. -/
def codes (s : String) : List Nat :=
  s.toList.map Char.toNat

/-- The string with the given code points. -/
def ofCodes (cs : List Nat) : String :=
  String.mk (cs.map Char.ofNat)

/-! ## `String.prototype.split` with a one-character separator -/

/-- The segments of `cs` between occurrences of `sep`; never empty. -/
def splitCodes (sep : Nat) : List Nat → List (List Nat)
  | [] => [[]]
  | c :: cs =>
    if c = sep then [] :: splitCodes sep cs
    else
      match splitCodes sep cs with
      | seg :: segs => (c :: seg) :: segs
      | [] => [[c]]

/-! ## `atob`: forgiving base64 decoding -/

/-- ASCII whitespace: tab, line feed, form feed, carriage return, space. -/
def isAsciiWhitespace (c : Nat) : Bool :=
  c = 9 || c = 10 || c = 12 || c = 13 || c = 32

/-- The six-bit value of a character of the base64 alphabet `A-Z a-z 0-9 + /`. -/
def base64Value (c : Nat) : Option Nat :=
  if 65 ≤ c ∧ c ≤ 90 then some (c - 65)
  else if 97 ≤ c ∧ c ≤ 122 then some (c - 71)
  else if 48 ≤ c ∧ c ≤ 57 then some (c + 4)
  else if c = 43 then some 62
  else if c = 47 then some 63
  else none

/-- Drop one or two trailing `=` when the length is a multiple of four. -/
def stripPadding (cs : List Nat) : List Nat :=
  if cs.length % 4 = 0 then
    match cs.reverse with
    | 61 :: 61 :: rest => rest.reverse
    | 61 :: rest => rest.reverse
    | _ => cs
  else cs

/-- The bytes encoded by a list of six-bit values: three bytes per four values,
one byte for a final pair, two for a final triple. -/
def decodeSextets : List Nat → List Nat
  | a :: b :: c :: d :: rest =>
    let n := a * 262144 + b * 4096 + c * 64 + d
    (n / 65536) :: (n / 256 % 256) :: (n % 256) :: decodeSextets rest
  | [a, b, c] =>
    let n := (a * 4096 + b * 64 + c) / 4
    [n / 256, n % 256]
  | [a, b] => [(a * 64 + b) / 16]
  | _ => []

/-- The host function `atob` on code points: the decoded bytes, or
`InvalidCharacterError`. -/
def atobCodes (data : List Nat) : Except JSError (List Nat) :=
  let cs := stripPadding (data.filter (fun c => !isAsciiWhitespace c))
  if cs.length % 4 = 1 then .error .invalidCharacter
  else
    match cs.mapM base64Value with
    | none => .error .invalidCharacter
    | some vs => .ok (decodeSextets vs)

/-- The call `atob(x)` where `x` is a string or `undefined`; `undefined` is
converted to the string `"undefined"` first. -/
def atob (x : Option (List Nat)) : Except JSError (List Nat) :=
  atobCodes (x.getD (codes "undefined"))

/-! ## `JSON.parse`

The parser reads the text one code point at a time, keeping the stack of the
arrays and objects that are still open. -/

/-- JSON whitespace: tab, line feed, carriage return, space. -/
def isJsonWhitespace (c : Nat) : Bool :=
  c = 9 || c = 10 || c = 13 || c = 32

/-- The value of a decimal digit. -/
def digitValue (c : Nat) : Option Nat :=
  if 48 ≤ c ∧ c ≤ 57 then some (c - 48) else none

/-- The value of a hexadecimal digit, either case. -/
def hexValue (c : Nat) : Option Nat :=
  if 48 ≤ c ∧ c ≤ 57 then some (c - 48)
  else if 97 ≤ c ∧ c ≤ 102 then some (c - 87)
  else if 65 ≤ c ∧ c ≤ 70 then some (c - 55)
  else none

/-- Join UTF-16 surrogate pairs written as two `\u` escapes into one code
point; a surrogate without its partner becomes U+FFFD. `pending` is a high
surrogate that waits for its partner. -/
def utf16Join (pending : Option Nat) : List Nat → List Nat
  | [] => if pending.isSome then [65533] else []
  | u :: rest =>
    match pending with
    | some hi =>
      if 56320 ≤ u ∧ u < 57344 then
        (65536 + (hi - 55296) * 1024 + (u - 56320)) :: utf16Join none rest
      else if 55296 ≤ u ∧ u < 56320 then 65533 :: utf16Join (some u) rest
      else 65533 :: u :: utf16Join none rest
    | none =>
      if 55296 ≤ u ∧ u < 56320 then utf16Join (some u) rest
      else if 56320 ≤ u ∧ u < 57344 then 65533 :: utf16Join none rest
      else u :: utf16Join none rest

/-- Define property `k` of an object as `v`: a repeated key keeps its place
and takes the later value. -/
def setField (fields : List (String × JSValue)) (k : String) (v : JSValue) :
    List (String × JSValue) :=
  if fields.any (fun p => p.1 == k) then
    fields.map (fun p => if p.1 == k then (k, v) else p)
  else fields ++ [(k, v)]

/-- A container that is still open: the items of an array read so far, or the
properties of an object read so far with the key whose value comes next. -/
inductive Frame where
  | arr (items : List JSValue)
  | obj (fields : List (String × JSValue)) (key : String)

/-- The position inside a number. -/
inductive NumState where
  | minus
  | zero
  | int
  | dot
  | frac
  | e
  | eSign
  | eDigits
deriving DecidableEq

/-- The digits of a number read so far. -/
structure NumAcc where
  negative : Bool
  mant : Nat
  fracLen : Nat
  expNegative : Bool
  expVal : Nat

/-- The number a completed token denotes. -/
def NumAcc.toDecimal (a : NumAcc) : Decimal :=
  ⟨if a.negative then -(a.mant : Int) else a.mant,
   (if a.expNegative then -(a.expVal : Int) else a.expVal) - a.fracLen⟩

/-- What the parser expects next. -/
inductive Mode where
  | value
  | valueOrEnd
  | keyOrEnd
  | key
  | colon
  | after
  | done (v : JSValue)
  | lit (rest : List Nat) (v : JSValue)
  | str (isKey : Bool) (units : List Nat)
  | esc (isKey : Bool) (units : List Nat)
  | uni (isKey : Bool) (units : List Nat) (left : Nat) (acc : Nat)
  | num (st : NumState) (a : NumAcc)

/-- The parser state. -/
structure PState where
  stack : List Frame
  mode : Mode

/-- A value is complete: it is the result at top level, the next item of the
open array, or the value of the pending key of the open object. -/
def complete (v : JSValue) : List Frame → PState
  | [] => ⟨[], .done v⟩
  | .arr items :: rest => ⟨.arr (items ++ [v]) :: rest, .after⟩
  | .obj fields k :: rest => ⟨.obj (setField fields k v) "" :: rest, .after⟩

/-- One code point after a complete value. -/
def stepAfter (s : PState) (c : Nat) : Option PState :=
  if isJsonWhitespace c then some s
  else
    match s.mode, s.stack with
    | .after, .arr items :: rest =>
      if c = 44 then some ⟨s.stack, .value⟩
      else if c = 93 then some (complete (.array items) rest)
      else none
    | .after, .obj fields _ :: rest =>
      if c = 44 then some ⟨s.stack, .key⟩
      else if c = 125 then some (complete (.object fields) rest)
      else none
    | _, _ => none

/-- One code point where a value may start; `orEnd` allows the `]` of an empty array. -/
def stepValue (stack : List Frame) (orEnd : Bool) (c : Nat) : Option PState :=
  if isJsonWhitespace c then some ⟨stack, if orEnd then .valueOrEnd else .value⟩
  else if c = 34 then some ⟨stack, .str false []⟩
  else if c = 123 then some ⟨.obj [] "" :: stack, .keyOrEnd⟩
  else if c = 91 then some ⟨.arr [] :: stack, .valueOrEnd⟩
  else if c = 93 then
    match orEnd, stack with
    | true, .arr items :: rest => some (complete (.array items) rest)
    | _, _ => none
  else if c = 116 then some ⟨stack, .lit (codes "rue") (.bool true)⟩
  else if c = 102 then some ⟨stack, .lit (codes "alse") (.bool false)⟩
  else if c = 110 then some ⟨stack, .lit (codes "ull") .null⟩
  else if c = 45 then some ⟨stack, .num .minus ⟨true, 0, 0, false, 0⟩⟩
  else if c = 48 then some ⟨stack, .num .zero ⟨false, 0, 0, false, 0⟩⟩
  else
    match digitValue c with
    | some d => some ⟨stack, .num .int ⟨false, d, 0, false, 0⟩⟩
    | none => none

/-- One code point where a property name may start; `orEnd` allows the `}` of an empty object. -/
def stepKey (stack : List Frame) (orEnd : Bool) (c : Nat) : Option PState :=
  if isJsonWhitespace c then some ⟨stack, if orEnd then .keyOrEnd else .key⟩
  else if c = 34 then some ⟨stack, .str true []⟩
  else if c = 125 then
    match orEnd, stack with
    | true, .obj fields _ :: rest => some (complete (.object fields) rest)
    | _, _ => none
  else none

/-- The closing quote of a string: a key is recorded in the open object, any
other string is a complete value. -/
def endString (stack : List Frame) (isKey : Bool) (units : List Nat) : Option PState :=
  let s := ofCodes (utf16Join none units)
  if isKey then
    match stack with
    | .obj fields _ :: rest => some ⟨.obj fields s :: rest, .colon⟩
    | _ => none
  else some (complete (.string s) stack)

/-- The character an escape letter stands for. -/
def escapeValue (c : Nat) : Option Nat :=
  if c = 34 then some 34
  else if c = 92 then some 92
  else if c = 47 then some 47
  else if c = 98 then some 8
  else if c = 102 then some 12
  else if c = 110 then some 10
  else if c = 114 then some 13
  else if c = 116 then some 9
  else none

/-- One code point inside a number; a code point that cannot continue the
number ends it and is read again after the completed value. -/
def stepNum (stack : List Frame) (st : NumState) (a : NumAcc) (c : Nat) : Option PState :=
  let finish : Option PState := stepAfter (complete (.number a.toDecimal) stack) c
  let isE : Bool := c = 101 || c = 69
  match st with
  | .minus =>
    if c = 48 then some ⟨stack, .num .zero a⟩
    else (digitValue c).map (fun d => ⟨stack, .num .int { a with mant := d }⟩)
  | .zero =>
    if c = 46 then some ⟨stack, .num .dot a⟩
    else if isE then some ⟨stack, .num .e a⟩
    else if (digitValue c).isSome then none
    else finish
  | .int =>
    match digitValue c with
    | some d => some ⟨stack, .num .int { a with mant := a.mant * 10 + d }⟩
    | none =>
      if c = 46 then some ⟨stack, .num .dot a⟩
      else if isE then some ⟨stack, .num .e a⟩
      else finish
  | .dot =>
    (digitValue c).map
      (fun d => ⟨stack, .num .frac { a with mant := a.mant * 10 + d, fracLen := a.fracLen + 1 }⟩)
  | .frac =>
    match digitValue c with
    | some d =>
      some ⟨stack, .num .frac { a with mant := a.mant * 10 + d, fracLen := a.fracLen + 1 }⟩
    | none => if isE then some ⟨stack, .num .e a⟩ else finish
  | .e =>
    if c = 43 then some ⟨stack, .num .eSign a⟩
    else if c = 45 then some ⟨stack, .num .eSign { a with expNegative := true }⟩
    else (digitValue c).map (fun d => ⟨stack, .num .eDigits { a with expVal := d }⟩)
  | .eSign =>
    (digitValue c).map (fun d => ⟨stack, .num .eDigits { a with expVal := d }⟩)
  | .eDigits =>
    match digitValue c with
    | some d => some ⟨stack, .num .eDigits { a with expVal := a.expVal * 10 + d }⟩
    | none => finish

/-- One step of the parser; `none` is a syntax error. -/
def step (s : PState) (c : Nat) : Option PState :=
  match s.mode with
  | .value => stepValue s.stack false c
  | .valueOrEnd => stepValue s.stack true c
  | .keyOrEnd => stepKey s.stack true c
  | .key => stepKey s.stack false c
  | .colon =>
    if isJsonWhitespace c then some s
    else if c = 58 then some ⟨s.stack, .value⟩
    else none
  | .after => stepAfter s c
  | .done _ => stepAfter s c
  | .lit rest v =>
    match rest with
    | [] => none
    | r :: rest =>
      if c = r then
        (if rest.isEmpty then some (complete v s.stack) else some ⟨s.stack, .lit rest v⟩)
      else none
  | .str isKey units =>
    if c = 34 then endString s.stack isKey units
    else if c = 92 then some ⟨s.stack, .esc isKey units⟩
    else if c < 32 then none
    else some ⟨s.stack, .str isKey (units ++ [c])⟩
  | .esc isKey units =>
    if c = 117 then some ⟨s.stack, .uni isKey units 4 0⟩
    else (escapeValue c).map (fun u => ⟨s.stack, .str isKey (units ++ [u])⟩)
  | .uni isKey units left acc =>
    match hexValue c with
    | none => none
    | some h =>
      if left ≤ 1 then some ⟨s.stack, .str isKey (units ++ [acc * 16 + h])⟩
      else some ⟨s.stack, .uni isKey units (left - 1) (acc * 16 + h)⟩
  | .num st a => stepNum s.stack st a c

/-- The result at the end of the text: a value must be complete at top level. -/
def finish (s : PState) : Option JSValue :=
  match s.mode, s.stack with
  | .done v, _ => some v
  | .num st a, [] =>
    if st = .zero ∨ st = .int ∨ st = .frac ∨ st = .eDigits then some (.number a.toDecimal)
    else none
  | _, _ => none

/-- The host function `JSON.parse` on code points. -/
def JSON.parseCodes (text : List Nat) : Except JSError JSValue :=
  match text.foldlM step ⟨[], .value⟩ with
  | none => .error .syntaxError
  | some s =>
    match finish s with
    | none => .error .syntaxError
    | some v => .ok v

/-- The host function `JSON.parse`. -/
def JSON.parse (text : String) : Except JSError JSValue :=
  JSON.parseCodes (codes text)

/-! ## Property access and conversion to Number -/

/-- The property read `v.k` for a name `k` that no prototype defines and that is
neither `length` nor an array index (such as `exp`): the own property of an
object, `undefined` (here `none`) on any other value, and a `TypeError` on `null`. -/
def JSValue.get (v : JSValue) (k : String) : Except JSError (Option JSValue) :=
  match v with
  | .null => .error .typeError
  | .object fields => .ok ((fields.find? (fun p => p.1 == k)).map (fun p => p.2))
  | _ => .ok none

/-- White space and line terminators, which the conversion of a string to a
number trims. -/
def isStrWhiteSpace (c : Nat) : Bool :=
  c = 9 || c = 10 || c = 11 || c = 12 || c = 13 || c = 32 || c = 160 || c = 5760 ||
  (8192 ≤ c && c ≤ 8202) || c = 8232 || c = 8233 || c = 8239 || c = 8287 ||
  c = 12288 || c = 65279

/-- The number written by a non-empty list of digits of the given base. -/
def digitsValue (base : Nat) (cs : List Nat) : Option Nat :=
  if cs.isEmpty then none
  else
    cs.foldlM
      (fun acc c => (hexValue c).bind (fun d => if d < base then some (acc * base + d) else none))
      0

/-- An unsigned decimal literal `digits`, `digits.`, `digits.digits` or
`.digits` with an optional exponent part, or `Infinity`. -/
def unsignedDecimal (cs : List Nat) : Option JSNumber :=
  if cs = codes "Infinity" then some (.inf false)
  else
    let isDigit := fun c => (digitValue c).isSome
    let intPart := cs.takeWhile isDigit
    let rest := cs.dropWhile isDigit
    let fracPart := match rest with
      | 46 :: r => r.takeWhile isDigit
      | _ => []
    let rest := match rest with
      | 46 :: r => r.dropWhile isDigit
      | _ => rest
    if intPart.isEmpty && fracPart.isEmpty then none
    else
      let mant := (digitsValue 10 (48 :: (intPart ++ fracPart))).getD 0
      let expo : Option Int := match rest with
        | [] => some 0
        | c :: r =>
          if c = 101 ∨ c = 69 then
            match r with
            | 43 :: ds => (digitsValue 10 ds).map (fun n => (n : Int))
            | 45 :: ds => (digitsValue 10 ds).map (fun n => -(n : Int))
            | ds => (digitsValue 10 ds).map (fun n => (n : Int))
          else none
      expo.map (fun x => .fin ⟨mant, x - fracPart.length⟩)

/-- The conversion of a string to a number (`StringToNumber`): white space is
trimmed, the empty string is `0`, then a binary, octal or hexadecimal integer
or a signed decimal literal; anything else is `NaN`. -/
def stringToNumber (s : String) : JSNumber :=
  let cs := (((codes s).dropWhile isStrWhiteSpace).reverse.dropWhile isStrWhiteSpace).reverse
  match cs with
  | [] => .fin ⟨0, 0⟩
  | 48 :: c :: ds =>
    if c = 120 ∨ c = 88 then
      ((digitsValue 16 ds).map (fun n => JSNumber.fin ⟨n, 0⟩)).getD .nan
    else if c = 111 ∨ c = 79 then
      ((digitsValue 8 ds).map (fun n => JSNumber.fin ⟨n, 0⟩)).getD .nan
    else if c = 98 ∨ c = 66 then
      ((digitsValue 2 ds).map (fun n => JSNumber.fin ⟨n, 0⟩)).getD .nan
    else (unsignedDecimal cs).getD .nan
  | 43 :: ds => (unsignedDecimal ds).getD .nan
  | 45 :: ds => ((unsignedDecimal ds).map (fun x => x.mulInt (-1))).getD .nan
  | _ => (unsignedDecimal cs).getD .nan

mutual
/-- The conversion of a value to a string throws: the value is an object with
an own property `toString` (never callable in parsed JSON), or an array with
such an element. -/
def JSValue.toStringThrows : JSValue → Bool
  | .object fields => fields.any (fun p => p.1 == "toString")
  | .array items => JSValue.anyToStringThrows items
  | _ => false
/-- Some element of the list cannot be converted to a string. -/
def JSValue.anyToStringThrows : List JSValue → Bool
  | [] => false
  | v :: vs => v.toStringThrows || JSValue.anyToStringThrows vs
end

/-- The conversion of a parsed JSON value to a number (`ToNumber`). An array
is first joined to a string: the empty array gives `0`, a one-element array
gives the number its element prints and parses back to, a longer array
contains a comma and gives `NaN`. An object prints as `[object Object]` and
gives `NaN`, unless printing it throws. -/
def JSValue.toNumber : JSValue → Except JSError JSNumber
  | .null => .ok (.fin ⟨0, 0⟩)
  | .bool b => .ok (.fin ⟨if b then 1 else 0, 0⟩)
  | .number d => .ok (.fin d)
  | .string s => .ok (stringToNumber s)
  | .object fields =>
    if fields.any (fun p => p.1 == "toString") then .error .typeError else .ok .nan
  | .array [] => .ok (.fin ⟨0, 0⟩)
  | .array [.null] => .ok (.fin ⟨0, 0⟩)
  | .array [.bool _] => .ok .nan
  | .array [.number d] => .ok (.fin d)
  | .array [.string s] => .ok (stringToNumber s)
  | .array [.object fields] =>
    if fields.any (fun p => p.1 == "toString") then .error .typeError else .ok .nan
  | .array [.array items] => JSValue.toNumber (.array items)
  | .array items =>
    if JSValue.anyToStringThrows items then .error .typeError else .ok .nan

/-- The conversion to a number of a value that may be `undefined` (`none`). -/
def toNumber : Option JSValue → Except JSError JSNumber
  | none => .ok .nan
  | some v => v.toNumber

/-! ## The token check -/

/-- The expression `JSON.parse(atob(token.split('.')[1]))`. -/
def decodePayload (token : String) : Except JSError JSValue :=
  match atob ((splitCodes 46 (codes token)).get? 1) with
  | .error err => .error err
  | .ok bytes => JSON.parseCodes bytes

/-- The expression `payload.exp * 1000 < Date.now()`. -/
def expiryPassed (payload : JSValue) (now : Int) : Except JSError Bool :=
  match payload.get "exp" with
  | .error err => .error err
  | .ok exp =>
    match toNumber exp with
    | .error err => .error err
    | .ok x => .ok ((x.mulInt 1000).ltInt now)

/-- The helper `isTokenExpired(token)` that every guarded component defines
(`Dashboard.jsx`, `watchlist.jsx`, `AddAdmin.jsx`, ...): `true` for a
falsy token (`null`, here `none`, or the empty string), `true` when decoding
throws, otherwise the comparison of `exp` with the clock. -/
def isTokenExpired (token : Option String) (now : Int) : Bool :=
  match token with
  | none => true
  | some t =>
    if t = "" then true
    else
      match decodePayload t with
      | .error _ => true
      | .ok payload =>
        match expiryPassed payload now with
        | .error _ => true
        | .ok b => b

/-! ## `localStorage` -/

/-- The browser's `localStorage`: keys with their string values. -/
structure Storage where
  entries : List (String × String)
deriving DecidableEq, Repr

/-- The call `localStorage.getItem(k)`; `none` is `null`. -/
def Storage.getItem (s : Storage) (k : String) : Option String :=
  (s.entries.find? (fun p => p.1 == k)).map (fun p => p.2)

/-- The call `localStorage.removeItem(k)`: no effect when the key is absent. -/
def Storage.removeItem (s : Storage) (k : String) : Storage :=
  ⟨s.entries.filter (fun p => p.1 != k)⟩

/-- The call `localStorage.setItem(k, v)`. -/
def Storage.setItem (s : Storage) (k v : String) : Storage :=
  if s.entries.any (fun p => p.1 == k) then
    ⟨s.entries.map (fun p => if p.1 == k then (k, v) else p)⟩
  else ⟨s.entries ++ [(k, v)]⟩

/-- The test `!token` on the result of `getItem`: `null` and the empty string are falsy. -/
def falsy (token : Option String) : Bool :=
  match token with
  | none => true
  | some t => t == ""

/-! ## `verifyToken` -/

/-- What a guard or handler did besides returning. -/
structure GuardResult where
  storage : Storage
  result : Bool
  notice : Option String
  navigate : Option String
deriving DecidableEq, Repr

/-- The helper `verifyToken` of the guarded components (`ChangeUserRole.jsx`,
`DeleteUsers.jsx`, `ReviewModeration.jsx`, `watchhistory.jsx`, ...). The
copies differ only in the error notice they show, if any, which is the
argument `notice`. -/
def verifyToken (notice : Option String) (storage : Storage) (now : Int) : GuardResult :=
  let token := storage.getItem "jwtToken"
  if falsy token || isTokenExpired token now then
    { storage := (storage.removeItem "jwtToken").removeItem "loggedInUser"
      result := false
      notice := notice
      navigate := some "/login" }
  else
    { storage := storage, result := true, notice := none, navigate := none }

/-- What the click handler of a navigation link did. -/
structure ClickResult where
  storage : Storage
  defaultPrevented : Bool
  navigate : Option String
deriving DecidableEq, Repr

/-- The click handler `verifyToken(e)` of the links in the end-user `navbar.jsx`.
It decodes the token inline; its `catch` branch and its branch for a missing
token prevent the navigation and go to the login page without touching
`localStorage`. -/
def Navbar.verifyToken (storage : Storage) (now : Int) : ClickResult :=
  match storage.getItem "jwtToken" with
  | none => { storage := storage, defaultPrevented := true, navigate := some "/login" }
  | some token =>
    if token = "" then
      { storage := storage, defaultPrevented := true, navigate := some "/login" }
    else
      match decodePayload token with
      | .error _ => { storage := storage, defaultPrevented := true, navigate := some "/login" }
      | .ok payload =>
        match expiryPassed payload now with
        | .error _ => { storage := storage, defaultPrevented := true, navigate := some "/login" }
        | .ok true =>
          { storage := (storage.removeItem "jwtToken").removeItem "loggedInUser"
            defaultPrevented := true
            navigate := some "/login" }
        | .ok false => { storage := storage, defaultPrevented := false, navigate := none }

/-! ## Logout handlers -/

/-- What a logout handler did. -/
structure LogoutResult where
  storage : Storage
  navigate : String
deriving DecidableEq, Repr

/-- The `onClick` of the "Log out" button in `navbar.jsx`, the navigation bar
that `my-app/src/App.js` mounts. (`updatednavbar.jsx` is imported by no
module and is not part of the running application.) -/
def Navbar.logout (storage : Storage) : LogoutResult :=
  { storage := (storage.removeItem "loggedInUser").removeItem "jwtToken"
    navigate := "/login" }

/-- The handler `handleLogout` of `AdminNavbar.jsx`; it navigates after one second. -/
def AdminNavbar.handleLogout (storage : Storage) : LogoutResult :=
  { storage := (storage.removeItem "loggedInUser").removeItem "jwtToken"
    navigate := "/login" }

/-! ## Login -/

/-- A record of the `users` collection, as the registration form, the add-admin
form and the profile editors write it. `user_name` is absent for a
self-registered user; `other` holds any further properties (`createdAt`,
`bio`, ...). -/
structure User where
  id : String
  name : String
  user_name : Option String
  email : String
  password : String
  isAdmin : Bool
  other : List (String × String)
deriving DecidableEq, Repr

/-- The library functions `handleLogin` calls.

* `compareSync password hash` is `bcrypt.compareSync`.
* `signJWT name now` is the token that `new SignJWT(...)`, built from the
  record's name with `setProtectedHeader`, `setExpirationTime('1h')` and
  `sign(key)`, resolves to when the clock reads `now`.
* `stringify user` is `JSON.stringify` of a record.

With these the calls are total: `Env` describes a host on which no call
throws. The hosts whose calls may throw are `Host`, further down. -/
structure Env where
  compareSync : String → String → Bool
  signJWT : String → Int → String
  stringify : User → String

/-- The outcome of `fetch('http://localhost:3002/users')` followed by
`response.json()`: the request or the decoding of the body fails, the
response is not `ok`, or the body is the list of records. -/
inductive UsersResponse where
  | failed
  | notOk (status : Nat)
  | ok (users : List User)
deriving DecidableEq, Repr

/-- The two kinds of toast. -/
inductive ToastKind where
  | success
  | error
deriving DecidableEq, Repr

/-- A toast notification. -/
structure Toast where
  kind : ToastKind
  message : String
deriving DecidableEq, Repr

/-- The toast for a failed match or password check. -/
def invalidCredentials : Toast :=
  ⟨.error, "Invalid email or password"⟩

/-- The toast of the `catch` branch. -/
def loginProblem : Toast :=
  ⟨.error, "There was a problem logging in. Please try again."⟩

/-- The expression `name.split(' ')[0]`. -/
def firstName (name : String) : String :=
  ofCodes ((splitCodes 32 (codes name)).headD [])

/-- The toast of a successful login. -/
def welcome (user : User) : Toast :=
  ⟨.success, "Welcome back, " ++ firstName user.name ++ "!"⟩

/-- What `handleLogin` did. -/
structure LoginResult where
  storage : Storage
  toast : Toast
  navigate : Option String
deriving DecidableEq, Repr

/-- The two writes of a successful login: `loggedInUser`, then `jwtToken`. -/
def persistSession (env : Env) (user : User) (now : Int) (storage : Storage) : Storage :=
  (storage.setItem "loggedInUser" (env.stringify user)).setItem "jwtToken"
    (env.signJWT user.name now)

/-- The handler `handleLogin` of the end-user `Login.jsx`, as it runs on
well-typed records when no call inside its `try` block throws. The handler
with its `catch` branch is `Login.handleLogin.onHost`. -/
def Login.handleLogin (env : Env) (response : UsersResponse) (email password : String)
    (now : Int) (storage : Storage) : LoginResult :=
  match response with
  | .failed => { storage := storage, toast := loginProblem, navigate := none }
  | .notOk _ => { storage := storage, toast := loginProblem, navigate := none }
  | .ok users =>
    match users.find? (fun user => user.email == email) with
    | some foundUser =>
      if env.compareSync password foundUser.password then
        { storage := persistSession env foundUser now storage
          toast := welcome foundUser
          navigate := some "/" }
      else { storage := storage, toast := invalidCredentials, navigate := none }
    | none => { storage := storage, toast := invalidCredentials, navigate := none }

/-- The handler `handleLogin` of the admin console's `AdminLogin.jsx`, as it
runs on well-typed records when no call inside its `try` block throws. The
handler with its `catch` branch is `AdminLogin.handleLogin.onHost`. -/
def AdminLogin.handleLogin (env : Env) (response : UsersResponse) (email password : String)
    (now : Int) (storage : Storage) : LoginResult :=
  match response with
  | .failed => { storage := storage, toast := loginProblem, navigate := none }
  | .notOk _ => { storage := storage, toast := loginProblem, navigate := none }
  | .ok users =>
    match users.find? (fun user => user.email == email && user.isAdmin == true) with
    | some foundUser =>
      if env.compareSync password foundUser.password then
        { storage := persistSession env foundUser now storage
          toast := welcome foundUser
          navigate := some "/dashboard" }
      else { storage := storage, toast := invalidCredentials, navigate := none }
    | none => { storage := storage, toast := invalidCredentials, navigate := none }

/-- A stand-in for the libraries, used in examples: the hash of `p` is the text
`hash(p)`, the token names its holder and the time of signing, and a record is
written out as its id, email and password hash. -/
def exampleEnv : Env where
  compareSync := fun password hash => hash == "hash(" ++ password ++ ")"
  signJWT := fun name now => "token-of-" ++ name ++ "-at-" ++ toString now
  stringify := fun user => user.id ++ "|" ++ user.email ++ "|" ++ user.password

/-- Example record: Ann, an administrator, whose password is `secret`. -/
def ann : User :=
  { id := "1", name := "Ann Admin", user_name := some "ann", email := "a@x.com"
    password := "hash(secret)", isAdmin := true, other := [] }

/-- Example record: a second account registered with Ann's email, whose
password is `other`; it is not an administrator. -/
def annAgain : User :=
  { id := "2", name := "Ann Again", user_name := none, email := "a@x.com"
    password := "hash(other)", isAdmin := false, other := [] }

/-! ## The notions the claims use -/

/-- The token has no second dot-separated segment. -/
def SegmentMissing (t : String) : Prop :=
  (splitCodes 46 (codes t)).get? 1 = none

/-- The second segment of the token is not valid base64. -/
def NotBase64 (t : String) : Prop :=
  ∃ seg err, (splitCodes 46 (codes t)).get? 1 = some seg ∧ atobCodes seg = .error err

/-- The second segment of the token is base64 of a text that is not JSON. -/
def NotJson (t : String) : Prop :=
  ∃ seg bytes err, (splitCodes 46 (codes t)).get? 1 = some seg ∧ atobCodes seg = .ok bytes ∧
    JSON.parseCodes bytes = .error err

/-- The payload of the token cannot be decoded. -/
def Undecodable (t : String) : Prop :=
  SegmentMissing t ∨ NotBase64 t ∨ NotJson t

/-- The payload of the token decodes and carries a whole number of seconds
`exp` that the clock has passed: `exp * 1000 < now`. -/
def Expired (t : String) (now : Int) : Prop :=
  ∃ payload d e, decodePayload t = .ok payload ∧
    payload.get "exp" = .ok (some (.number d)) ∧ d.IsInt e ∧ e * 1000 < now

/-- The stored session is invalid: the token is absent (`null` or empty),
undecodable or expired. -/
def SessionInvalid (storage : Storage) (now : Int) : Prop :=
  match storage.getItem "jwtToken" with
  | none => True
  | some t => t = "" ∨ Undecodable t ∨ Expired t now

/-! ## `JSON.stringify` -/

/-- The lower-case hexadecimal digit of a value below sixteen. -/
def hexDigitCode (n : Nat) : Nat :=
  if n < 10 then 48 + n else 87 + n

/-- How `JSON.stringify` writes one character of a string: the quote, the
backslash and the control characters are escaped, every other character
stands for itself. -/
def escapeCode (c : Nat) : List Nat :=
  if c = 34 then [92, 34]
  else if c = 92 then [92, 92]
  else if c = 8 then [92, 98]
  else if c = 12 then [92, 102]
  else if c = 10 then [92, 110]
  else if c = 13 then [92, 114]
  else if c = 9 then [92, 116]
  else if c < 32 then [92, 117, 48, 48, hexDigitCode (c / 16), hexDigitCode (c % 16)]
  else [c]

/-- The JSON text of a string: its escaped characters between quotes. -/
def JSON.quoteCodes (s : String) : List Nat :=
  34 :: ((codes s).flatMap escapeCode ++ [34])

/-- The JSON text of a number. A whole number is written with its decimal
digits, as JavaScript does below `10 ^ 21`; any other number is written as
mantissa and exponent, which reads back to the same number but need not be
the digits JavaScript chooses. -/
def JSON.numberCodes (d : Decimal) : List Nat :=
  if 0 ≤ d.exp10 then codes (toString (d.mant * 10 ^ d.exp10.toNat))
  else codes (toString d.mant) ++ 101 :: codes (toString d.exp10)

mutual
/-- The host function `JSON.stringify` (with one argument) on a JSON value,
as code points: no white space, properties in their order. -/
def JSON.stringifyCodes : JSValue → List Nat
  | .null => codes "null"
  | .bool b => if b then codes "true" else codes "false"
  | .number d => JSON.numberCodes d
  | .string s => JSON.quoteCodes s
  | .array items => 91 :: (JSON.stringifyItems items ++ [93])
  | .object fields => 123 :: (JSON.stringifyFields fields ++ [125])
/-- The items of an array, separated by commas. -/
def JSON.stringifyItems : List JSValue → List Nat
  | [] => []
  | v :: vs =>
    match vs with
    | [] => JSON.stringifyCodes v
    | _ :: _ => JSON.stringifyCodes v ++ 44 :: JSON.stringifyItems vs
/-- The properties of an object, each as `"key":value`, separated by commas. -/
def JSON.stringifyFields : List (String × JSValue) → List Nat
  | [] => []
  | (k, v) :: fs =>
    match fs with
    | [] => JSON.quoteCodes k ++ 58 :: JSON.stringifyCodes v
    | _ :: _ => JSON.quoteCodes k ++ 58 :: (JSON.stringifyCodes v ++ 44 :: JSON.stringifyFields fs)
end

/-- The host function `JSON.stringify`. -/
def JSON.stringify (v : JSValue) : String :=
  ofCodes (JSON.stringifyCodes v)

/-! ## The `jose` library: signing a token -/

/-- The UTF-8 bytes of a code point, as `TextEncoder` produces them. -/
def utf8Encode (c : Nat) : List Nat :=
  if c < 128 then [c]
  else if c < 2048 then [192 + c / 64, 128 + c % 64]
  else if c < 65536 then [224 + c / 4096, 128 + c / 64 % 64, 128 + c % 64]
  else [240 + c / 262144, 128 + c / 4096 % 64, 128 + c / 64 % 64, 128 + c % 64]

/-- The character of a six-bit value in the URL-safe base64 alphabet
`A-Z a-z 0-9 - _`. -/
def base64urlCode (v : Nat) : Nat :=
  if v < 26 then 65 + v
  else if v < 52 then 71 + v
  else if v < 62 then v - 4
  else if v = 62 then 45
  else 95

/-- The URL-safe base64 text of a list of bytes, without padding. -/
def base64urlEncode : List Nat → List Nat
  | a :: b :: c :: rest =>
    let n := a * 65536 + b * 256 + c
    base64urlCode (n / 262144) :: base64urlCode (n / 4096 % 64) ::
      base64urlCode (n / 64 % 64) :: base64urlCode (n % 64) :: base64urlEncode rest
  | [a, b] =>
    let n := (a * 256 + b) * 4
    [base64urlCode (n / 4096), base64urlCode (n / 64 % 64), base64urlCode (n % 64)]
  | [a] => [base64urlCode (a * 16 / 64), base64urlCode (a * 16 % 64)]
  | [] => []

/-- The claims of the token that `handleLogin` mints: the `name` given to
`new SignJWT(...)`, and the `exp` that `setExpirationTime('1h')` adds, the
current time in whole seconds plus 3600. -/
def jose.payload (name : String) (now : Int) : JSValue :=
  .object [("name", .string name), ("exp", .number ⟨now / 1000 + 3600, 0⟩)]

/-- The token that `new SignJWT(...)` with the protected header `alg: HS256`
and `setExpirationTime('1h')` resolves to from `sign(key)`: the URL-safe
base64 of the header, of the claims and of the signature, joined by dots.
`sign` is the HMAC of the signing input under the key. -/
def jose.signJWT (sign : List Nat → List Nat) (name : String) (now : Int) : String :=
  let header := base64urlEncode
    ((JSON.stringifyCodes (.object [("alg", .string "HS256")])).flatMap utf8Encode)
  let claims := base64urlEncode
    ((JSON.stringifyCodes (jose.payload name now)).flatMap utf8Encode)
  let signingInput := header ++ 46 :: claims
  ofCodes (signingInput ++ 46 :: base64urlEncode (sign signingInput))

/-- A record of the `users` collection as a JSON object. The order of the
properties is the one chosen here; the typed record does not fix it. -/
def User.toJSON (u : User) : JSValue :=
  .object
    ([("id", .string u.id), ("name", .string u.name)] ++
      (match u.user_name with
        | some n => [("user_name", JSValue.string n)]
        | none => []) ++
      [("email", .string u.email), ("password", .string u.password),
        ("isAdmin", .bool u.isAdmin)] ++
      u.other.map (fun p => (p.1, JSValue.string p.2)))

/-- The libraries as the browser runs them: `JSON.stringify` and the `jose`
signer are the models above; the password check of `bcryptjs` and the HMAC
stay parameters. -/
def browserEnv (compareSync : String → String → Bool) (sign : List Nat → List Nat) : Env where
  compareSync := compareSync
  signJWT := jose.signJWT sign
  stringify := fun user => JSON.stringify user.toJSON

/-- Example record: Zoë, whose password is `secret`. -/
def zoe : User :=
  { id := "3", name := "Zoë", user_name := some "zoe", email := "z@x.com"
    password := "hash(secret)", isAdmin := false, other := [] }

/-- A stand-in for the HMAC in examples: thirty-two zero bytes. -/
def exampleSign (_signingInput : List Nat) : List Nat :=
  List.replicate 32 0

/-! ## Values at run time -/

/-- The truth value of a value that may be `undefined` (`ToBoolean`): `undefined`,
`null`, `false`, zero and the empty string are falsy. -/
def truthy : Option JSValue → Bool
  | none => false
  | some .null => false
  | some (.bool b) => b
  | some (.number d) => d.mant != 0
  | some (.string s) => s != ""
  | some (.array _) => true
  | some (.object _) => true

/-- The expression `a || b`. -/
def orElse (a b : Option JSValue) : Option JSValue :=
  if truthy a then a else b

/-- The property read `v.k` on a value that is not `null`, so that the read
cannot throw; `none` is `undefined`. -/
def JSValue.prop (v : JSValue) (k : String) : Option JSValue :=
  match v.get k with
  | .ok p => p
  | .error _ => none

/-- Two finite numbers have the same value. -/
def Decimal.sameValue (a b : Decimal) : Bool :=
  if a.exp10 ≤ b.exp10 then a.mant == b.mant * 10 ^ (b.exp10 - a.exp10).toNat
  else a.mant * 10 ^ (a.exp10 - b.exp10).toNat == b.mant

/-- The comparison `a === b` of values that may be `undefined`. An array or an
object is equal only to itself, by reference, which the model cannot tell: it
answers `false` for them; identifiers are strings or numbers. -/
def strictEq : Option JSValue → Option JSValue → Bool
  | none, none => true
  | some .null, some .null => true
  | some (.bool a), some (.bool b) => a == b
  | some (.number a), some (.number b) => a.sameValue b
  | some (.string a), some (.string b) => a == b
  | _, _ => false

/-- The string with its ASCII capitals in lower case. Apart from the Kelvin
sign, no other character has an ASCII lower-case form, so for an ASCII word `w`
without `k` the test `s.toLowerCase() === w` is `lowerAscii s == w`. -/
def lowerAscii (s : String) : String :=
  ofCodes ((codes s).map (fun c => if 65 ≤ c ∧ c ≤ 90 then c + 32 else c))

/-- The method `trim`: white space and line terminators are removed at both ends. -/
def trim (s : String) : String :=
  ofCodes (((codes s).dropWhile isStrWhiteSpace).reverse.dropWhile isStrWhiteSpace).reverse

/-! ## Requests to the data store -/

/-- The HTTP methods the applications use. -/
inductive Method where
  | GET
  | POST
  | PATCH
  | DELETE
deriving DecidableEq, Repr

/-- A call of `fetch`. The URL is `http://localhost:3002/` followed by the
collection; for a single record `/` and the interpolated value `record`
follow (`some none` is an interpolated `undefined`), and for a filtered read
the query parameters. `body` is the value handed to `JSON.stringify`;
properties whose value is `undefined` are left out of it, as
`JSON.stringify` does. -/
structure Request where
  method : Method
  collection : String
  record : Option (Option JSValue)
  query : List (String × Option JSValue)
  body : Option JSValue
deriving Repr

/-- A request is a write: every method but `GET`. -/
def Request.isWrite (r : Request) : Bool :=
  r.method != .GET

/-- A property of an object literal: left out when its value is `undefined`. -/
def optField (k : String) (v : Option JSValue) : List (String × JSValue) :=
  match v with
  | some x => [(k, x)]
  | none => []

/-- What a handler did: the storage it leaves, the requests it sent in order,
and where it navigated. Notices and component state are left out. -/
structure HandlerResult where
  storage : Storage
  requests : List Request
  navigate : Option String
deriving Repr

/-- The test `!token || isTokenExpired(token)` on the stored token. -/
def sessionCheckFails (storage : Storage) (now : Int) : Bool :=
  falsy (storage.getItem "jwtToken") || isTokenExpired (storage.getItem "jwtToken") now

/-- The two calls `removeItem('jwtToken')` and `removeItem('loggedInUser')`. -/
def evict (storage : Storage) : Storage :=
  (storage.removeItem "jwtToken").removeItem "loggedInUser"

/-- The outcome of a guard that failed: the session is evicted, nothing is
sent, and the caller goes to the login page. -/
def evicted (storage : Storage) : HandlerResult :=
  { storage := evict storage, requests := [], navigate := some "/login" }

/-- The outcome of a handler that returns early: nothing changes. -/
def unchanged (storage : Storage) : HandlerResult :=
  { storage := storage, requests := [], navigate := none }

/-! ## The admin application: start-up and route gate -/

/-- The constant `initialAdminStatus` of the admin `App.js`:
`storedUser ? JSON.parse(storedUser).isAdmin === true : false`, where
`storedUser` is the `loggedInUser` entry. An entry that is not JSON, or that
is the JSON `null`, makes the module throw. -/
def App.initialAdminStatus (storage : Storage) : Except JSError Bool :=
  match storage.getItem "loggedInUser" with
  | none => .ok false
  | some storedUser =>
    if storedUser = "" then .ok false
    else
      match JSON.parse storedUser with
      | .error err => .error err
      | .ok userObj =>
        match userObj.get "isAdmin" with
        | .error err => .error err
        | .ok isAdmin => .ok (strictEq isAdmin (some (.bool true)))

/-- The mount effect of `AdminLogin.jsx`: when the `loggedInUser` entry holds a
user whose `isAdmin` is truthy it navigates to the dashboard. The result is
the route navigated to, if any. -/
def AdminLogin.onMount (storage : Storage) : Except JSError (Option String) :=
  match storage.getItem "loggedInUser" with
  | none => .ok none
  | some storedUser =>
    if storedUser = "" then .ok none
    else
      match JSON.parse storedUser with
      | .error err => .error err
      | .ok userObj =>
        match userObj.get "isAdmin" with
        | .error err => .error err
        | .ok isAdmin => .ok (if truthy isAdmin then some "/dashboard" else none)

/-- The admin application while the page stays loaded: the state
`isLoggedInAdmin` of `App` and the browser's storage. -/
structure AdminApp where
  isLoggedInAdmin : Bool
  storage : Storage
deriving DecidableEq, Repr

/-- Loading the page: `isLoggedInAdmin` starts as `initialAdminStatus`. -/
def App.load (storage : Storage) : Except JSError AdminApp :=
  match App.initialAdminStatus storage with
  | .error err => .error err
  | .ok status => .ok { isLoggedInAdmin := status, storage := storage }

/-- The paths of the routes that `App` declares only when `isLoggedInAdmin` holds. -/
def App.protectedPaths : List String :=
  ["/dashboard", "/content-management/add", "/content-management/edit",
   "/content-management/delete", "/content-management/user-requested",
   "/content-management/review", "/user-management/view", "/user-management/edit",
   "/user-management/delete", "/user-management/roles", "/user-management/add-admin"]

/-- What the router renders for a path. -/
inductive Rendered where
  | page (path : String)
  | redirect (target : String)
deriving DecidableEq, Repr

/-- The `Routes` of `App`: the login page always; with `isLoggedInAdmin` the
protected pages, and a redirect to the dashboard for any other path; without
it a redirect to the login page for any other path. Paths are compared
exactly. -/
def App.route (app : AdminApp) (path : String) : Rendered :=
  if path = "/login" then .page "/login"
  else if app.isLoggedInAdmin then
    if path ∈ App.protectedPaths then .page path else .redirect "/dashboard"
  else .redirect "/login"

/-- A login attempt on the login page. `App` hands `setIsLoggedInAdmin` to no
component and never calls it, so only the storage changes. -/
def App.login (env : Env) (app : AdminApp) (response : UsersResponse) (email password : String)
    (now : Int) : AdminApp :=
  { app with storage := (AdminLogin.handleLogin env response email password now app.storage).storage }

/-- A click on "Log out" in the admin navbar: only the storage changes. -/
def App.logout (app : AdminApp) : AdminApp :=
  { app with storage := (AdminNavbar.handleLogout app.storage).storage }

/-- A call of `verifyToken` by one of the views: only the storage changes. -/
def App.verifyToken (app : AdminApp) (now : Int) : AdminApp :=
  { app with storage := (Mediaverse.verifyToken none app.storage now).storage }

/-! ## The admin console: handlers that write to the data store -/

/-- The test `v.toLowerCase() === w`: a value that is not a string has no
method `toLowerCase`, and the call throws. -/
def lowerIs (v : Option JSValue) (w : String) : Except JSError Bool :=
  match v with
  | some (.string s) => .ok (lowerAscii s == w)
  | _ => .error .typeError

/-- The test `v?.toLowerCase() === w`: `undefined` and `null` give `false`
without a call. -/
def optLowerIs (v : Option JSValue) (w : String) : Except JSError Bool :=
  match v with
  | none => .ok false
  | some .null => .ok false
  | some x => lowerIs (some x) w

/-- The collection a media record belongs to. -/
def mediaCollection (isMovie : Bool) : String :=
  if isMovie then "movies" else "tv_shows"

/-- The fields of the add-admin form. -/
structure AdminForm where
  name : String
  user_name : String
  email : String
  password : String
deriving DecidableEq, Repr

/-- The handler `handleSubmit` of `AddAdmin.jsx`. `hashSync` is
`bcrypt.hashSync` with ten salt rounds, `toLowerCase` the string method,
`createdAt` the current time as ISO text, and `responseOk` tells whether the
request came back with an `ok` response. -/
def AddAdmin.handleSubmit (hashSync : String → String) (toLowerCase : String → String)
    (createdAt : String) (formData : AdminForm) (responseOk : Bool) (storage : Storage)
    (now : Int) : HandlerResult :=
  if trim formData.name = "" ∨ trim formData.user_name = "" ∨ trim formData.email = "" ∨
      trim formData.password = "" then unchanged storage
  else if sessionCheckFails storage now then evicted storage
  else
    { storage := storage
      requests :=
        [{ method := .POST, collection := "users", record := none, query := []
           body := some (.object
            [("name", .string (trim formData.name)),
             ("user_name", .string (trim formData.user_name)),
             ("email", .string (toLowerCase (trim formData.email))),
             ("password", .string (hashSync formData.password)),
             ("isAdmin", .bool true),
             ("createdAt", .string createdAt)]) }]
      navigate := if responseOk then some "/user-management/view" else none }

/-- The fields of the add-media forms of both applications. -/
structure MediaForm where
  type : String
  title : String
  year : String
  rated : String
  releaseDate : String
  runtime : String
  genre : String
  director : String
  writer : String
  actors : String
  plot : String
  language : String
  country : String
  poster : String
  imdbRating : String
deriving DecidableEq, Repr

/-- The handler `handleSubmit` of the admin `AddMovieTvShow.jsx`. -/
def AddMovieTvShow.handleSubmit (createdAt : String) (formData : MediaForm) (responseOk : Bool)
    (storage : Storage) (now : Int) : HandlerResult :=
  if sessionCheckFails storage now then evicted storage
  else
    { storage := storage
      requests :=
        [{ method := .POST
           collection := mediaCollection (lowerAscii formData.type == "movie")
           record := none, query := []
           body := some (.object
            [("id", .string (toString now)),
             ("media_type", .string formData.type),
             ("Title", .string formData.title),
             ("Year", .string formData.year),
             ("Rated", .string formData.rated),
             ("Released", .string formData.releaseDate),
             ("Runtime", .string formData.runtime),
             ("Genre", .string formData.genre),
             ("Director", .string formData.director),
             ("Writer", .string formData.writer),
             ("Actors", .string formData.actors),
             ("Plot", .string formData.plot),
             ("Language", .string formData.language),
             ("Country", .string formData.country),
             ("Poster", .string formData.poster),
             ("imdbRating", .string formData.imdbRating),
             ("addedBy", .string "admin"),
             ("createdAt", .string createdAt)]) }]
      navigate := if responseOk then some "/dashboard" else none }

/-- The outcome of a handler whose call of `verifyToken` failed. -/
def guardFailed (guard : GuardResult) : HandlerResult :=
  { storage := guard.storage, requests := [], navigate := guard.navigate }

/-- The handler `confirmChangeRole` of `ChangeUserRole.jsx`; `userToChange` is
the selected user, `null` when none is selected. -/
def ChangeUserRole.confirmChangeRole (userToChange : JSValue) (storage : Storage) (now : Int) :
    HandlerResult :=
  let guard := verifyToken (some "Session expired. Please log in again.") storage now
  if !guard.result then guardFailed guard
  else if !truthy (some userToChange) then unchanged storage
  else
    { storage := storage
      requests :=
        [{ method := .PATCH, collection := "users", record := some (userToChange.prop "id")
           query := []
           body := some (.object [("isAdmin", .bool (!truthy (userToChange.prop "isAdmin")))]) }]
      navigate := none }

/-- The handler `confirmDelete` of `DeleteUsers.jsx`. -/
def DeleteUsers.confirmDelete (userToDelete : JSValue) (storage : Storage) (now : Int) :
    HandlerResult :=
  let guard := verifyToken (some "Session expired. Please log in again.") storage now
  if !guard.result then guardFailed guard
  else if !truthy (some userToDelete) then unchanged storage
  else
    { storage := storage
      requests :=
        [{ method := .DELETE, collection := "users", record := some (userToDelete.prop "id")
           query := [], body := none }]
      navigate := none }

/-- The handler `handleSave` of `EditUsers.jsx`, which runs its action through
`handleActionWithTokenCheck`. -/
def EditUsers.handleSave (editingUser : JSValue) (storage : Storage) (now : Int) :
    HandlerResult :=
  let guard := verifyToken none storage now
  if !guard.result then guardFailed guard
  else if !truthy (some editingUser) then unchanged storage
  else
    { storage := storage
      requests :=
        [{ method := .PATCH, collection := "users", record := some (editingUser.prop "id")
           query := []
           body := some (.object
            (optField "name" (editingUser.prop "name") ++
             optField "email" (editingUser.prop "email") ++
             optField "user_name" (editingUser.prop "user_name") ++
             optField "bio" (editingUser.prop "bio") ++
             optField "gender" (editingUser.prop "gender") ++
             optField "dob" (editingUser.prop "dob") ++
             optField "country" (editingUser.prop "country"))) }]
      navigate := none }

/-- The handler `handleConfirmDelete` of `DeleteMoviesTvShows.jsx`. The
collection is chosen inside the `try` block: an exception there ends the
handler without a request. -/
def DeleteMoviesTvShows.handleConfirmDelete (selectedItem : JSValue) (storage : Storage)
    (now : Int) : HandlerResult :=
  let guard := verifyToken (some "Session expired. Please log in again.") storage now
  if !guard.result then guardFailed guard
  else if !truthy (some selectedItem) then unchanged storage
  else
    let isMovie : Except JSError Bool :=
      match optLowerIs (selectedItem.prop "Type") "movie" with
      | .error err => .error err
      | .ok true => .ok true
      | .ok false => optLowerIs (selectedItem.prop "media_type") "movie"
    match isMovie with
    | .error _ => unchanged storage
    | .ok movie =>
      { storage := storage
        requests :=
          [{ method := .DELETE, collection := mediaCollection movie
             record := some (selectedItem.prop "id"), query := [], body := none }]
        navigate := none }

/-- The handler `handleUpdate` of `EditMoviesTvShows.jsx`, which runs its
action through `handleActionWithTokenCheck`; the body is the edited item. -/
def EditMoviesTvShows.handleUpdate (editingItem : JSValue) (storage : Storage) (now : Int) :
    HandlerResult :=
  let guard := verifyToken (some "Session expired. Please log in again.") storage now
  if !guard.result then guardFailed guard
  else if !truthy (some editingItem) then unchanged storage
  else
    match lowerIs
        (orElse (orElse (editingItem.prop "media_type") (editingItem.prop "Type"))
          (some (.string ""))) "movie" with
    | .error _ => unchanged storage
    | .ok movie =>
      { storage := storage
        requests :=
          [{ method := .PATCH, collection := mediaCollection movie
             record := some (editingItem.prop "id"), query := [], body := some editingItem }]
        navigate := none }

/-- The handler `handleDeleteReview` of `ReviewModeration.jsx`. -/
def ReviewModeration.handleDeleteReview (reviewId : Option JSValue) (storage : Storage)
    (now : Int) : HandlerResult :=
  let guard := verifyToken (some "Session expired. Please log in again.") storage now
  if !guard.result then guardFailed guard
  else
    { storage := storage
      requests :=
        [{ method := .DELETE, collection := "user_ratings", record := some reviewId
           query := [], body := none }]
      navigate := none }

/-- The call `list.find((item) => item.id === id)`; reading `id` from a `null`
item throws. -/
def findById (id : Option JSValue) : List JSValue → Except JSError (Option JSValue)
  | [] => .ok none
  | item :: rest =>
    match item.get "id" with
    | .error err => .error err
    | .ok itemId => if strictEq itemId id then .ok (some item) else findById id rest

/-- The record `approvedMedia` that the admin `RequestedMedia.jsx` builds from
a requested-media record. -/
def approvedMedia (media : JSValue) (createdAt : String) : JSValue :=
  .object
    (optField "user_id" (media.prop "user_id") ++
     optField "media_type" (media.prop "media_type") ++
     optField "Title" (orElse (media.prop "title") (media.prop "Title")) ++
     optField "Year" (orElse (media.prop "year") (media.prop "Year")) ++
     optField "Rated" (orElse (media.prop "Rated") (media.prop "rated")) ++
     optField "Released" (orElse (media.prop "Released") (media.prop "releaseDate")) ++
     optField "Runtime" (orElse (media.prop "Runtime") (media.prop "runtime")) ++
     optField "Genre" (orElse (media.prop "Genre") (media.prop "genre")) ++
     optField "Director" (orElse (media.prop "Director") (media.prop "director")) ++
     optField "Writer" (orElse (media.prop "Writer") (media.prop "writer")) ++
     optField "Actors" (orElse (media.prop "Actors") (media.prop "actors")) ++
     optField "Plot" (orElse (media.prop "Plot") (media.prop "plot")) ++
     optField "Language" (orElse (media.prop "Language") (media.prop "language")) ++
     optField "Country" (orElse (media.prop "Country") (media.prop "country")) ++
     optField "Poster" (orElse (media.prop "Poster") (media.prop "poster")) ++
     optField "imdbRating" (media.prop "imdbRating") ++
     [("createdAt", .string createdAt)])

/-- The handler `handleStatusChange(mediaId, newStatus)` of the admin
`RequestedMedia.jsx`: it patches the status of the request and, for an
approval, posts the media record to `movies` or `tv_shows`. `patchOk` tells
whether the first request came back `ok`; an exception after it ends the
handler in its `catch` branch. -/
def RequestedMedia.handleStatusChange (mediaId : Option JSValue) (newStatus : String)
    (requestedMediaList : List JSValue) (createdAt : String) (patchOk : Bool)
    (storage : Storage) (now : Int) : HandlerResult :=
  if sessionCheckFails storage now then evicted storage
  else
    let patch : Request :=
      { method := .PATCH, collection := "user_requested_media", record := some mediaId
        query := [], body := some (.object [("request_status", .string newStatus)]) }
    let post : List Request :=
      if !patchOk then []
      else if lowerAscii newStatus == "approved" then
        match findById mediaId requestedMediaList with
        | .error _ => []
        | .ok found =>
          if !truthy found then []
          else
            match found with
            | none => []
            | some media =>
              match lowerIs (media.prop "media_type") "movie" with
              | .error _ => []
              | .ok movie =>
                [{ method := .POST, collection := mediaCollection movie, record := none
                   query := [], body := some (approvedMedia media createdAt) }]
      else []
    { storage := storage, requests := patch :: post, navigate := none }

/-! ## The admin console: views that read on mount -/

/-- A read of a whole collection. -/
def fetchCollection (collection : String) : Request :=
  { method := .GET, collection := collection, record := none, query := [], body := none }

/-- The two mount effects of `Dashboard.jsx`, in the order React runs them: the
first checks the token, evicts the session and navigates to the login page
when the check fails; the second calls `fetchData`, which starts its four
reads without a condition. -/
def Dashboard.onMount (storage : Storage) (now : Int) : HandlerResult :=
  let first := if sessionCheckFails storage now then evicted storage else unchanged storage
  { storage := first.storage
    requests := first.requests ++
      [fetchCollection "movies", fetchCollection "tv_shows", fetchCollection "user_ratings",
       fetchCollection "watch_history"]
    navigate := first.navigate }

/-- The two mount effects of `ViewUsers.jsx`: the token check, then
`fetchAllUsers`, which reads `users` without a condition. -/
def ViewUsers.onMount (storage : Storage) (now : Int) : HandlerResult :=
  let first := if sessionCheckFails storage now then evicted storage else unchanged storage
  { storage := first.storage
    requests := first.requests ++ [fetchCollection "users"]
    navigate := first.navigate }

/-! ## The end-user application: handlers that write to the data store -/

/-- The answer of the data store to a query of a collection; `json-server`
answers such a query with an array. -/
inductive ListResponse where
  | failed
  | notOk (status : Nat)
  | ok (data : List JSValue)
deriving Repr

/-- The handler `handleWithdraw(mediaId)` of the end-user `RequestedMedia.jsx`:
it sends its `DELETE` at once and reads neither the token nor the clock. -/
def UserRequestedMedia.handleWithdraw (mediaId : Option JSValue) (storage : Storage) :
    HandlerResult :=
  { storage := storage
    requests :=
      [{ method := .DELETE, collection := "user_requested_media", record := some mediaId
         query := [], body := none }]
    navigate := none }

/-- The elements `...v` spreads into an array literal: those of an array, the
characters of a string; any other value is not iterable. -/
def spread : Option JSValue → Except JSError (List JSValue)
  | some (.array items) => .ok items
  | some (.string s) => .ok ((codes s).map (fun c => .string (ofCodes [c])))
  | _ => .error .typeError

/-- The handler `handleSubmitReply(commentId)` of `comments.jsx`. `currentUser`
is `null` when no user is loaded, `date` the current time as local text, and
`responseOk` tells whether the `PATCH` came back `ok`, after which the
comments are fetched again. The search and the spread are outside the `try`
block: an exception there leaves the handler. -/
def Comments.handleSubmitReply (activeReplyText : String) (comments : List JSValue)
    (currentUser : JSValue) (movieId commentId : Option JSValue) (date : String)
    (responseOk : Bool) (storage : Storage) (now : Int) : Except JSError HandlerResult :=
  if trim activeReplyText = "" then .ok (unchanged storage)
  else
    match findById commentId comments with
    | .error err => .error err
    | .ok found =>
      if !truthy found then .ok (unchanged storage)
      else
        match found with
        | none => .ok (unchanged storage)
        | some commentToUpdate =>
          match spread (commentToUpdate.prop "replies") with
          | .error err => .error err
          | .ok replies =>
            let reply : JSValue := .object
              ([("id", .string ("reply-" ++ toString now)), ("text", .string activeReplyText)] ++
                (if truthy (some currentUser) then optField "author" (currentUser.prop "user_name")
                 else [("author", .string "Anonymous")]) ++
                [("date", .string date)])
            .ok
              { storage := storage
                requests :=
                  { method := .PATCH, collection := "user_ratings", record := some commentId
                    query := []
                    body := some (.object [("replies", .array (replies ++ [reply]))]) } ::
                  (if responseOk then
                    [{ method := .GET, collection := "user_ratings", record := none
                       query := [("movieId", movieId)], body := none }]
                   else [])
                navigate := none }

/-- The statements `userObj = JSON.parse(storedUserStr); userId = userObj.id`. -/
def storedUserId (storedUserStr : String) : Except JSError (Option JSValue) :=
  match JSON.parse storedUserStr with
  | .error err => .error err
  | .ok userObj => userObj.get "id"

/-- The handler `handleToggleWatchlist` of `MovieDetails.jsx`. `item` is the
media record on display (`null` before it is loaded), `response` the answer to
the query of `watch_list`, `createdAt` the current time as ISO text. The
handler reads the `loggedInUser` entry only. -/
def MovieDetails.handleToggleWatchlist (item : JSValue) (createdAt : String)
    (response : ListResponse) (storage : Storage) : HandlerResult :=
  if !truthy (some item) then unchanged storage
  else
    match storage.getItem "loggedInUser" with
    | none => { storage := storage, requests := [], navigate := some "/login" }
    | some storedUserStr =>
      if storedUserStr = "" then
        { storage := storage, requests := [], navigate := some "/login" }
      else
        match storedUserId storedUserStr with
        | .error _ => unchanged storage
        | .ok userId =>
          let query : Request :=
            { method := .GET, collection := "watch_list", record := none
              query := [("user_id", userId), ("media_id", item.prop "id")], body := none }
          let write : List Request :=
            match response with
            | .failed => []
            | .notOk _ => []
            | .ok (watchlistEntry :: _) =>
              match watchlistEntry.get "id" with
              | .error _ => []
              | .ok entryId =>
                [{ method := .DELETE, collection := "watch_list", record := some entryId
                   query := [], body := none }]
            | .ok [] =>
              [{ method := .POST, collection := "watch_list", record := none, query := []
                 body := some (.object
                  (optField "user_id" userId ++
                   optField "media_id" (item.prop "id") ++
                   optField "Poster" (item.prop "Poster") ++
                   optField "Title" (item.prop "Title") ++
                   optField "Year" (item.prop "Year") ++
                   optField "Type" (orElse (item.prop "Type") (item.prop "media_type")) ++
                   [("createdAt", .string createdAt)])) }]
          { storage := storage, requests := query :: write, navigate := none }

/-- The function `addToWatchHistory(detailItem)` of `MovieDetails.jsx`, which
the effect calls once per loaded item, and only with an item that is not
`null`. `dateString` is the current day as local text and `response` the
answer to the query of `watch_history`. It reads the `loggedInUser` entry only. -/
def MovieDetails.addToWatchHistory (detailItem : JSValue) (dateString : String)
    (response : ListResponse) (storage : Storage) : HandlerResult :=
  if !truthy (some detailItem) then unchanged storage
  else
    match storage.getItem "loggedInUser" with
    | none => unchanged storage
    | some storedUserStr =>
      if storedUserStr = "" then unchanged storage
      else
        match storedUserId storedUserStr with
        | .error _ => unchanged storage
        | .ok userId =>
          let query : Request :=
            { method := .GET, collection := "watch_history", record := none
              query := [("user_id", userId), ("movie_id", detailItem.prop "id"),
                        ("date", some (.string dateString))]
              body := none }
          let recorded : Bool :=
            match response with
            | .ok (_ :: _) => true
            | _ => false
          let write : List Request :=
            if recorded then []
            else
              [{ method := .POST, collection := "watch_history", record := none, query := []
                 body := some (.object
                  (optField "user_id" userId ++
                   optField "movie_id" (detailItem.prop "id") ++
                   optField "actors" (detailItem.prop "Actors") ++
                   optField "director" (detailItem.prop "Director") ++
                   optField "plot" (detailItem.prop "Plot") ++
                   optField "poster" (detailItem.prop "Poster") ++
                   optField "title" (detailItem.prop "Title") ++
                   optField "type" (detailItem.prop "Type") ++
                   optField "year" (detailItem.prop "Year") ++
                   optField "imdbRating" (detailItem.prop "imdbRating") ++
                   [("date", .string dateString)])) }]
          { storage := storage, requests := query :: write, navigate := none }

/-- The read of `fetchWatchHistory` in `watchhistory.jsx`: the history of the
user of the `loggedInUser` entry, when that entry has a truthy `id`. -/
def WatchHistory.fetchWatchHistory (storage : Storage) : List Request :=
  let userId : Option JSValue :=
    match storage.getItem "loggedInUser" with
    | none => some .null
    | some storedUserStr =>
      if storedUserStr = "" then some .null
      else
        match storedUserId storedUserStr with
        | .error _ => some .null
        | .ok id => id
  if !truthy userId then []
  else
    [{ method := .GET, collection := "watch_history", record := none
       query := [("user_id", userId)], body := none }]

/-- The handler `removeFromHistory(historyId)` of `watchhistory.jsx`, which
asks `verifyToken` before its `DELETE` and fetches the history again after an
`ok` response. -/
def WatchHistory.removeFromHistory (historyId : Option JSValue) (responseOk : Bool)
    (storage : Storage) (now : Int) : HandlerResult :=
  let guard := verifyToken (some "Your session has expired. Please log in again.") storage now
  if !guard.result then guardFailed guard
  else
    { storage := storage
      requests :=
        { method := .DELETE, collection := "watch_history", record := some historyId
          query := [], body := none } ::
        (if responseOk then WatchHistory.fetchWatchHistory storage else [])
      navigate := none }

/-! ## The end-user application: profile editors -/

/-- The answer of the data store to a `PATCH` of one record, after
`resp.json()`: the request or the decoding of the body fails, the response is
not `ok`, or the body is the updated record. -/
inductive StoreResponse where
  | failed
  | notOk (status : Nat)
  | ok (body : JSValue)
deriving Repr

/-- The common end of the profile editors: the `PATCH` is sent; after an `ok`
response the body is written to the `loggedInUser` entry, and to that entry
only, and the handler navigates to `target` when its notice closes. -/
def saved (storage : Storage) (request : Request) (response : StoreResponse) (target : String) :
    HandlerResult :=
  match response with
  | .ok updatedUser =>
    { storage := storage.setItem "loggedInUser" (JSON.stringify updatedUser)
      requests := [request]
      navigate := some target }
  | _ => { storage := storage, requests := [request], navigate := none }

/-- The `PATCH` of the record `users/id`. -/
def patchUser (id : Option JSValue) (body : JSValue) : Request :=
  { method := .PATCH, collection := "users", record := some id, query := [], body := some body }

/-- The steps that `ChangeEmail.jsx` and `ChangeName.jsx` share: the token
check, the `loggedInUser` entry read again and parsed outside any `try`, and
the `PATCH` of the record with the stored `id`. -/
def patchStoredUser (body : JSValue) (response : StoreResponse) (storage : Storage) (now : Int) :
    Except JSError HandlerResult :=
  if sessionCheckFails storage now then .ok (evicted storage)
  else
    match storage.getItem "loggedInUser" with
    | none => .ok (unchanged storage)
    | some storedUserString =>
      if storedUserString = "" then .ok (unchanged storage)
      else
        match storedUserId storedUserString with
        | .error err => .error err
        | .ok id =>
          if !truthy id then .ok (unchanged storage)
          else .ok (saved storage (patchUser id body) response "/login-security")

/-- The handler `handleSaveChanges` of `ChangeEmail.jsx`. -/
def ChangeEmail.handleSaveChanges (newEmail : String) (response : StoreResponse)
    (storage : Storage) (now : Int) : Except JSError HandlerResult :=
  patchStoredUser (.object [("email", .string newEmail)]) response storage now

/-- The handler `handleSaveChanges` of `ChangeName.jsx`. -/
def ChangeName.handleSaveChanges (newName : String) (response : StoreResponse)
    (storage : Storage) (now : Int) : Except JSError HandlerResult :=
  patchStoredUser (.object [("name", .string newName)]) response storage now

/-- The call `bcrypt.compareSync(s, hash)` with a second argument that may be
any value: `bcryptjs` throws on an argument that is not a string. -/
def compareSyncValue (env : Env) (s : String) (hash : Option JSValue) : Except JSError Bool :=
  match hash with
  | some (.string h) => .ok (env.compareSync s h)
  | _ => .error .illegalArguments

/-- The handler `handleSaveChanges` of `ChangePassword.jsx`. `user` is the
record the component loaded from the data store, `null` before it arrives;
`hashSync` is `bcrypt.hashSync` with ten salt rounds, for the salt it draws.
The comparison with the stored hash is outside the `try` block. -/
def ChangePassword.handleSaveChanges (env : Env) (hashSync : String → String) (user : JSValue)
    (currentPasswordInput newPassword retypeNewPassword : String) (response : StoreResponse)
    (storage : Storage) (now : Int) : Except JSError HandlerResult :=
  if sessionCheckFails storage now then .ok (evicted storage)
  else if !truthy (some user) then .ok (unchanged storage)
  else
    match compareSyncValue env currentPasswordInput (user.prop "password") with
    | .error err => .error err
    | .ok false => .ok (unchanged storage)
    | .ok true =>
      if newPassword ≠ retypeNewPassword then .ok (unchanged storage)
      else
        .ok (saved storage
          (patchUser (user.prop "id") (.object [("password", .string (hashSync newPassword))]))
          response "/login-security")

/-- The own enumerable properties `...v` copies into an object literal: the
properties of an object, the indexed elements of an array or of a string;
nothing for any other value. -/
def spreadProps : JSValue → List (String × JSValue)
  | .object fields => fields
  | .array items => items.enum.map (fun p => (toString p.1, p.2))
  | .string s => (codes s).enum.map (fun p => (toString p.1, .string (ofCodes [p.2])))
  | _ => []

/-- The handler `handleSave` of `EditProfile.jsx`. `user` is the value the
component parsed from the `loggedInUser` entry when it rendered, or its
default record; `username`, `bio` and `profileImage` are the form fields. The
read of `user.id` is inside the `try` block. -/
def EditProfile.handleSave (user : JSValue) (username bio profileImage : String)
    (response : StoreResponse) (storage : Storage) (now : Int) : HandlerResult :=
  let guard := verifyToken (some "Session expired. Please log in again.") storage now
  if !guard.result then guardFailed guard
  else
    let updatedUser : JSValue := .object
      (setField (setField (setField (spreadProps user) "user_name" (.string username))
        "bio" (.string bio)) "profile_image" (.string profileImage))
    match user.get "id" with
    | .error _ => unchanged storage
    | .ok id => saved storage (patchUser id updatedUser) response "/account-settings"

/-- The handler `handleSaveChanges` of `PersonalInfo.jsx`; `user` is the record
the component loaded, `null` before it arrives. -/
def PersonalInfo.handleSaveChanges (user : JSValue) (gender dob country : String)
    (response : StoreResponse) (storage : Storage) (now : Int) : HandlerResult :=
  if sessionCheckFails storage now then evicted storage
  else if !truthy (some user) then unchanged storage
  else
    saved storage
      (patchUser (user.prop "id")
        (.object [("gender", .string gender), ("dob", .string dob), ("country", .string country)]))
      response "/account-settings"

/-- What a profile editor may leave in the storage: the eviction of a failed
token check, the storage as it was, or the storage with the body of an `ok`
response written to the `loggedInUser` entry and to no other. -/
def UserEntryOnly (response : StoreResponse) (storage after : Storage) : Prop :=
  after = evict storage ∨ after = storage ∨
    ∃ body, response = .ok body ∧
      after = storage.setItem "loggedInUser" (JSON.stringify body)

/-- A session for the examples: the record of user 3 and a token whose `exp`
is 1700003600. -/
def exampleSession : Storage :=
  ⟨[("loggedInUser", "\x7b\"id\":\"3\",\"email\":\"old@x.com\"\x7d"),
    ("jwtToken", "eyJhbGciOiJIUzI1NiJ9.eyJuYW1lIjoiQW5uIiwiZXhwIjoxNzAwMDAzNjAwfQ.AAAA")]⟩

/-! ## The home page: recommendations -/

/-- The comparison `x >= n` of a number with an integer, as `rating >= 4`:
false when `x` is `NaN`. The comparison is on exact decimals; it agrees with
the comparison of doubles for a rating written with at most fifteen
significant digits. -/
def JSNumber.geInt (x : JSNumber) (n : Int) : Bool :=
  match x with
  | .nan => false
  | .inf neg => !neg
  | .fin d =>
    if 0 ≤ d.exp10 then decide (n ≤ d.mant * 10 ^ d.exp10.toNat)
    else decide (n * 10 ^ (-d.exp10).toNat ≤ d.mant)

/-- An identifier as the data store holds it: a whole number (below `10 ^ 21`
in size, which JavaScript prints with all its digits) or a string. -/
inductive Id where
  | int (n : Int)
  | str (s : String)
deriving DecidableEq, Repr

/-- The truth value of an identifier: `0` and the empty string are falsy. -/
def Id.truthy : Id → Bool
  | .int n => n != 0
  | .str s => s != ""

/-- The method `toString` of an identifier. -/
def Id.toString : Id → String
  | .int n => ToString.toString n
  | .str s => s

/-- The expression `v ? v.toString() : ''` on a property that may be missing. -/
def idText (v : Option Id) : String :=
  match v with
  | some id => if id.truthy then id.toString else ""
  | none => ""

/-- The user record in the state `currentUser`; `id` is `none` when the
property is missing or `null`. -/
structure CurrentUser where
  id : Option Id
deriving DecidableEq, Repr

/-- A record of `user_ratings`, with the properties the home page reads. -/
structure RatingRecord where
  user_id : Option Id
  rating : Option JSValue
  movieId : Option Id
  media_id : Option Id
  movie_id : Option Id
deriving Repr

/-- A record of `movies` or `tv_shows`, with the property the home page reads. -/
structure CatalogItem where
  id : Option Id
  Title : String
deriving DecidableEq, Repr

/-- The callback of `userRatings.filter`: both constants are computed, then
compared. `Number(record.rating)` may throw. -/
def isHighRating (currentUserId : String) (record : RatingRecord) : Except JSError Bool :=
  let recordUserId := idText record.user_id
  match toNumber record.rating with
  | .error err => .error err
  | .ok rating => .ok (recordUserId == currentUserId && rating.geInt 4)

/-- The call `userRatings.filter(...)`, which an exception of its callback ends. -/
def highRatings (currentUserId : String) : List RatingRecord → Except JSError (List RatingRecord)
  | [] => .ok []
  | record :: rest =>
    match isHighRating currentUserId record with
    | .error err => .error err
    | .ok keep =>
      match highRatings currentUserId rest with
      | .error err => .error err
      | .ok kept => .ok (if keep then record :: kept else kept)

/-- The expression `a || b` on identifiers that may be missing. -/
def orElseId (a b : Option Id) : Option Id :=
  match a with
  | some id => if id.truthy then a else b
  | none => b

/-- The constant `movieId`: `record.movieId || record.media_id || record.movie_id`. -/
def recordMovieId (record : RatingRecord) : Option Id :=
  orElseId (orElseId record.movieId record.media_id) record.movie_id

/-- The call `items.find(...)` that looks up the media with the given identifier,
compared as strings. -/
def findMedia (items : List CatalogItem) (movieId : Id) : Option CatalogItem :=
  items.find? (fun media => idText media.id == movieId.toString)

/-- The method `set` of a `Map`, whose entries keep the order of their first
insertion; keys are compared by `SameValueZero`. -/
def mapSet (entries : List (Id × CatalogItem)) (key : Id) (value : CatalogItem) :
    List (Id × CatalogItem) :=
  if entries.any (fun p => p.1 == key) then
    entries.map (fun p => if p.1 == key then (key, value) else p)
  else entries ++ [(key, value)]

/-- The callback of `highRatings.forEach`. -/
def addRecommendation (items : List CatalogItem) (recsMap : List (Id × CatalogItem))
    (record : RatingRecord) : List (Id × CatalogItem) :=
  match recordMovieId record with
  | none => recsMap
  | some movieId =>
    if movieId.truthy then
      match findMedia items movieId with
      | some found => mapSet recsMap movieId found
      | none => recsMap
    else recsMap

/-- The effect of `home.jsx` that generates the recommendations. The result is
the list passed to `setRecommended`, or `none` when the effect does not set
the state: its condition fails, or an exception is caught. -/
def HomePage.recommendations (isLoggedIn : Bool) (currentUser : Option CurrentUser)
    (userRatings : List RatingRecord) (items : List CatalogItem) : Option (List CatalogItem) :=
  match currentUser with
  | none => none
  | some user =>
    if isLoggedIn && decide (userRatings.length > 0) && decide (items.length > 0) then
      match user.id with
      | none => none
      | some id =>
        match highRatings id.toString userRatings with
        | .error _ => none
        | .ok high =>
          some (((high.foldl (addRecommendation items) []).map (fun p => p.2)).take 10)
    else none

/-- The property the specification states of a recommended item: it is a
catalog item whose identifier, as a string, is a media identifier of a rating
record that carries the identifier of the current user and a numeric rating
of at least 4. -/
def Recommendable (userId : Id) (userRatings : List RatingRecord) (items : List CatalogItem)
    (item : CatalogItem) : Prop :=
  item ∈ items ∧
    ∃ record ∈ userRatings, ∃ itemId mediaId uid rating,
      item.id = some itemId ∧
      (record.movieId = some mediaId ∨ record.media_id = some mediaId ∨
        record.movie_id = some mediaId) ∧
      itemId.toString = mediaId.toString ∧
      record.user_id = some uid ∧ uid.toString = userId.toString ∧
      toNumber record.rating = .ok rating ∧ rating.geInt 4 = true

/-! ## Object literals used as dictionaries -/

/-- The names of the properties of `Object.prototype`, which an object literal
inherits. Each of them reads as a truthy value on an empty object literal: a
function, and for `__proto__` the prototype itself. -/
def objectPrototypeNames : List String :=
  ["constructor", "__defineGetter__", "__defineSetter__", "hasOwnProperty",
   "__lookupGetter__", "__lookupSetter__", "isPrototypeOf", "propertyIsEnumerable",
   "toString", "valueOf", "__proto__", "toLocaleString"]

/-- The array index a property key denotes: a key that is the canonical
decimal text of a whole number below `2 ^ 32 - 1`. -/
def arrayIndex (key : String) : Option Nat :=
  match codes key with
  | [] => none
  | [48] => some 0
  | 48 :: _ => none
  | cs =>
    if cs.all (fun c => (digitValue c).isSome) then
      (digitsValue 10 cs).bind (fun n => if n < 4294967295 then some n else none)
    else none

/-- The own property of a dictionary with the given key. -/
def ownProperty {α : Type} (entries : List (String × α)) (key : String) : Option α :=
  (entries.find? (fun p => p.1 == key)).map (fun p => p.2)

/-- The host function `Object.keys` on an object whose own properties were
created in the order of `entries`: first the keys that are array indices, in
ascending numeric order, then the other keys in the order of their creation. -/
def Object.keys {α : Type} (entries : List (String × α)) : List String :=
  ((entries.filterMap (fun p => (arrayIndex p.1).map (fun n => (n, p.1)))).insertionSort
      (fun a b => a.1 ≤ b.1)).map (fun p => p.2) ++
    (entries.filter (fun p => (arrayIndex p.1).isNone)).map (fun p => p.1)

/-! ## The watch history page: grouping by date -/

/-- A record of `watch_history`; the page groups by `date`, which
`addToWatchHistory` writes as a text such as `Mar 5`. -/
structure HistoryEntry where
  id : String
  date : String
  title : String
deriving DecidableEq, Repr

/-- A group of the history page. -/
structure HistoryGroup where
  date : String
  items : List HistoryEntry
deriving DecidableEq, Repr

/-- The callback of `historyArray.forEach` in `regroupHistory`, on the
dictionary `mapByDate`. An own property is an array, hence truthy, and takes
the entry. Without an own property the key is read through the prototype: a
name of `Object.prototype` gives a truthy value that has no method `push`,
and the call throws; any other key gives `undefined`, and a new array is
created. -/
def regroupHistory.step (mapByDate : List (String × List HistoryEntry)) (entry : HistoryEntry) :
    Except JSError (List (String × List HistoryEntry)) :=
  let dateKey := entry.date
  if mapByDate.any (fun p => p.1 == dateKey) then
    .ok (mapByDate.map (fun p => if p.1 == dateKey then (p.1, p.2 ++ [entry]) else p))
  else if dateKey ∈ objectPrototypeNames then .error .typeError
  else .ok (mapByDate ++ [(dateKey, [entry])])

/-- The loop `historyArray.forEach(...)`, which the first exception ends. -/
def regroupHistory.forEach (mapByDate : List (String × List HistoryEntry)) :
    List HistoryEntry → Except JSError (List (String × List HistoryEntry))
  | [] => .ok mapByDate
  | entry :: rest =>
    match regroupHistory.step mapByDate entry with
    | .error err => .error err
    | .ok next => regroupHistory.forEach next rest

/-- The function `regroupHistory` of `watchhistory.jsx`. -/
def regroupHistory (historyArray : List HistoryEntry) : Except JSError (List HistoryGroup) :=
  match regroupHistory.forEach [] historyArray with
  | .error err => .error err
  | .ok mapByDate =>
    .ok ((Object.keys mapByDate).map
      (fun date => { date := date, items := (ownProperty mapByDate date).getD [] }))

/-- The dictionary `mapByDate` after the entries `seen`: one property per date
seen, whose value lists the entries of that date in their order. -/
def Grouped (mapByDate : List (String × List HistoryEntry)) (seen : List HistoryEntry) : Prop :=
  (mapByDate.map (fun p => p.1)).Nodup ∧
  (∀ p ∈ mapByDate, p.2 ≠ [] ∧ p.2 = seen.filter (fun e => e.date == p.1)) ∧
  (∀ e ∈ seen, e.date ∈ mapByDate.map (fun p => p.1))

/-! ## The admin dashboard: the release-year chart -/

/-- The UTF-16 code units of a string. -/
def utf16Units (s : String) : List Nat :=
  (codes s).flatMap
    (fun c => if c < 65536 then [c] else [55296 + (c - 65536) / 1024, 56320 + (c - 65536) % 1024])

/-- The lexicographic order `a ≤ b` of two lists of code units. -/
def unitsLe : List Nat → List Nat → Bool
  | [], _ => true
  | _ :: _, [] => false
  | a :: as, b :: bs => decide (a < b) || (a == b && unitsLe as bs)

/-- The order in which `Array.prototype.sort` without a comparator puts
strings: `a` does not come after `b`, by UTF-16 code units. -/
def sortLe (a b : String) : Prop :=
  unitsLe (utf16Units a) (utf16Units b) = true

instance : DecidableRel sortLe :=
  fun a b => inferInstanceAs (Decidable (unitsLe (utf16Units a) (utf16Units b) = true))

/-- A record of `movies` or `tv_shows`, with the property the chart reads;
`Year` is `none` when the record has no such property. -/
structure Media where
  Title : String
  Year : Option String
deriving DecidableEq, Repr

/-- The expression `media.Year.split('–')[0].trim()`: the text before the
first en dash, trimmed. -/
def yearKey (year : String) : String :=
  trim (ofCodes ((splitCodes 8211 (codes year)).headD []))

/-- The key under which the chart counts a record: none for a record whose
`Year` is missing or empty. -/
def Media.chartKey (media : Media) : Option String :=
  match media.Year with
  | none => none
  | some text => if text = "" then none else some (yearKey text)

/-- A value of the dictionary `yearCounts`: a number, or the text that `+ 1`
makes of a value that is not a number. -/
inductive Count where
  | number (n : Nat)
  | text (s : String)
deriving DecidableEq, Repr

/-- The expression `(count || 0) + 1` on an own property. -/
def Count.increment : Count → Count
  | .number n => .number (n + 1)
  | .text s => if s = "" then .number 1 else .text (s ++ "1")

/-- The statement `yearCounts[year] = (yearCounts[year] || 0) + 1`.
`inheritedText name` is the text of the value that an empty object literal
inherits under `name`. A key without an own property is read through the
prototype: for a name of `Object.prototype` the sum is a text, and the
assignment defines it as an own property, except under `__proto__`, whose
setter ignores a value that is not an object. -/
def Dashboard.countYear (inheritedText : String → String) (yearCounts : List (String × Count))
    (media : Media) : List (String × Count) :=
  match media.chartKey with
  | none => yearCounts
  | some year =>
    if yearCounts.any (fun p => p.1 == year) then
      yearCounts.map (fun p => if p.1 == year then (p.1, p.2.increment) else p)
    else if year = "__proto__" then yearCounts
    else if year ∈ objectPrototypeNames then
      yearCounts ++ [(year, .text (inheritedText year ++ "1"))]
    else yearCounts ++ [(year, .number 1)]

/-- A row of the chart data; `count` is `none` for `undefined`. -/
structure YearRow where
  year : String
  count : Option Count
deriving DecidableEq, Repr

/-- The constant `chartData` of the first chart of `Dashboard.jsx`; `none`
when the effect returns before it builds the chart, both lists being empty. -/
def Dashboard.yearChartData (inheritedText : String → String) (movies tvShows : List Media) :
    Option (List YearRow) :=
  if movies.length = 0 ∧ tvShows.length = 0 then none
  else
    let yearCounts := (movies ++ tvShows).foldl (Dashboard.countYear inheritedText) []
    let sortedYears := (Object.keys yearCounts).insertionSort sortLe
    some (sortedYears.map (fun year => { year := year, count := ownProperty yearCounts year }))

/-- The dictionary `yearCounts` after the media whose keys are `keys`: one
property per key seen, whose value is the number of times it was seen. -/
def Counted (yearCounts : List (String × Count)) (keys : List String) : Prop :=
  (yearCounts.map (fun p => p.1)).Nodup ∧
  (∀ p ∈ yearCounts, p.2 = .number (keys.count p.1)) ∧
  (∀ key, key ∈ yearCounts.map (fun p => p.1) ↔ key ∈ keys)

/-- Example catalogue: two films of 2009, one written with spaces, and a
record without a year. -/
def exampleMovies : List Media :=
  [⟨"Up", some "2009"⟩, ⟨"Avatar", some " 2009 "⟩, ⟨"Untitled", none⟩]

/-- Example catalogue: a series that ran from 2004 to 2010. -/
def exampleShows : List Media :=
  [⟨"Lost", some "2004–2010"⟩]

/-! ## Notifications: the age of a request -/

/-- The helper `timeAgo` of `Notifications.jsx`. `now` is the clock in
milliseconds and `created` the time value of `new Date(dateString)`, `none`
for an invalid date, whose time value is `NaN`. `Math.floor` of a quotient of
whole numbers is the floor division; the differences of two time values are
whole numbers that a double holds exactly. -/
def timeAgo (now : Int) (created : Option Int) : String :=
  match created with
  | none => "NaN days ago"
  | some created =>
    let diffMs := now - created
    let diffDays := diffMs / (1000 * 60 * 60 * 24)
    if diffDays = 0 then
      let diffHours := diffMs / (1000 * 60 * 60)
      if diffHours = 0 then
        let diffMinutes := diffMs / (1000 * 60)
        if diffMinutes ≤ 1 then "Just now" else toString diffMinutes ++ " min ago"
      else if diffHours = 1 then "1 hour ago"
      else toString diffHours ++ " hours ago"
    else if diffDays = 1 then "1 day ago"
    else toString diffDays ++ " days ago"

/-! ## The end-user application: deletion of the account -/

/-- The answers of the data store during one deletion of an account:
`list table userId` answers the query `table?user_id=userId`, and
`delete table id` tells whether the `DELETE` of `table/id` came back `ok`. -/
structure StoreAnswers where
  list : String → Option JSValue → ListResponse
  delete : String → Option JSValue → Bool

/-- The `DELETE` of the record `table/id`. -/
def deleteRequest (table : String) (id : Option JSValue) : Request :=
  { method := .DELETE, collection := table, record := some id, query := [], body := none }

/-- The query `table?user_id=userId`. -/
def userRecordsQuery (table : String) (userId : Option JSValue) : Request :=
  { method := .GET, collection := table, record := none, query := [("user_id", userId)]
    body := none }

/-- The loop of `deleteAllUserRecords` over the records of one table: the
requests it sent, and whether it ended without an exception. Reading the `id`
of a `null` record throws, and so does a response that is not `ok`. -/
def deleteRecords (store : StoreAnswers) (tableName : String) :
    List JSValue → List Request × Bool
  | [] => ([], true)
  | record :: rest =>
    match record.get "id" with
    | .error _ => ([], false)
    | .ok id =>
      if store.delete tableName id then
        (deleteRequest tableName id :: (deleteRecords store tableName rest).1,
          (deleteRecords store tableName rest).2)
      else ([deleteRequest tableName id], false)

/-- The helper `deleteAllUserRecords(tableName, userId)` of
`AccountSettings.jsx`: the requests it sent, and whether it ended without an
exception. -/
def deleteAllUserRecords (store : StoreAnswers) (tableName : String) (userId : Option JSValue) :
    List Request × Bool :=
  match store.list tableName userId with
  | .failed => ([userRecordsQuery tableName userId], false)
  | .notOk _ => ([userRecordsQuery tableName userId], false)
  | .ok data =>
    (userRecordsQuery tableName userId :: (deleteRecords store tableName data).1,
      (deleteRecords store tableName data).2)

/-- The tables that `handleConfirmDelete` clears, in its order. -/
def userTables : List String :=
  ["user_ratings", "watch_list", "watch_history", "preferred_list", "user_requested_media"]

/-- The calls of `deleteAllUserRecords` one after the other; the first
exception ends the sequence. -/
def deleteTables (store : StoreAnswers) (userId : Option JSValue) :
    List String → List Request × Bool
  | [] => ([], true)
  | table :: rest =>
    if (deleteAllUserRecords store table userId).2 then
      ((deleteAllUserRecords store table userId).1 ++ (deleteTables store userId rest).1,
        (deleteTables store userId rest).2)
    else ((deleteAllUserRecords store table userId).1, false)

/-- The handler `handleConfirmDelete` of `AccountSettings.jsx`. Every
exception is caught by the handler, which then only shows a notice. -/
def AccountSettings.handleConfirmDelete (store : StoreAnswers) (storage : Storage) (now : Int) :
    HandlerResult :=
  if sessionCheckFails storage now then evicted storage
  else
    match storage.getItem "loggedInUser" with
    | none => unchanged storage
    | some storedUserString =>
      if storedUserString = "" then unchanged storage
      else
        match storedUserId storedUserString with
        | .error _ => unchanged storage
        | .ok userId =>
          if !truthy userId then unchanged storage
          else if !(deleteTables store userId userTables).2 then
            { storage := storage
              requests := (deleteTables store userId userTables).1
              navigate := none }
          else if store.delete "users" userId then
            { storage := evict storage
              requests := (deleteTables store userId userTables).1 ++
                [deleteRequest "users" userId]
              navigate := some "/login" }
          else
            { storage := storage
              requests := (deleteTables store userId userTables).1 ++
                [deleteRequest "users" userId]
              navigate := none }

/-- Every record that the store lists for the user in the table was deleted
with an `ok` response. -/
def Cleared (store : StoreAnswers) (userId : Option JSValue) (table : String) : Prop :=
  ∃ data, store.list table userId = .ok data ∧
    ∀ record ∈ data, ∃ id, record.get "id" = .ok id ∧ store.delete table id = true

/-- Example store: user 3 has one rating and two history records, and every
request succeeds. -/
def exampleStore : StoreAnswers where
  list := fun table _ =>
    if table = "user_ratings" then .ok [.object [("id", .string "r1")]]
    else if table = "watch_history" then
      .ok [.object [("id", .string "h1")], .object [("id", .string "h2")]]
    else .ok []
  delete := fun _ _ => true

/-! ## Records of the data store, as the typed model reads them -/

/-- The record `json-server` stores for a posted body that has no `id`: the
body with the identifier it generates. New records go to the end of their
collection. -/
def jsonServer.created (id : String) (body : JSValue) : JSValue :=
  match body with
  | .object fields => .object (fields ++ [("id", .string id)])
  | other => other

/-- A property that holds a string. -/
def stringProp (v : JSValue) (k : String) : Option String :=
  match v.prop k with
  | some (.string s) => some s
  | _ => none

/-- The typed view of a record of `users` whose `id`, `name`, `email` and
`password` are strings and whose `isAdmin` is a Boolean; `other` keeps its
further string properties. It inverts `User.toJSON` up to the order of the
properties. -/
def User.ofJSON (v : JSValue) : Option User :=
  match v with
  | .object fields =>
    match stringProp v "id", stringProp v "name", stringProp v "email",
      stringProp v "password", v.prop "isAdmin" with
    | some id, some name, some email, some password, some (.bool isAdmin) =>
      some
        { id := id, name := name, user_name := stringProp v "user_name", email := email
          password := password, isAdmin := isAdmin
          other := fields.filterMap (fun p =>
            if p.1 ∈ ["id", "name", "user_name", "email", "password", "isAdmin"] then none
            else
              match p.2 with
              | .string s => some (p.1, s)
              | _ => none) }
    | _, _, _, _, _ => none
  | _ => none

/-! ## The end-user application: registration -/

/-- What `handleRegister` did: the requests it sent, where it navigated, and
the text of its alert, if any. -/
structure RegisterResult where
  requests : List Request
  navigate : Option String
  alert : Option String
deriving Repr

/-- The record `newUser` that `handleRegister` posts. -/
def Registration.newUser (hashSync : String → String) (createdAt name email password : String) :
    JSValue :=
  .object
    [("name", .string name), ("email", .string email),
     ("password", .string (hashSync password)), ("isAdmin", .bool false),
     ("createdAt", .string createdAt)]

/-- The handler `handleRegister` of `registration.jsx`. `hashSync` is
`bcrypt.hashSync` with ten salt rounds, `createdAt` the current time as ISO
text; `responseOk` tells whether the request came back `ok` with a body that
decodes. The length of the password is counted in UTF-16 code units. -/
def Registration.handleRegister (hashSync : String → String)
    (createdAt name email password confirmPassword : String) (responseOk : Bool) :
    RegisterResult :=
  if password ≠ confirmPassword then
    { requests := [], navigate := none, alert := some "Passwords do not match!" }
  else if (utf16Units password).length < 8 then
    { requests := [], navigate := none
      alert := some "Password must be at least 8 characters long." }
  else
    { requests :=
        [{ method := .POST, collection := "users", record := none, query := []
           body := some (Registration.newUser hashSync createdAt name email password) }]
      navigate := if responseOk then some "/login" else none
      alert :=
        if responseOk then none
        else some "There was a problem creating your account. Please try again." }

/-! ## The end-user application: requesting a medium -/

/-- The record `newMedia` that the end-user `AddMedia.jsx` posts to
`user_requested_media`. -/
def AddMedia.newMedia (createdAt : String) (formData : MediaForm) (userId : Option JSValue)
    (now : Int) : JSValue :=
  .object
    ([("id", .string (toString now))] ++ optField "user_id" userId ++
     [("media_type", .string formData.type),
      ("title", .string formData.title),
      ("year", .string formData.year),
      ("Rating", .string formData.rated),
      ("Release Date", .string formData.releaseDate),
      ("Runtime", .string formData.runtime),
      ("Genre", .string formData.genre),
      ("Director", .string formData.director),
      ("Writer", .string formData.writer),
      ("Actors", .string formData.actors),
      ("Plot", .string formData.plot),
      ("Language", .string formData.language),
      ("Country", .string formData.country),
      ("Poster", .string formData.poster),
      ("imdbRating", .string formData.imdbRating),
      ("request_status", .string "pending"),
      ("createdAt", .string createdAt)])

/-- The handler `handleSubmit` of the end-user `AddMedia.jsx`. The stored user
is parsed outside the `try` block. -/
def AddMedia.handleSubmit (createdAt : String) (formData : MediaForm) (responseOk : Bool)
    (storage : Storage) (now : Int) : Except JSError HandlerResult :=
  if isTokenExpired (storage.getItem "jwtToken") now then .ok (evicted storage)
  else
    match storage.getItem "loggedInUser" with
    | none => .ok { storage := storage, requests := [], navigate := some "/login" }
    | some storedUserString =>
      if storedUserString = "" then
        .ok { storage := storage, requests := [], navigate := some "/login" }
      else
        match storedUserId storedUserString with
        | .error err => .error err
        | .ok userId =>
          .ok
            { storage := storage
              requests :=
                [{ method := .POST, collection := "user_requested_media", record := none
                   query := []
                   body := some (AddMedia.newMedia createdAt formData userId now) }]
              navigate := if responseOk then some "/requested-media" else none }

/-- Example form: a film with every field filled in. -/
def exampleForm : MediaForm :=
  { type := "movie", title := "Up", year := "2009", rated := "PG", releaseDate := "29 May 2009"
    runtime := "96 min", genre := "Animation", director := "Pete Docter"
    writer := "Bob Peterson", actors := "Ed Asner", plot := "A house flies."
    language := "English", country := "USA", poster := "up.jpg", imdbRating := "8.3" }

/-! ## Pagination -/

/-- The method `slice(start, end)` of an array: a negative index counts from
the end, and both indices are clamped to the array. -/
def slice {α : Type} (xs : List α) (start stop : Int) : List α :=
  let len : Int := xs.length
  let k := if start < 0 then max (len + start) 0 else min start len
  let final := if stop < 0 then max (len + stop) 0 else min stop len
  (xs.drop k.toNat).take (final - k).toNat

/-- The page size of the watchlist, home, search, movies and series pages. -/
def itemsPerPage : Nat := 20

/-- The constant `totalPages`: `Math.ceil(items.length / itemsPerPage)`. -/
def totalPages (length : Nat) : Nat :=
  if length % itemsPerPage = 0 then length / itemsPerPage else length / itemsPerPage + 1

/-- The constant `currentItems`: the slice of the list that the page
`currentPage` shows. -/
def currentItems {α : Type} (items : List α) (currentPage : Int) : List α :=
  slice items ((currentPage - 1) * itemsPerPage) ((currentPage - 1) * itemsPerPage + itemsPerPage)

/-- The names of the own properties of an object, in their order. -/
def JSValue.keys : JSValue → List String
  | .object fields => fields.map (fun p => p.1)
  | _ => []

/-! ## The login handlers on untyped records and a host that may throw -/

/-- The host functions that `handleLogin` calls once the users are fetched.

* `compareSync password hash` is `bcrypt.compareSync` on two strings.
* `signJWT name now` is the token that `new SignJWT(...)`, built from the
  record's `name` with `setProtectedHeader`, `setExpirationTime('1h')` and
  `sign(key)`, resolves to
  when the clock reads `now`, or `none` when the promise rejects (a browser
  context without `crypto.subtle`, for one).
* `setItem storage key value` is `localStorage.setItem`, or `none` when it
  throws because the quota is exceeded; a record with a `profile_image` holds
  a data URL of any size. -/
structure Host where
  compareSync : String → String → Bool
  signJWT : Option JSValue → Int → Option String
  setItem : Storage → String → String → Option Storage

/-- The call `bcrypt.compareSync(password, hash)` with a second argument that
may be any value: `bcryptjs` throws on an argument that is not a string. -/
def Host.compare (host : Host) (password : String) (hash : Option JSValue) :
    Except JSError Bool :=
  match hash with
  | some (.string h) => .ok (host.compareSync password h)
  | _ => .error .illegalArguments

/-- The call `users.find(callback)`: the first element on which the callback
answers `true`; an exception of the callback ends the search. -/
def findWhere (callback : JSValue → Except JSError Bool) :
    List JSValue → Except JSError (Option JSValue)
  | [] => .ok none
  | user :: rest =>
    match callback user with
    | .error err => .error err
    | .ok true => .ok (some user)
    | .ok false => findWhere callback rest

/-- The callback of `find` in `Login.jsx`: `user.email === email`. -/
def Login.isMatch (email : String) (user : JSValue) : Except JSError Bool :=
  match user.get "email" with
  | .error err => .error err
  | .ok value => .ok (strictEq value (some (.string email)))

/-- The callback of `find` in `AdminLogin.jsx`:
`user.email === email && user.isAdmin === true`. -/
def AdminLogin.isMatch (email : String) (user : JSValue) : Except JSError Bool :=
  match user.get "email" with
  | .error err => .error err
  | .ok value =>
    .ok (strictEq value (some (.string email)) &&
      strictEq (user.prop "isAdmin") (some (.bool true)))

/-- The outcome of the `catch` branch, with the storage as the exception found it. -/
def LoginResult.problem (storage : Storage) : LoginResult :=
  { storage := storage, toast := loginProblem, navigate := none }

/-- The outcome of the `else` branch. -/
def LoginResult.invalid (storage : Storage) : LoginResult :=
  { storage := storage, toast := invalidCredentials, navigate := none }

/-- The body that the two `handleLogin` functions share; they differ in the
callback of `find` and in the route they navigate to. The whole body is one
`try` block whose `catch` branch shows the notice of a login problem:
`response` is the outcome of the fetch of `users` with `response.json()`; a
body that is not an array has no method `find`; then the search, the password
check, the signing, the two writes and the text of the welcome notice, which
reads `foundUser.name.split`, can each throw. -/
def loginOnHost (host : Host) (callback : JSValue → Except JSError Bool) (target : String)
    (response : StoreResponse) (password : String) (now : Int) (storage : Storage) :
    LoginResult :=
  match response with
  | .failed => .problem storage
  | .notOk _ => .problem storage
  | .ok (.array users) =>
    match findWhere callback users with
    | .error _ => .problem storage
    | .ok none => .invalid storage
    | .ok (some foundUser) =>
      if !truthy (some foundUser) then .invalid storage
      else
        match host.compare password (foundUser.prop "password") with
        | .error _ => .problem storage
        | .ok false => .invalid storage
        | .ok true =>
          match host.signJWT (foundUser.prop "name") now with
          | none => .problem storage
          | some token =>
            match host.setItem storage "loggedInUser" (JSON.stringify foundUser) with
            | none => .problem storage
            | some stored =>
              match host.setItem stored "jwtToken" token with
              | none => .problem stored
              | some final =>
                match foundUser.prop "name" with
                | some (.string name) =>
                  { storage := final
                    toast := ⟨.success, "Welcome back, " ++ firstName name ++ "!"⟩
                    navigate := some target }
                | _ => .problem final
  | .ok _ => .problem storage

/-- The handler `handleLogin` of the end-user `Login.jsx`, on the records as
the store returns them and on a host whose calls may throw. -/
def Login.handleLogin.onHost (host : Host) (response : StoreResponse) (email password : String)
    (now : Int) (storage : Storage) : LoginResult :=
  loginOnHost host (Login.isMatch email) "/" response password now storage

/-- The handler `handleLogin` of the admin console's `AdminLogin.jsx`, on the
records as the store returns them and on a host whose calls may throw. -/
def AdminLogin.handleLogin.onHost (host : Host) (response : StoreResponse)
    (email password : String) (now : Int) (storage : Storage) : LoginResult :=
  loginOnHost host (AdminLogin.isMatch email) "/dashboard" response password now storage

/-- The lookup of the users fails: the request or the decoding of the body
fails, or the response is not `ok`. -/
def LookupFails (response : StoreResponse) : Prop :=
  response = .failed ∨ ∃ status, response = .notOk status

/-- A step after the password check throws: the signing rejects, a write to
`localStorage` throws, or the record's `name` is not a string, for which the
welcome notice cannot be built. -/
def PersistThrows (host : Host) (user : JSValue) (now : Int) (storage : Storage) : Prop :=
  host.signJWT (user.prop "name") now = none ∨
  ∃ token, host.signJWT (user.prop "name") now = some token ∧
    (host.setItem storage "loggedInUser" (JSON.stringify user) = none ∨
      ∃ stored, host.setItem storage "loggedInUser" (JSON.stringify user) = some stored ∧
        (host.setItem stored "jwtToken" token = none ∨
          ∃ final, host.setItem stored "jwtToken" token = some final ∧
            ∀ name, user.prop "name" ≠ some (.string name)))

/-- The host that belongs to a stand-in for the libraries: on the records of
the typed model, whose `name` is a string, no call throws. -/
def Env.host (env : Env) : Host where
  compareSync := env.compareSync
  signJWT := fun name now =>
    match name with
    | some (.string text) => some (env.signJWT text now)
    | _ => none
  setItem := fun storage key value => some (storage.setItem key value)

/-- A browser whose `localStorage` takes no value longer than `quota`
characters, and throws `QuotaExceededError` on a longer one; signing
succeeds. Browsers limit the storage of an origin (to some megabytes, and
some to nothing at all in private browsing). -/
def quotaHost (quota : Nat) : Host where
  compareSync := exampleEnv.compareSync
  signJWT := fun _ now => some ("token-at-" ++ toString now)
  setItem := fun storage key value =>
    if value.length ≤ quota then some (storage.setItem key value) else none

/-- A browser context without `crypto.subtle`, such as a page served over
plain `http` from another machine: signing rejects. -/
def unsignedHost : Host where
  compareSync := exampleEnv.compareSync
  signJWT := fun _ _ => none
  setItem := fun storage key value => some (storage.setItem key value)

/-- Example record as the store returns it: Ann, an administrator whose
password is `secret` and whose record carries a profile image. -/
def annWithImage : JSValue :=
  .object
    [("id", .string "1"), ("name", .string "Ann Admin"), ("email", .string "a@x.com"),
     ("password", .string "hash(secret)"), ("isAdmin", .bool true),
     ("profile_image", .string "data:image/png;base64,iVBORw0KGgoAAAANSUhEUgAAAAEAAAABCAYAAAAf")]

/-! ## Lemmas -/

theorem ltInt_mulInt_of_isInt (d : Decimal) (e k n : Int) (h : d.IsInt e) :
    ((JSNumber.fin d).mulInt k).ltInt n = decide (e * k < n) := by
  unfold Decimal.IsInt at h
  simp only [JSNumber.mulInt, JSNumber.ltInt]
  by_cases hx : 0 ≤ d.exp10
  · rw [if_pos hx] at h
    rw [if_pos hx]
    have : d.mant * k * 10 ^ d.exp10.toNat = e * k := by rw [← h]; ring
    rw [this]
  · rw [if_neg hx] at h
    rw [if_neg hx]
    have hpos : (0 : Int) < 10 ^ (-d.exp10).toNat := by positivity
    have : d.mant * k = e * k * 10 ^ (-d.exp10).toNat := by rw [h]; ring
    rw [this]
    congr 1
    exact propext (mul_lt_mul_right hpos)

theorem decodePayload_empty : decodePayload "" = .error .invalidCharacter := by
  rfl

theorem isTokenExpired_of_decoded (t : String) (now : Int) (payload : JSValue) (d : Decimal)
    (e : Int) (hne : t ≠ "") (hdec : decodePayload t = .ok payload)
    (hexp : payload.get "exp" = .ok (some (.number d))) (hint : d.IsInt e) :
    isTokenExpired (some t) now = decide (e * 1000 < now) := by
  simp only [isTokenExpired, if_neg hne, hdec, expiryPassed, hexp, toNumber, JSValue.toNumber]
  exact ltInt_mulInt_of_isInt d e 1000 now hint

theorem ne_empty_of_decoded (t : String) (payload : JSValue)
    (hdec : decodePayload t = .ok payload) : t ≠ "" := by
  intro h
  subst h
  rw [decodePayload_empty] at hdec
  cases hdec

theorem decodePayload_of_parts (t : String) (seg bytes : List Nat)
    (hseg : (splitCodes 46 (codes t)).get? 1 = some seg) (hb64 : atobCodes seg = .ok bytes) :
    decodePayload t = JSON.parseCodes bytes := by
  unfold decodePayload atob
  rw [hseg]
  simp only [Option.getD, hb64]

theorem decodePayload_error_of_undecodable (t : String) (h : Undecodable t) :
    ∃ err, decodePayload t = .error err := by
  rcases h with h | ⟨seg, err, hseg, hb⟩ | ⟨seg, bytes, err, hseg, hb, hj⟩
  · refine ⟨.invalidCharacter, ?_⟩
    unfold SegmentMissing at h
    simp only [decodePayload, h]
    rfl
  · refine ⟨err, ?_⟩
    unfold decodePayload atob
    rw [hseg]
    simp only [Option.getD, hb]
  · exact ⟨err, by rw [decodePayload_of_parts t seg bytes hseg hb, hj]⟩

theorem isTokenExpired_of_error (t : String) (now : Int) (err : JSError)
    (h : decodePayload t = .error err) : isTokenExpired (some t) now = true := by
  simp only [isTokenExpired, h]
  split <;> rfl

/-! ## The token check: claims C1 to C3 -/

/-- C1, as stated, fails: with `exp * 1000 = now` the token is not yet judged
expired. The token below carries the payload with `name` "Ann" and `exp`
`1700000000`; at `now = 1700000000000` the check returns `false`. -/
theorem isTokenExpired_not_at_expiry_instant :
    ¬ ∀ (t : String) (now : Int) (payload : JSValue) (d : Decimal) (e : Int),
      decodePayload t = .ok payload → payload.get "exp" = .ok (some (.number d)) →
      d.IsInt e → e * 1000 ≤ now → isTokenExpired (some t) now = true := by
  intro h
  have h1 := h "eyJhbGciOiJIUzI1NiJ9.eyJuYW1lIjoiQW5uIiwiZXhwIjoxNzAwMDAwMDAwfQ.c2ln"
    1700000000000 (.object [("name", .string "Ann"), ("exp", .number ⟨1700000000, 0⟩)])
    ⟨1700000000, 0⟩ 1700000000 rfl rfl (by decide) (by decide)
  revert h1
  decide

/-- C1 (amended): for every token whose payload carries a whole number of
seconds `exp`, and every current time `now` in milliseconds with
`exp * 1000 < now`, `isTokenExpired` returns `true`, whatever else the
payload contains. -/
theorem isTokenExpired_of_exp_passed (t : String) (now : Int) (payload : JSValue)
    (d : Decimal) (e : Int) (hdec : decodePayload t = .ok payload)
    (hexp : payload.get "exp" = .ok (some (.number d))) (hint : d.IsInt e)
    (hlt : e * 1000 < now) : isTokenExpired (some t) now = true := by
  rw [isTokenExpired_of_decoded t now payload d e (ne_empty_of_decoded t payload hdec)
    hdec hexp hint]
  exact decide_eq_true hlt

/-- Witness for C1 (amended): the token with payload `exp = 1` one millisecond
after its expiry. -/
theorem isTokenExpired_of_exp_passed_witness :
    isTokenExpired (some "h.eyJleHAiOjF9.s") 1001 = true :=
  isTokenExpired_of_exp_passed "h.eyJleHAiOjF9.s" 1001 (.object [("exp", .number ⟨1, 0⟩)])
    ⟨1, 0⟩ 1 rfl rfl (by decide) (by decide)

/-- C2: for every token `header.payload.signature` whose payload segment is
base64 of a JSON object with a numeric `exp` (a whole number of seconds), and
every current time `now` with `exp * 1000 > now`, `isTokenExpired` returns
`false`. -/
theorem isTokenExpired_false_of_exp_ahead (t : String) (now : Int)
    (header seg signature bytes : List Nat) (fields : List (String × JSValue))
    (d : Decimal) (e : Int)
    (hform : splitCodes 46 (codes t) = [header, seg, signature])
    (hb64 : atobCodes seg = .ok bytes)
    (hjson : JSON.parseCodes bytes = .ok (.object fields))
    (hexp : (JSValue.object fields).get "exp" = .ok (some (.number d)))
    (hint : d.IsInt e) (hgt : now < e * 1000) :
    isTokenExpired (some t) now = false := by
  have hdec : decodePayload t = .ok (.object fields) := by
    rw [decodePayload_of_parts t seg bytes (by rw [hform]; rfl) hb64, hjson]
  rw [isTokenExpired_of_decoded t now _ d e (ne_empty_of_decoded t _ hdec) hdec hexp hint]
  exact decide_eq_false (by omega)

/-- Witness for C2: the token whose payload has `exp = 1700000000`, one second
before its expiry. -/
theorem isTokenExpired_false_of_exp_ahead_witness :
    isTokenExpired (some "eyJhbGciOiJIUzI1NiJ9.eyJuYW1lIjoiQW5uIiwiZXhwIjoxNzAwMDAwMDAwfQ.c2ln")
      1699999999000 = false :=
  isTokenExpired_false_of_exp_ahead
    "eyJhbGciOiJIUzI1NiJ9.eyJuYW1lIjoiQW5uIiwiZXhwIjoxNzAwMDAwMDAwfQ.c2ln" 1699999999000
    (codes "eyJhbGciOiJIUzI1NiJ9") (codes "eyJuYW1lIjoiQW5uIiwiZXhwIjoxNzAwMDAwMDAwfQ")
    (codes "c2ln") (codes "\x7b\"name\":\"Ann\",\"exp\":1700000000\x7d")
    [("name", .string "Ann"), ("exp", .number ⟨1700000000, 0⟩)] ⟨1700000000, 0⟩ 1700000000
    (by decide) rfl rfl rfl (by decide) (by decide)

/-- C3: for an absent token (`null` or the empty string) and for every token
whose second dot-separated segment is missing, is not valid base64 or does not
decode to JSON, `isTokenExpired` returns `true`; being a total function, it
raises no error. -/
theorem isTokenExpired_of_undecodable (token : Option String) (now : Int)
    (h : token = none ∨ token = some "" ∨ ∃ t, token = some t ∧ Undecodable t) :
    isTokenExpired token now = true := by
  rcases h with h | h | ⟨t, h, hu⟩
  · subst h; rfl
  · subst h; rfl
  · subst h
    obtain ⟨err, herr⟩ := decodePayload_error_of_undecodable t hu
    exact isTokenExpired_of_error t now err herr

/-- Witness for C3: a token whose second segment is not base64. -/
theorem isTokenExpired_of_undecodable_witness :
    isTokenExpired (some "header.%%%%.signature") 0 = true :=
  isTokenExpired_of_undecodable (some "header.%%%%.signature") 0
    (Or.inr (Or.inr ⟨"header.%%%%.signature", rfl,
      Or.inr (Or.inl ⟨codes "%%%%", .invalidCharacter, by decide, rfl⟩)⟩))

/-! ## Lemmas on `localStorage` -/

theorem find?_key_filter_ne (l : List (String × String)) (k k' : String) :
    (l.filter (fun p => p.1 != k')).find? (fun p => p.1 == k) =
      if k = k' then none else l.find? (fun p => p.1 == k) := by
  induction l with
  | nil => simp
  | cons p l ih =>
    simp only [List.filter_cons]
    by_cases hp : p.1 = k'
    · have h1 : (p.1 != k') = false := by simp [hp]
      rw [h1]
      simp only [Bool.false_eq_true, if_false, ih, List.find?_cons]
      by_cases hk : k = k'
      · simp [hk]
      · have h2 : (p.1 == k) = false := by
          rw [beq_eq_false_iff_ne]
          intro h
          exact hk (h ▸ hp)
        simp [hk, h2]
    · have h1 : (p.1 != k') = true := by simp [hp]
      rw [h1]
      simp only [if_true, List.find?_cons, ih]
      by_cases hpk : p.1 = k
      · have hk : ¬ k = k' := fun h => hp (hpk.trans h)
        have h2 : (p.1 == k) = true := by simp [hpk]
        simp [hk, h2]
      · have h2 : (p.1 == k) = false := by
          rw [beq_eq_false_iff_ne]
          exact hpk
        simp [h2]

theorem getItem_removeItem (s : Storage) (k k' : String) :
    (s.removeItem k').getItem k = if k = k' then none else s.getItem k := by
  unfold Storage.getItem Storage.removeItem
  simp only [find?_key_filter_ne]
  split <;> rfl

theorem removeItem_eq_self (s : Storage) (k : String) (h : s.getItem k = none) :
    s.removeItem k = s := by
  cases s with
  | mk l =>
    simp only [Storage.getItem, Option.map_eq_none', List.find?_eq_none] at h
    simp only [Storage.removeItem, Storage.mk.injEq, List.filter_eq_self]
    intro p hp
    have := h p hp
    simpa using this

theorem getItem_evicted_token (s : Storage) :
    ((s.removeItem "jwtToken").removeItem "loggedInUser").getItem "jwtToken" = none := by
  rw [getItem_removeItem, getItem_removeItem]
  simp

theorem getItem_evicted_user (s : Storage) :
    ((s.removeItem "jwtToken").removeItem "loggedInUser").getItem "loggedInUser" = none := by
  rw [getItem_removeItem]
  simp

theorem evict_evicted (s : Storage) :
    ((((s.removeItem "jwtToken").removeItem "loggedInUser").removeItem "jwtToken").removeItem
      "loggedInUser") = (s.removeItem "jwtToken").removeItem "loggedInUser" := by
  rw [removeItem_eq_self _ "jwtToken" (getItem_evicted_token s),
    removeItem_eq_self _ "loggedInUser" (getItem_evicted_user s)]

theorem isTokenExpired_of_expired (t : String) (now : Int) (h : Expired t now) :
    isTokenExpired (some t) now = true := by
  obtain ⟨payload, d, e, hdec, hexp, hint, hlt⟩ := h
  rw [isTokenExpired_of_decoded t now payload d e (ne_empty_of_decoded t payload hdec)
    hdec hexp hint]
  exact decide_eq_true hlt

theorem check_of_sessionInvalid (storage : Storage) (now : Int)
    (h : SessionInvalid storage now) :
    (falsy (storage.getItem "jwtToken") ||
      isTokenExpired (storage.getItem "jwtToken") now) = true := by
  unfold SessionInvalid at h
  cases hg : storage.getItem "jwtToken" with
  | none => rfl
  | some t =>
    rw [hg] at h
    rcases h with h | h | h
    · subst h; rfl
    · obtain ⟨err, herr⟩ := decodePayload_error_of_undecodable t h
      rw [isTokenExpired_of_error t now err herr, Bool.or_true]
    · rw [isTokenExpired_of_expired t now h, Bool.or_true]

theorem verifyToken_of_check (notice : Option String) (storage : Storage) (now : Int)
    (h : (falsy (storage.getItem "jwtToken") ||
      isTokenExpired (storage.getItem "jwtToken") now) = true) :
    verifyToken notice storage now =
      { storage := (storage.removeItem "jwtToken").removeItem "loggedInUser"
        result := false
        notice := notice
        navigate := some "/login" } := by
  simp only [verifyToken, h, if_true]

theorem verifyToken_evicted (notice : Option String) (s : Storage) (t : Int) :
    verifyToken notice ((s.removeItem "jwtToken").removeItem "loggedInUser") t =
      { storage := (s.removeItem "jwtToken").removeItem "loggedInUser"
        result := false
        notice := notice
        navigate := some "/login" } := by
  rw [verifyToken_of_check, evict_evicted]
  rw [getItem_evicted_token]
  rfl

/-! ## Eviction and logout: claims C4 to C7 -/

/-- C4: for every storage state and every time at which the stored session is
invalid (token absent, undecodable or expired), `verifyToken` returns `false`
and afterwards neither the `jwtToken` entry nor the `loggedInUser` entry is
present; the caller is sent to the login page. -/
theorem verifyToken_evicts_invalid (notice : Option String) (storage : Storage) (now : Int)
    (h : SessionInvalid storage now) :
    (verifyToken notice storage now).result = false ∧
      (verifyToken notice storage now).storage.getItem "jwtToken" = none ∧
      (verifyToken notice storage now).storage.getItem "loggedInUser" = none ∧
      (verifyToken notice storage now).navigate = some "/login" := by
  rw [verifyToken_of_check notice storage now (check_of_sessionInvalid storage now h)]
  exact ⟨rfl, getItem_evicted_token storage, getItem_evicted_user storage, rfl⟩

/-- Witness for C4: a session whose token expired one millisecond ago, next to
an unrelated entry. -/
theorem verifyToken_evicts_invalid_witness :
    (verifyToken none
        ⟨[("theme", "dark"), ("jwtToken", "h.eyJleHAiOjF9.s"), ("loggedInUser", "ann")]⟩
        1001).result = false ∧
      (verifyToken none
        ⟨[("theme", "dark"), ("jwtToken", "h.eyJleHAiOjF9.s"), ("loggedInUser", "ann")]⟩
        1001).storage.getItem "jwtToken" = none ∧
      (verifyToken none
        ⟨[("theme", "dark"), ("jwtToken", "h.eyJleHAiOjF9.s"), ("loggedInUser", "ann")]⟩
        1001).storage.getItem "loggedInUser" = none ∧
      (verifyToken none
        ⟨[("theme", "dark"), ("jwtToken", "h.eyJleHAiOjF9.s"), ("loggedInUser", "ann")]⟩
        1001).navigate = some "/login" :=
  verifyToken_evicts_invalid none
    ⟨[("theme", "dark"), ("jwtToken", "h.eyJleHAiOjF9.s"), ("loggedInUser", "ann")]⟩ 1001
    (Or.inr (Or.inr ⟨.object [("exp", .number ⟨1, 0⟩)], ⟨1, 0⟩, 1, rfl, rfl, by decide,
      by decide⟩))

/-- C5 fails on the code: in the end-user navbar an undecodable token is not
treated like an expired one. The first token below has a payload segment in
the URL-safe alphabet (it contains `_`, which `atob` rejects), so it cannot be
decoded: the handler sends the caller to the login page but leaves both
entries in `localStorage`. With the expired token `h.eyJleHAiOjF9.s` it
removes both. -/
theorem navbar_verifyToken_keeps_undecodable_session :
    Undecodable "eyJhbGciOiJIUzI1NiJ9.eyJuYW1lIjoiYWI_IiwiZXhwIjoxNzAwMDAzNjAwfQ.c2ln" ∧
      Navbar.verifyToken
          ⟨[("jwtToken", "eyJhbGciOiJIUzI1NiJ9.eyJuYW1lIjoiYWI_IiwiZXhwIjoxNzAwMDAzNjAwfQ.c2ln"),
            ("loggedInUser", "ann")]⟩ 1700000000000 =
        { storage :=
            ⟨[("jwtToken",
                "eyJhbGciOiJIUzI1NiJ9.eyJuYW1lIjoiYWI_IiwiZXhwIjoxNzAwMDAzNjAwfQ.c2ln"),
              ("loggedInUser", "ann")]⟩
          defaultPrevented := true
          navigate := some "/login" } ∧
      Navbar.verifyToken ⟨[("jwtToken", "h.eyJleHAiOjF9.s"), ("loggedInUser", "ann")]⟩ 1001 =
        { storage := ⟨[]⟩, defaultPrevented := true, navigate := some "/login" } := by
  refine ⟨Or.inr (Or.inl ⟨codes "eyJuYW1lIjoiYWI_IiwiZXhwIjoxNzAwMDAzNjAwfQ",
    .invalidCharacter, by decide, rfl⟩), ?_, ?_⟩
  · decide
  · decide

/-- C6: `verifyToken` is idempotent on an invalid session. After one call the
storage holds neither entry, and every further call, at whatever time and
however often repeated, returns `false` and leaves the storage as the first
call left it. -/
theorem verifyToken_idempotent (notice : Option String) (storage : Storage) (now : Int)
    (h : SessionInvalid storage now) (later : List Int) :
    (verifyToken notice storage now).storage.getItem "jwtToken" = none ∧
      (verifyToken notice storage now).storage.getItem "loggedInUser" = none ∧
      (∀ t, (verifyToken notice (verifyToken notice storage now).storage t).result = false ∧
        (verifyToken notice (verifyToken notice storage now).storage t).storage =
          (verifyToken notice storage now).storage) ∧
      later.foldl (fun s t => (verifyToken notice s t).storage)
          (verifyToken notice storage now).storage =
        (verifyToken notice storage now).storage := by
  rw [verifyToken_of_check notice storage now (check_of_sessionInvalid storage now h)]
  refine ⟨getItem_evicted_token storage, getItem_evicted_user storage, ?_, ?_⟩
  · intro t
    rw [verifyToken_evicted]
    exact ⟨rfl, rfl⟩
  · simp only
    induction later with
    | nil => rfl
    | cons t ts ih => rw [List.foldl_cons, verifyToken_evicted]; exact ih

/-- Witness for C6: the expired session of the C4 witness, checked again three
times at later instants. -/
theorem verifyToken_idempotent_witness :
    [1002, 1003, 5000].foldl (fun s t => (verifyToken none s t).storage)
        (verifyToken none ⟨[("jwtToken", "h.eyJleHAiOjF9.s"), ("loggedInUser", "ann")]⟩
          1001).storage =
      (verifyToken none ⟨[("jwtToken", "h.eyJleHAiOjF9.s"), ("loggedInUser", "ann")]⟩
        1001).storage :=
  (verifyToken_idempotent none ⟨[("jwtToken", "h.eyJleHAiOjF9.s"), ("loggedInUser", "ann")]⟩
    1001 (Or.inr (Or.inr ⟨.object [("exp", .number ⟨1, 0⟩)], ⟨1, 0⟩, 1, rfl, rfl, by decide,
      by decide⟩)) [1002, 1003, 5000]).2.2.2

/-- C7: logging out removes both session entries. From every state of the
storage, the "Log out" button of `navbar.jsx` and the handler `handleLogout`
of `AdminNavbar.jsx` leave neither `jwtToken` nor `loggedInUser` behind, and
both send the browser to `/login`. -/
theorem logout_removes_session (storage : Storage) :
    (Navbar.logout storage).storage.getItem "jwtToken" = none ∧
    (Navbar.logout storage).storage.getItem "loggedInUser" = none ∧
    (Navbar.logout storage).navigate = "/login" ∧
    (AdminNavbar.handleLogout storage).storage.getItem "jwtToken" = none ∧
    (AdminNavbar.handleLogout storage).storage.getItem "loggedInUser" = none ∧
    (AdminNavbar.handleLogout storage).navigate = "/login" := by
  refine ⟨?_, ?_, rfl, ?_, ?_, rfl⟩
  · simp [Navbar.logout, getItem_removeItem]
  · simp [Navbar.logout, getItem_removeItem]
  · simp [AdminNavbar.handleLogout, getItem_removeItem]
  · simp [AdminNavbar.handleLogout, getItem_removeItem]

/-! ## Lemmas on `handleLogin` -/

theorem welcome_ne_invalidCredentials (u : User) : welcome u ≠ invalidCredentials := by
  intro h
  have := congrArg Toast.kind h
  cases this

theorem welcome_ne_loginProblem (u : User) : welcome u ≠ loginProblem := by
  intro h
  have := congrArg Toast.kind h
  cases this

theorem invalidCredentials_ne_loginProblem : invalidCredentials ≠ loginProblem := by
  decide

theorem login_of_found (env : Env) (users : List User) (email password : String)
    (now : Int) (storage : Storage) (u : User)
    (hfind : users.find? (fun user => user.email == email) = some u) :
    Login.handleLogin env (.ok users) email password now storage =
      if env.compareSync password u.password then
        { storage := persistSession env u now storage, toast := welcome u, navigate := some "/" }
      else { storage := storage, toast := invalidCredentials, navigate := none } := by
  simp only [Login.handleLogin, hfind]

theorem login_of_not_found (env : Env) (users : List User)
    (email password : String) (now : Int) (storage : Storage)
    (hfind : users.find? (fun user => user.email == email) = none) :
    Login.handleLogin env (.ok users) email password now storage =
      { storage := storage, toast := invalidCredentials, navigate := none } := by
  simp only [Login.handleLogin, hfind]

theorem adminLogin_of_found (env : Env) (users : List User)
    (email password : String) (now : Int) (storage : Storage) (u : User)
    (hfind : users.find? (fun user => user.email == email && user.isAdmin == true) = some u) :
    AdminLogin.handleLogin env (.ok users) email password now storage =
      if env.compareSync password u.password then
        { storage := persistSession env u now storage, toast := welcome u
          navigate := some "/dashboard" }
      else { storage := storage, toast := invalidCredentials, navigate := none } := by
  simp only [AdminLogin.handleLogin, hfind]

theorem adminLogin_of_not_found (env : Env) (users : List User)
    (email password : String) (now : Int) (storage : Storage)
    (hfind : users.find? (fun user => user.email == email && user.isAdmin == true) = none) :
    AdminLogin.handleLogin env (.ok users) email password now storage =
      { storage := storage, toast := invalidCredentials, navigate := none } := by
  simp only [AdminLogin.handleLogin, hfind]

/-! ## Login: claims C8 and C9 -/

/-- C8, as stated, fails: a collection may hold two records with the given
email. `find` returns the first, so when the first record verifies the
password the login succeeds and writes the session, although a later record
with the same email does not verify it. -/
theorem handleLogin_duplicate_email_succeeds :
    ¬ ∀ (env : Env) (users : List User) (email password : String) (now : Int)
        (storage : Storage),
      (∃ u ∈ users, u.email = email ∧ env.compareSync password u.password = false) →
      (Login.handleLogin env (.ok users) email password now storage).toast =
          invalidCredentials ∧
        (Login.handleLogin env (.ok users) email password now storage).storage.getItem
          "jwtToken" = storage.getItem "jwtToken" ∧
        (Login.handleLogin env (.ok users) email password now storage).storage.getItem
          "loggedInUser" = storage.getItem "loggedInUser" := by
  intro h
  have h1 := h exampleEnv [ann, annAgain] "a@x.com" "secret" 0 ⟨[]⟩
    ⟨annAgain, by decide, by decide, by decide⟩
  revert h1
  decide

/-- C8 (amended): when the record that `find` selects for the given email (the
first record with that email; in the admin console the first record with that
email and `isAdmin` true) has a stored hash that does not verify the supplied
password, `handleLogin` reports invalid credentials and leaves `localStorage`,
and so both of its session entries, exactly as it was. -/
theorem handleLogin_wrong_password (env : Env) (users : List User) (email password : String)
    (now : Int) (storage : Storage) :
    (∀ u, users.find? (fun user => user.email == email) = some u →
      env.compareSync password u.password = false →
      Login.handleLogin env (.ok users) email password now storage =
        { storage := storage, toast := invalidCredentials, navigate := none }) ∧
    (∀ u, users.find? (fun user => user.email == email && user.isAdmin == true) = some u →
      env.compareSync password u.password = false →
      AdminLogin.handleLogin env (.ok users) email password now storage =
        { storage := storage, toast := invalidCredentials, navigate := none }) := by
  constructor
  · intro u hfind hbad
    rw [login_of_found env users email password now storage u hfind, hbad]
    rfl
  · intro u hfind hbad
    rw [adminLogin_of_found env users email password now storage u hfind, hbad]
    rfl

/-- Witness for C8 (amended): Ann's record with the wrong password `guess`, in
both applications, over a storage that holds an earlier session. -/
theorem handleLogin_wrong_password_witness :
    Login.handleLogin exampleEnv (.ok [ann, annAgain]) "a@x.com" "guess" 0
        ⟨[("jwtToken", "old"), ("loggedInUser", "bob")]⟩ =
      { storage := ⟨[("jwtToken", "old"), ("loggedInUser", "bob")]⟩
        toast := invalidCredentials, navigate := none } ∧
    AdminLogin.handleLogin exampleEnv (.ok [annAgain, ann]) "a@x.com" "guess" 0
        ⟨[("jwtToken", "old"), ("loggedInUser", "bob")]⟩ =
      { storage := ⟨[("jwtToken", "old"), ("loggedInUser", "bob")]⟩
        toast := invalidCredentials, navigate := none } :=
  ⟨(handleLogin_wrong_password exampleEnv [ann, annAgain] "a@x.com" "guess" 0
      ⟨[("jwtToken", "old"), ("loggedInUser", "bob")]⟩).1 ann (by decide) (by decide),
   (handleLogin_wrong_password exampleEnv [annAgain, ann] "a@x.com" "guess" 0
      ⟨[("jwtToken", "old"), ("loggedInUser", "bob")]⟩).2 ann (by decide) (by decide)⟩

/-- C9: the admin console's `handleLogin` writes a session only for a record of
the collection whose email equals the supplied email and whose `isAdmin` is
`true`: either it leaves the storage alone and shows an error, or the storage
it leaves is the session of such a record whose hash verifies the password.
When no record with that email is an administrator it writes nothing, even if
a non-admin record has the email and the password verifies. The end-user
`handleLogin` writes the session of the first record with the email whenever
its hash verifies the password, whatever its `isAdmin` value. -/
theorem adminLogin_requires_admin (env : Env) (users : List User) (email password : String)
    (now : Int) (storage : Storage) :
    (((AdminLogin.handleLogin env (.ok users) email password now storage).storage = storage ∧
        (AdminLogin.handleLogin env (.ok users) email password now storage).toast.kind =
          .error) ∨
      ∃ u ∈ users, u.email = email ∧ u.isAdmin = true ∧
        env.compareSync password u.password = true ∧
        (AdminLogin.handleLogin env (.ok users) email password now storage).storage =
          persistSession env u now storage) ∧
    ((∀ u ∈ users, u.email = email → u.isAdmin = false) →
      AdminLogin.handleLogin env (.ok users) email password now storage =
        { storage := storage, toast := invalidCredentials, navigate := none }) ∧
    (∀ u, users.find? (fun user => user.email == email) = some u →
      env.compareSync password u.password = true →
      Login.handleLogin env (.ok users) email password now storage =
        { storage := persistSession env u now storage, toast := welcome u
          navigate := some "/" }) := by
  refine ⟨?_, ?_, ?_⟩
  · cases hfind : users.find? (fun user => user.email == email && user.isAdmin == true) with
    | none =>
      left
      rw [adminLogin_of_not_found env users email password now storage hfind]
      exact ⟨rfl, rfl⟩
    | some u =>
      rw [adminLogin_of_found env users email password now storage u hfind]
      cases hcmp : env.compareSync password u.password with
      | false => left; exact ⟨rfl, rfl⟩
      | true =>
        right
        have hmem := List.mem_of_find?_eq_some hfind
        have hp := List.find?_some hfind
        simp only [Bool.and_eq_true, beq_iff_eq] at hp
        exact ⟨u, hmem, hp.1, hp.2, hcmp, rfl⟩
  · intro hnone
    apply adminLogin_of_not_found
    rw [List.find?_eq_none]
    intro u hu hp
    simp only [Bool.and_eq_true, beq_iff_eq] at hp
    have := hnone u hu hp.1
    rw [hp.2] at this
    cases this
  · intro u hfind hok
    rw [login_of_found env users email password now storage u hfind, hok]
    rfl

/-- Witness for C9: with only the non-admin record in the collection, its own
password `other` logs in to the end-user app and is refused by the admin
console. -/
theorem adminLogin_requires_admin_witness :
    AdminLogin.handleLogin exampleEnv (.ok [annAgain]) "a@x.com" "other" 0 ⟨[]⟩ =
      { storage := ⟨[]⟩, toast := invalidCredentials, navigate := none } ∧
    Login.handleLogin exampleEnv (.ok [annAgain]) "a@x.com" "other" 0 ⟨[]⟩ =
      { storage := persistSession exampleEnv annAgain 0 ⟨[]⟩, toast := welcome annAgain
        navigate := some "/" } :=
  ⟨(adminLogin_requires_admin exampleEnv [annAgain] "a@x.com" "other" 0 ⟨[]⟩).2.1
      (by decide),
   (adminLogin_requires_admin exampleEnv [annAgain] "a@x.com" "other" 0 ⟨[]⟩).2.2 annAgain
      (by decide) (by decide)⟩

/-! ## More lemmas on `localStorage` -/

theorem find?_key_map_set_ne (l : List (String × String)) (k v k' : String) (h : k' ≠ k) :
    (l.map (fun p => if p.1 == k then (k, v) else p)).find? (fun p => p.1 == k') =
      l.find? (fun p => p.1 == k') := by
  induction l with
  | nil => rfl
  | cons p l ih =>
    simp only [List.map_cons, List.find?_cons]
    by_cases hp : p.1 = k
    · have h1 : (p.1 == k) = true := by simp [hp]
      have h2 : (k == k') = false := by
        rw [beq_eq_false_iff_ne]
        exact fun e => h e.symm
      have h3 : (p.1 == k') = false := by
        rw [beq_eq_false_iff_ne, hp]
        exact fun e => h e.symm
      simp only [h1, if_true, h2, h3, ih]
    · have h1 : (p.1 == k) = false := by
        rw [beq_eq_false_iff_ne]
        exact hp
      simp only [h1, Bool.false_eq_true, if_false, ih]

theorem find?_key_map_set_self (l : List (String × String)) (k v : String)
    (h : l.any (fun p => p.1 == k) = true) :
    (l.map (fun p => if p.1 == k then (k, v) else p)).find? (fun p => p.1 == k) =
      some (k, v) := by
  induction l with
  | nil => simp at h
  | cons p l ih =>
    simp only [List.map_cons, List.find?_cons]
    by_cases hp : p.1 = k
    · have h1 : (p.1 == k) = true := by simp [hp]
      simp [h1]
    · have h1 : (p.1 == k) = false := by
        rw [beq_eq_false_iff_ne]
        exact hp
      simp only [List.any_cons, h1, Bool.false_or] at h
      simp only [h1, Bool.false_eq_true, if_false, ih h]

theorem getItem_setItem_ne (s : Storage) (k v k' : String) (h : k' ≠ k) :
    (s.setItem k v).getItem k' = s.getItem k' := by
  unfold Storage.setItem Storage.getItem
  split
  · simp only [find?_key_map_set_ne _ k v k' h]
  · have h2 : (k == k') = false := by
      rw [beq_eq_false_iff_ne]
      exact fun e => h e.symm
    simp [List.find?_append, h2]

theorem getItem_setItem_self (s : Storage) (k v : String) :
    (s.setItem k v).getItem k = some v := by
  unfold Storage.setItem Storage.getItem
  split
  · next h => simp only [find?_key_map_set_self _ k v h, Option.map_some']
  · next h =>
    have hnone : s.entries.find? (fun p => p.1 == k) = none := by
      rw [List.find?_eq_none]
      intro p hp hpk
      exact h (List.any_eq_true.mpr ⟨p, hp, hpk⟩)
    simp [List.find?_append, hnone]

theorem getItem_persistSession_user (env : Env) (u : User) (now : Int) (storage : Storage) :
    (persistSession env u now storage).getItem "loggedInUser" = some (env.stringify u) := by
  unfold persistSession
  rw [getItem_setItem_ne _ _ _ _ (by decide), getItem_setItem_self]

theorem getItem_persistSession_token (env : Env) (u : User) (now : Int) (storage : Storage) :
    (persistSession env u now storage).getItem "jwtToken" = some (env.signJWT u.name now) := by
  unfold persistSession
  rw [getItem_setItem_self]

/-! ## Lemmas on `JSON.stringify` -/

theorem stringifyFields_of_mem (fields : List (String × JSValue)) (k : String) (v : JSValue)
    (h : (k, v) ∈ fields) :
    ∃ pre post, JSON.stringifyFields fields =
      pre ++ (JSON.quoteCodes k ++ 58 :: JSON.stringifyCodes v) ++ post := by
  induction fields with
  | nil => cases h
  | cons f fs ih =>
    obtain ⟨k', v'⟩ := f
    cases fs with
    | nil =>
      have hf : (k, v) = (k', v') := by simpa using h
      cases hf
      exact ⟨[], [], by simp [JSON.stringifyFields]⟩
    | cons g gs =>
      rcases List.mem_cons.mp h with hf | hrest
      · cases hf
        exact ⟨[], 44 :: JSON.stringifyFields (g :: gs), by simp [JSON.stringifyFields]⟩
      · obtain ⟨pre, post, hpp⟩ := ih hrest
        refine ⟨JSON.quoteCodes k' ++ 58 :: (JSON.stringifyCodes v' ++ [44]) ++ pre, post, ?_⟩
        rw [JSON.stringifyFields, hpp]
        simp

theorem password_mem_toJSON (u : User) :
    ∃ fields, u.toJSON = .object fields ∧ ("password", JSValue.string u.password) ∈ fields := by
  refine ⟨_, rfl, ?_⟩
  simp

theorem strictEq_true_iff (p : Option JSValue) :
    strictEq p (some (.bool true)) = true ↔ p = some (.bool true) := by
  constructor
  · intro h
    match p, h with
    | some (.bool true), _ => rfl
  · intro h
    subst h
    rfl

theorem hexDigitCode_inj (a b : Nat) (ha : a < 16) (hb : b < 16)
    (h : hexDigitCode a = hexDigitCode b) : a = b := by
  unfold hexDigitCode at h
  split_ifs at h <;> omega

theorem escapeCode_cases (c : Nat) :
    (c = 34 ∧ escapeCode c = [92, 34]) ∨ (c = 92 ∧ escapeCode c = [92, 92]) ∨
    (c = 8 ∧ escapeCode c = [92, 98]) ∨ (c = 12 ∧ escapeCode c = [92, 102]) ∨
    (c = 10 ∧ escapeCode c = [92, 110]) ∨ (c = 13 ∧ escapeCode c = [92, 114]) ∨
    (c = 9 ∧ escapeCode c = [92, 116]) ∨
    (c < 32 ∧ escapeCode c = [92, 117, 48, 48, hexDigitCode (c / 16), hexDigitCode (c % 16)]) ∨
    (c ≠ 92 ∧ escapeCode c = [c]) := by
  unfold escapeCode
  split_ifs <;> simp_all

theorem escapeCode_append_inj (c c' : Nat) (r r' : List Nat)
    (h : escapeCode c ++ r = escapeCode c' ++ r') : c = c' ∧ r = r' := by
  rcases escapeCode_cases c with ⟨hc, he⟩ | ⟨hc, he⟩ | ⟨hc, he⟩ | ⟨hc, he⟩ | ⟨hc, he⟩ |
      ⟨hc, he⟩ | ⟨hc, he⟩ | ⟨hc, he⟩ | ⟨hc, he⟩ <;>
    rcases escapeCode_cases c' with ⟨hc', he'⟩ | ⟨hc', he'⟩ | ⟨hc', he'⟩ | ⟨hc', he'⟩ |
      ⟨hc', he'⟩ | ⟨hc', he'⟩ | ⟨hc', he'⟩ | ⟨hc', he'⟩ | ⟨hc', he'⟩ <;>
    rw [he, he'] at h <;>
    simp only [List.cons_append, List.nil_append, List.cons.injEq] at h <;>
    first
    | omega
    | exact ⟨by omega, h.2⟩
    | exact ⟨by omega, h.2.2⟩
    | (obtain ⟨_, _, _, _, h5, h6, hr⟩ := h
       have e1 := hexDigitCode_inj _ _ (by omega) (by omega) h5
       have e2 := hexDigitCode_inj _ _ (by omega) (by omega) h6
       exact ⟨by omega, hr⟩)

theorem escapeCode_ne_nil (c : Nat) : escapeCode c ≠ [] := by
  rcases escapeCode_cases c with ⟨_, he⟩ | ⟨_, he⟩ | ⟨_, he⟩ | ⟨_, he⟩ | ⟨_, he⟩ |
      ⟨_, he⟩ | ⟨_, he⟩ | ⟨_, he⟩ | ⟨_, he⟩ <;> rw [he] <;> exact List.cons_ne_nil _ _

theorem flatMap_escapeCode_inj (cs cs' : List Nat)
    (h : cs.flatMap escapeCode = cs'.flatMap escapeCode) : cs = cs' := by
  induction cs generalizing cs' with
  | nil =>
    cases cs' with
    | nil => rfl
    | cons c' rest' =>
      rw [List.flatMap_nil, List.flatMap_cons] at h
      exact absurd (List.append_eq_nil.mp h.symm).1 (escapeCode_ne_nil c')
  | cons c rest ih =>
    cases cs' with
    | nil =>
      rw [List.flatMap_nil, List.flatMap_cons] at h
      exact absurd (List.append_eq_nil.mp h).1 (escapeCode_ne_nil c)
    | cons c' rest' =>
      rw [List.flatMap_cons, List.flatMap_cons] at h
      obtain ⟨hc, hr⟩ := escapeCode_append_inj c c' _ _ h
      rw [hc, ih rest' hr]

theorem hexDigitCode_lt (n : Nat) (h : n < 16) : hexDigitCode n < 128 := by
  unfold hexDigitCode
  split_ifs <;> omega

theorem escapeCode_valid (c : Nat) (hc : c.isValidChar) : ∀ x ∈ escapeCode c, x.isValidChar := by
  intro x hx
  rcases escapeCode_cases c with ⟨_, he⟩ | ⟨_, he⟩ | ⟨_, he⟩ | ⟨_, he⟩ | ⟨_, he⟩ |
      ⟨_, he⟩ | ⟨_, he⟩ | ⟨hlt, he⟩ | ⟨_, he⟩ <;> rw [he] at hx
  case inr.inr.inr.inr.inr.inr.inr.inl =>
    have h1 := hexDigitCode_lt (c / 16) (by omega)
    have h2 := hexDigitCode_lt (c % 16) (by omega)
    simp only [List.mem_cons, List.mem_singleton, List.not_mem_nil, or_false] at hx
    rcases hx with h | h | h | h | h | h <;> subst h <;> first | decide | (left; omega)
  all_goals
    simp only [List.mem_cons, List.mem_singleton, List.not_mem_nil, or_false] at hx
    first
    | (rcases hx with h | h <;> subst h <;> decide)
    | (subst hx; exact hc)

theorem codes_valid (s : String) : ∀ x ∈ codes s, x.isValidChar := by
  intro x hx
  unfold codes at hx
  rw [List.mem_map] at hx
  obtain ⟨ch, _, hch⟩ := hx
  rw [← hch]
  exact ch.valid

theorem map_ofNat_inj (l l' : List Nat) (hl : ∀ x ∈ l, x.isValidChar)
    (hl' : ∀ x ∈ l', x.isValidChar) (h : l.map Char.ofNat = l'.map Char.ofNat) : l = l' := by
  have key : ∀ m : List Nat, (∀ x ∈ m, x.isValidChar) →
      (m.map Char.ofNat).map Char.toNat = m := by
    intro m hm
    induction m with
    | nil => rfl
    | cons a rest ih =>
      rw [List.map_cons, List.map_cons, ih (fun x hx => hm x (List.mem_cons_of_mem _ hx))]
      have ha := hm a (List.mem_cons_self _ _)
      have hr : (Char.ofNat a).toNat = a := by
        unfold Char.ofNat
        rw [dif_pos ha]
        rfl
      rw [hr]
  rw [← key l hl, ← key l' hl', h]

theorem codes_inj (s t : String) (h : codes s = codes t) : s = t := by
  unfold codes at h
  have h2 := congrArg (List.map Char.ofNat) h
  simp only [List.map_map] at h2
  have hid : (Char.ofNat ∘ Char.toNat) = id := by
    funext ch
    exact Char.ofNat_toNat ch
  rw [hid, List.map_id, List.map_id] at h2
  exact String.ext h2

theorem stringifyFields_split (pre : List (String × JSValue)) :
    ∃ P : List Nat, ∀ (k : String) (v : JSValue) (g : String × JSValue)
      (post : List (String × JSValue)),
      JSON.stringifyFields (pre ++ (k, v) :: g :: post) =
        P ++ (JSON.quoteCodes k ++ 58 :: JSON.stringifyCodes v) ++
          44 :: JSON.stringifyFields (g :: post) := by
  induction pre with
  | nil =>
    refine ⟨[], fun k v g post => ?_⟩
    simp [JSON.stringifyFields]
  | cons f rest ih =>
    obtain ⟨P, hP⟩ := ih
    obtain ⟨k', v'⟩ := f
    refine ⟨JSON.quoteCodes k' ++ 58 :: (JSON.stringifyCodes v' ++ [44]) ++ P,
      fun k v g post => ?_⟩
    have hcons : ∃ a as, rest ++ (k, v) :: g :: post = a :: as := by
      cases rest with
      | nil => exact ⟨_, _, rfl⟩
      | cons a as => exact ⟨_, _, rfl⟩
    obtain ⟨a, as, has⟩ := hcons
    rw [List.cons_append, has, JSON.stringifyFields, ← has, hP]
    simp

theorem stringify_toJSON_shape (u : User) :
    ∃ A B : List Nat, ∀ p : String,
      JSON.stringifyCodes ({ u with password := p } : User).toJSON =
        A ++ ((codes p).flatMap escapeCode ++ B) := by
  obtain ⟨P, hP⟩ := stringifyFields_split
    ([("id", .string u.id), ("name", .string u.name)] ++
      (match u.user_name with
        | some n => [("user_name", JSValue.string n)]
        | none => []) ++ [("email", .string u.email)])
  refine ⟨123 :: (P ++ (JSON.quoteCodes "password" ++ [58, 34])),
    34 :: 44 :: (JSON.stringifyFields
      (("isAdmin", .bool u.isAdmin) :: u.other.map (fun p => (p.1, JSValue.string p.2))) ++
        [125]), fun p => ?_⟩
  have hfields : ({ u with password := p } : User).toJSON = .object
      (([("id", .string u.id), ("name", .string u.name)] ++
        (match u.user_name with
          | some n => [("user_name", JSValue.string n)]
          | none => []) ++ [("email", .string u.email)]) ++
        ("password", .string p) :: ("isAdmin", .bool u.isAdmin) ::
          u.other.map (fun p => (p.1, JSValue.string p.2))) := by
    simp [User.toJSON]
  rw [hfields, JSON.stringifyCodes, hP]
  simp [JSON.stringifyCodes, JSON.quoteCodes]

theorem stringify_toJSON_password_inj (u : User) (p : String)
    (h : JSON.stringify u.toJSON = JSON.stringify ({ u with password := p } : User).toJSON) :
    u.password = p := by
  obtain ⟨A, B, hshape⟩ := stringify_toJSON_shape u
  have h1 := hshape u.password
  have h2 := hshape p
  have hu : ({ u with password := u.password } : User) = u := rfl
  rw [hu] at h1
  unfold JSON.stringify ofCodes at h
  rw [h1, h2] at h
  have h3 := congrArg String.data h
  simp only [List.map_append, List.append_cancel_left_eq, List.append_cancel_right_eq] at h3
  have hv : ∀ q : String, ∀ x ∈ (codes q).flatMap escapeCode, x.isValidChar := by
    intro q x hx
    rw [List.mem_flatMap] at hx
    obtain ⟨c, hc, hxc⟩ := hx
    exact escapeCode_valid c (codes_valid q c hc) x hxc
  exact codes_inj _ _ (flatMap_escapeCode_inj _ _
    (map_ofNat_inj _ _ (hv u.password) (hv p) h3))

/-! ## The minted session: claims C11 and C12 -/

/-- C11 fails on the code for some names. The claims of the minted token are
the record's name and `exp`, the issuance time in whole seconds plus 3600,
which lies between 59 and 61 minutes ahead. But `jose` writes the token in the
URL-safe base64 alphabet, and `isTokenExpired` decodes it with `atob`: the
token minted for the user "Zoë" has `_` in its claims segment, `atob` throws,
and the token is judged expired at the very instant it is issued. The token
of "Ann Admin" is judged valid. -/
theorem minted_token_judged_expired_at_issuance :
    (∀ (name : String) (now : Int),
      jose.payload name now =
          .object [("name", .string name), ("exp", .number ⟨now / 1000 + 3600, 0⟩)] ∧
        now + 3540000 ≤ (now / 1000 + 3600) * 1000 ∧
        (now / 1000 + 3600) * 1000 ≤ now + 3660000) ∧
    (Login.handleLogin (browserEnv exampleEnv.compareSync exampleSign) (.ok [zoe]) "z@x.com"
        "secret" 1700000000123 ⟨[]⟩).toast = welcome zoe ∧
    (Login.handleLogin (browserEnv exampleEnv.compareSync exampleSign) (.ok [zoe]) "z@x.com"
        "secret" 1700000000123 ⟨[]⟩).storage.getItem "jwtToken" =
      some ("eyJhbGciOiJIUzI1NiJ9.eyJuYW1lIjoiWm_DqyIsImV4cCI6MTcwMDAwMzYwMH0." ++
        "AAAAAAAAAAAAAAAAAAAAAAAAAAAAAAAAAAAAAAAAAAA") ∧
    isTokenExpired
        ((Login.handleLogin (browserEnv exampleEnv.compareSync exampleSign) (.ok [zoe])
          "z@x.com" "secret" 1700000000123 ⟨[]⟩).storage.getItem "jwtToken")
        1700000000123 = true ∧
    isTokenExpired
        ((Login.handleLogin (browserEnv exampleEnv.compareSync exampleSign) (.ok [ann])
          "a@x.com" "secret" 1700000000123 ⟨[]⟩).storage.getItem "jwtToken")
        1700000000123 = false := by
  refine ⟨fun name now => ⟨rfl, ?_, ?_⟩, ?_, ?_, ?_, ?_⟩
  · omega
  · omega
  · decide
  · decide
  · decide
  · decide

/-- C12, as stated, fails: the value persisted under `loggedInUser` is the
whole record. Two records that differ only in their password hash, each
logging in with its own password, leave different `loggedInUser` entries, and
the entry of the first shows its hash. -/
theorem persisted_user_differs_with_password :
    ann.password ≠ "hash(other)" ∧
    (Login.handleLogin (browserEnv exampleEnv.compareSync exampleSign) (.ok [ann]) "a@x.com"
        "secret" 0 ⟨[]⟩).storage.getItem "loggedInUser" ≠
      (Login.handleLogin (browserEnv exampleEnv.compareSync exampleSign)
        (.ok [{ ann with password := "hash(other)" }]) "a@x.com" "other" 0
        ⟨[]⟩).storage.getItem "loggedInUser" ∧
    (Login.handleLogin (browserEnv exampleEnv.compareSync exampleSign) (.ok [ann]) "a@x.com"
        "secret" 0 ⟨[]⟩).storage.getItem "loggedInUser" =
      some ("\x7b\"id\":\"1\",\"name\":\"Ann Admin\",\"user_name\":\"ann\"," ++
        "\"email\":\"a@x.com\",\"password\":\"hash(secret)\",\"isAdmin\":true\x7d") := by
  refine ⟨by decide, by decide, by decide⟩

/-- C12 (amended): the value persisted under `loggedInUser` by a successful
login, in either application, is the JSON text of the whole matched record:
identifier, display name, username, email, administrator flag, and also the
password hash, whose JSON text `"password":"<hash>"` occurs in the entry. So
two records that differ only in their password field have different JSON
texts, and the successful logins of two such records, in either application,
leave different `loggedInUser` entries. -/
theorem persisted_user_is_whole_record (compareSync : String → String → Bool)
    (sign : List Nat → List Nat) (users : List User) (email password : String) (now : Int)
    (storage : Storage) :
    (∀ u, users.find? (fun user => user.email == email) = some u →
      compareSync password u.password = true →
      (Login.handleLogin (browserEnv compareSync sign) (.ok users) email password now
          storage).storage.getItem "loggedInUser" = some (JSON.stringify u.toJSON) ∧
        ∃ pre post, JSON.stringifyCodes u.toJSON =
          pre ++ (JSON.quoteCodes "password" ++ 58 :: JSON.quoteCodes u.password) ++ post) ∧
    (∀ u, users.find? (fun user => user.email == email && user.isAdmin == true) = some u →
      compareSync password u.password = true →
      (AdminLogin.handleLogin (browserEnv compareSync sign) (.ok users) email password now
          storage).storage.getItem "loggedInUser" = some (JSON.stringify u.toJSON) ∧
        ∃ pre post, JSON.stringifyCodes u.toJSON =
          pre ++ (JSON.quoteCodes "password" ++ 58 :: JSON.quoteCodes u.password) ++ post) ∧
    (∀ (u : User) (p : String), p ≠ u.password →
      JSON.stringify u.toJSON ≠ JSON.stringify ({ u with password := p } : User).toJSON) ∧
    (∀ (u : User) (p : String) (users' : List User) (email' password' : String) (now' : Int)
      (storage' : Storage),
      users.find? (fun user => user.email == email) = some u →
      compareSync password u.password = true →
      users'.find? (fun user => user.email == email') = some { u with password := p } →
      compareSync password' p = true → p ≠ u.password →
      (Login.handleLogin (browserEnv compareSync sign) (.ok users) email password now
          storage).storage.getItem "loggedInUser" ≠
        (Login.handleLogin (browserEnv compareSync sign) (.ok users') email' password' now'
          storage').storage.getItem "loggedInUser") ∧
    (∀ (u : User) (p : String) (users' : List User) (email' password' : String) (now' : Int)
      (storage' : Storage),
      users.find? (fun user => user.email == email && user.isAdmin == true) = some u →
      compareSync password u.password = true →
      users'.find? (fun user => user.email == email' && user.isAdmin == true) =
        some { u with password := p } →
      compareSync password' p = true → p ≠ u.password →
      (AdminLogin.handleLogin (browserEnv compareSync sign) (.ok users) email password now
          storage).storage.getItem "loggedInUser" ≠
        (AdminLogin.handleLogin (browserEnv compareSync sign) (.ok users') email' password'
          now' storage').storage.getItem "loggedInUser") := by
  have hsub : ∀ u : User, ∃ pre post, JSON.stringifyCodes u.toJSON =
      pre ++ (JSON.quoteCodes "password" ++ 58 :: JSON.quoteCodes u.password) ++ post := by
    intro u
    obtain ⟨fields, hobj, hmem⟩ := password_mem_toJSON u
    obtain ⟨pre, post, hpp⟩ := stringifyFields_of_mem fields _ _ hmem
    refine ⟨123 :: pre, post ++ [125], ?_⟩
    rw [hobj, JSON.stringifyCodes, hpp]
    simp [JSON.stringifyCodes]
  have hlogin : ∀ (list : List User) (mail pass : String) (t : Int) (st : Storage) (u : User),
      list.find? (fun user => user.email == mail) = some u →
      compareSync pass u.password = true →
      (Login.handleLogin (browserEnv compareSync sign) (.ok list) mail pass t
          st).storage.getItem "loggedInUser" = some (JSON.stringify u.toJSON) := by
    intro list mail pass t st u hfind hok
    rw [login_of_found _ list mail pass t st u hfind]
    have hc : (browserEnv compareSync sign).compareSync pass u.password = true := hok
    rw [hc]
    exact getItem_persistSession_user _ u t st
  have hadmin : ∀ (list : List User) (mail pass : String) (t : Int) (st : Storage) (u : User),
      list.find? (fun user => user.email == mail && user.isAdmin == true) = some u →
      compareSync pass u.password = true →
      (AdminLogin.handleLogin (browserEnv compareSync sign) (.ok list) mail pass t
          st).storage.getItem "loggedInUser" = some (JSON.stringify u.toJSON) := by
    intro list mail pass t st u hfind hok
    rw [adminLogin_of_found _ list mail pass t st u hfind]
    have hc : (browserEnv compareSync sign).compareSync pass u.password = true := hok
    rw [hc]
    exact getItem_persistSession_user _ u t st
  have hdiff : ∀ (u : User) (p : String), p ≠ u.password →
      JSON.stringify u.toJSON ≠ JSON.stringify ({ u with password := p } : User).toJSON :=
    fun u p hp h => hp (stringify_toJSON_password_inj u p h).symm
  refine ⟨?_, ?_, hdiff, ?_, ?_⟩
  · intro u hfind hok
    exact ⟨hlogin users email password now storage u hfind hok, hsub u⟩
  · intro u hfind hok
    exact ⟨hadmin users email password now storage u hfind hok, hsub u⟩
  · intro u p users' email' password' now' storage' hfind hok hfind' hok' hp
    rw [hlogin users email password now storage u hfind hok,
      hlogin users' email' password' now' storage' _ hfind' hok']
    intro h
    exact hdiff u p hp (Option.some.inj h)
  · intro u p users' email' password' now' storage' hfind hok hfind' hok' hp
    rw [hadmin users email password now storage u hfind hok,
      hadmin users' email' password' now' storage' _ hfind' hok']
    intro h
    exact hdiff u p hp (Option.some.inj h)

/-- Witness for C12 (amended): Ann's login in both applications. -/
theorem persisted_user_is_whole_record_witness :
    (Login.handleLogin (browserEnv exampleEnv.compareSync exampleSign) (.ok [ann]) "a@x.com"
        "secret" 0 ⟨[]⟩).storage.getItem "loggedInUser" = some (JSON.stringify ann.toJSON) ∧
    (AdminLogin.handleLogin (browserEnv exampleEnv.compareSync exampleSign) (.ok [ann])
        "a@x.com" "secret" 0 ⟨[]⟩).storage.getItem "loggedInUser" =
      some (JSON.stringify ann.toJSON) :=
  ⟨((persisted_user_is_whole_record exampleEnv.compareSync exampleSign [ann] "a@x.com"
      "secret" 0 ⟨[]⟩).1 ann (by decide) (by decide)).1,
   ((persisted_user_is_whole_record exampleEnv.compareSync exampleSign [ann] "a@x.com"
      "secret" 0 ⟨[]⟩).2.1 ann (by decide) (by decide)).1⟩

/-! ## The admin route gate: claims C13 and C14 -/

/-- C13, as stated, fails: with no token at all in storage, a `loggedInUser`
entry whose `isAdmin` is `true` makes `initialAdminStatus` true, and the login
page redirects to the dashboard. -/
theorem initialAdminStatus_without_token :
    ¬ ∀ (storage : Storage) (now : Int), SessionInvalid storage now →
      App.initialAdminStatus storage = .ok false ∧ AdminLogin.onMount storage = .ok none := by
  intro h
  have h1 := h ⟨[("loggedInUser", "\x7b\"isAdmin\":true\x7d")]⟩ 0 (by
    unfold SessionInvalid
    trivial)
  have h2 : App.initialAdminStatus ⟨[("loggedInUser", "\x7b\"isAdmin\":true\x7d")]⟩ =
      .ok true := rfl
  rw [h2] at h1
  cases h1.1

theorem onMount_redirect_iff (storage : Storage) :
    AdminLogin.onMount storage = .ok (some "/dashboard") ↔
      ∃ s v p, storage.getItem "loggedInUser" = some s ∧ s ≠ "" ∧ JSON.parse s = .ok v ∧
        v.get "isAdmin" = .ok p ∧ truthy p = true := by
  unfold AdminLogin.onMount
  cases hg : storage.getItem "loggedInUser" with
  | none =>
    simp only
    constructor
    · intro hf; cases hf
    · rintro ⟨s, v, p, hs, _⟩; cases hs
  | some s =>
    simp only
    by_cases hs : s = ""
    · rw [if_pos hs]
      constructor
      · intro hf; cases hf
      · rintro ⟨s', v, p, hs', hne, _⟩
        cases hs'
        exact absurd hs hne
    · rw [if_neg hs]
      cases hp : JSON.parse s with
      | error err =>
        simp only
        constructor
        · intro hf; cases hf
        · rintro ⟨s', v, p, hs', _, hv, _⟩
          cases hs'
          rw [hp] at hv
          cases hv
      | ok v =>
        simp only
        cases hi : v.get "isAdmin" with
        | error err =>
          simp only
          constructor
          · intro hf; cases hf
          · rintro ⟨s', v', p, hs', _, hv, hi', _⟩
            cases hs'
            rw [hp] at hv
            cases hv
            rw [hi] at hi'
            cases hi'
        | ok p =>
          simp only
          cases ht : truthy p with
          | true =>
            constructor
            · intro _
              exact ⟨s, v, p, rfl, hs, hp, hi, ht⟩
            · intro _
              rfl
          | false =>
            constructor
            · intro hf
              simp at hf
            · rintro ⟨s', v', p', hs', _, hv, hi', ht'⟩
              cases hs'
              rw [hp] at hv
              cases hv
              rw [hi] at hi'
              cases hi'
              rw [ht] at ht'
              cases ht'

/-- C13 (amended): at start-up the admin application derives the role from the
`loggedInUser` entry alone. Two storage states with the same `loggedInUser`
entry give the same `initialAdminStatus` and the same redirect of the login
page, whatever their `jwtToken` entries hold; `initialAdminStatus` is true
exactly when the entry is present, is not empty and parses to a value whose
`isAdmin` is strictly `true`; and the login page redirects to the dashboard
exactly when the entry is present, is not empty and parses to a value whose
`isAdmin` is truthy. -/
theorem initialAdminStatus_from_loggedInUser (storage storage' : Storage)
    (h : storage.getItem "loggedInUser" = storage'.getItem "loggedInUser") :
    App.initialAdminStatus storage = App.initialAdminStatus storage' ∧
    AdminLogin.onMount storage = AdminLogin.onMount storage' ∧
    (App.initialAdminStatus storage = .ok true ↔
      ∃ s v, storage.getItem "loggedInUser" = some s ∧ s ≠ "" ∧ JSON.parse s = .ok v ∧
        v.get "isAdmin" = .ok (some (.bool true))) ∧
    (AdminLogin.onMount storage = .ok (some "/dashboard") ↔
      ∃ s v p, storage.getItem "loggedInUser" = some s ∧ s ≠ "" ∧ JSON.parse s = .ok v ∧
        v.get "isAdmin" = .ok p ∧ truthy p = true) := by
  refine ⟨?_, ?_, ?_, onMount_redirect_iff storage⟩
  · unfold App.initialAdminStatus
    rw [h]
  · unfold AdminLogin.onMount
    rw [h]
  · unfold App.initialAdminStatus
    cases hg : storage.getItem "loggedInUser" with
    | none =>
      simp only
      constructor
      · intro hf; cases hf
      · rintro ⟨s, v, hs, _⟩; cases hs
    | some s =>
      simp only
      by_cases hs : s = ""
      · rw [if_pos hs]
        constructor
        · intro hf; cases hf
        · rintro ⟨s', v, hs', hne, _⟩
          cases hs'
          exact absurd hs hne
      · rw [if_neg hs]
        cases hp : JSON.parse s with
        | error err =>
          simp only
          constructor
          · intro hf; cases hf
          · rintro ⟨s', v, hs', _, hv, _⟩
            cases hs'
            rw [hp] at hv
            cases hv
        | ok v =>
          simp only
          cases hi : v.get "isAdmin" with
          | error err =>
            simp only
            constructor
            · intro hf; cases hf
            · rintro ⟨s', v', hs', _, hv, hi'⟩
              cases hs'
              rw [hp] at hv
              cases hv
              rw [hi] at hi'
              cases hi'
          | ok p =>
            simp only
            constructor
            · intro hf
              have hb : strictEq p (some (.bool true)) = true := by
                injection hf
              exact ⟨s, v, rfl, hs, hp, by rw [hi, (strictEq_true_iff p).mp hb]⟩
            · rintro ⟨s', v', hs', _, hv, hi'⟩
              cases hs'
              rw [hp] at hv
              cases hv
              rw [hi] at hi'
              cases hi'
              rfl

/-- Witness for C13 (amended): the same admin entry with and without a token. -/
theorem initialAdminStatus_from_loggedInUser_witness :
    App.initialAdminStatus ⟨[("loggedInUser", "\x7b\"isAdmin\":true\x7d")]⟩ =
      App.initialAdminStatus
        ⟨[("jwtToken", "h.eyJleHAiOjF9.s"), ("loggedInUser", "\x7b\"isAdmin\":true\x7d")]⟩ :=
  (initialAdminStatus_from_loggedInUser ⟨[("loggedInUser", "\x7b\"isAdmin\":true\x7d")]⟩
    ⟨[("jwtToken", "h.eyJleHAiOjF9.s"), ("loggedInUser", "\x7b\"isAdmin\":true\x7d")]⟩
    (by decide)).1

/-- C14 fails on the code: the gate `isLoggedInAdmin` is set once, when the
page loads, and no login, logout or eviction changes it. Started on an empty
storage it is false; after Ann's successful admin login, which navigates to
the dashboard, it is still false and the dashboard path is redirected to the
login page. Started with Ann's session it is true, and after logout the
dashboard route is still admitted. Only a reload of the page reads the
storage again. -/
theorem route_gate_fixed_at_load :
    (∀ (env : Env) (app : AdminApp) (response : UsersResponse) (email password : String)
        (now : Int),
      (App.login env app response email password now).isLoggedInAdmin = app.isLoggedInAdmin) ∧
    (∀ app : AdminApp, (App.logout app).isLoggedInAdmin = app.isLoggedInAdmin) ∧
    (∀ (app : AdminApp) (now : Int),
      (App.verifyToken app now).isLoggedInAdmin = app.isLoggedInAdmin) ∧
    App.load ⟨[]⟩ = .ok { isLoggedInAdmin := false, storage := ⟨[]⟩ } ∧
    (AdminLogin.handleLogin (browserEnv exampleEnv.compareSync exampleSign) (.ok [ann])
        "a@x.com" "secret" 1700000000123 ⟨[]⟩).navigate = some "/dashboard" ∧
    App.route
        (App.login (browserEnv exampleEnv.compareSync exampleSign)
          { isLoggedInAdmin := false, storage := ⟨[]⟩ } (.ok [ann]) "a@x.com" "secret"
          1700000000123)
        "/dashboard" = .redirect "/login" ∧
    (App.load
        (App.login (browserEnv exampleEnv.compareSync exampleSign)
          { isLoggedInAdmin := false, storage := ⟨[]⟩ } (.ok [ann]) "a@x.com" "secret"
          1700000000123).storage).map (fun app => app.isLoggedInAdmin) = .ok true ∧
    App.route
        (App.logout
          { isLoggedInAdmin := true
            storage := (AdminLogin.handleLogin (browserEnv exampleEnv.compareSync exampleSign)
              (.ok [ann]) "a@x.com" "secret" 1700000000123 ⟨[]⟩).storage })
        "/dashboard" = .page "/dashboard" ∧
    (App.logout
          { isLoggedInAdmin := true
            storage := (AdminLogin.handleLogin (browserEnv exampleEnv.compareSync exampleSign)
              (.ok [ann]) "a@x.com" "secret" 1700000000123 ⟨[]⟩).storage }).storage =
      ⟨[]⟩ := by
  refine ⟨fun _ _ _ _ _ _ => rfl, fun _ => rfl, fun _ _ => rfl, rfl, ?_, ?_, ?_, ?_, ?_⟩
  · decide
  · decide
  · rfl
  · decide
  · decide

/-! ## Writes of the admin console -/

theorem sessionCheckFails_of_invalid {storage : Storage} {now : Int}
    (h : SessionInvalid storage now) : sessionCheckFails storage now = true :=
  check_of_sessionInvalid storage now h

theorem guard_of_invalid (notice : Option String) {storage : Storage} {now : Int}
    (h : SessionInvalid storage now) :
    (verifyToken notice storage now).result = false := by
  rw [verifyToken_of_check notice storage now (check_of_sessionInvalid storage now h)]

/-- C15: every handler of the admin console that writes to the data store
(add admin, add media, change role, delete user, edit user, delete media, edit
media, approve or decline a request, delete review) sends no request at all
when the stored token is absent, undecodable or expired at the time the
handler runs, whatever the state of the component. -/
theorem admin_writes_need_valid_session (storage : Storage) (now : Int)
    (h : SessionInvalid storage now) :
    (∀ hashSync toLowerCase createdAt formData responseOk,
      (AddAdmin.handleSubmit hashSync toLowerCase createdAt formData responseOk
        storage now).requests = []) ∧
    (∀ createdAt formData responseOk,
      (AddMovieTvShow.handleSubmit createdAt formData responseOk storage now).requests = []) ∧
    (∀ userToChange, (ChangeUserRole.confirmChangeRole userToChange storage now).requests = []) ∧
    (∀ userToDelete, (DeleteUsers.confirmDelete userToDelete storage now).requests = []) ∧
    (∀ editingUser, (EditUsers.handleSave editingUser storage now).requests = []) ∧
    (∀ selectedItem,
      (DeleteMoviesTvShows.handleConfirmDelete selectedItem storage now).requests = []) ∧
    (∀ editingItem, (EditMoviesTvShows.handleUpdate editingItem storage now).requests = []) ∧
    (∀ mediaId newStatus requestedMediaList createdAt patchOk,
      (RequestedMedia.handleStatusChange mediaId newStatus requestedMediaList createdAt patchOk
        storage now).requests = []) ∧
    (∀ reviewId, (ReviewModeration.handleDeleteReview reviewId storage now).requests = []) := by
  have hc := sessionCheckFails_of_invalid h
  have hg := fun notice => guard_of_invalid notice h
  refine ⟨?_, ?_, ?_, ?_, ?_, ?_, ?_, ?_, ?_⟩
  · intro hashSync toLowerCase createdAt formData responseOk
    unfold AddAdmin.handleSubmit
    split
    · rfl
    · rfl
  · intro createdAt formData responseOk
    unfold AddMovieTvShow.handleSubmit
    rw [if_pos hc]; rfl
  · intro u
    simp only [ChangeUserRole.confirmChangeRole, hg, Bool.not_false, if_true, guardFailed]
  · intro u
    simp only [DeleteUsers.confirmDelete, hg, Bool.not_false, if_true, guardFailed]
  · intro u
    simp only [EditUsers.handleSave, hg, Bool.not_false, if_true, guardFailed]
  · intro u
    simp only [DeleteMoviesTvShows.handleConfirmDelete, hg, Bool.not_false, if_true, guardFailed]
  · intro u
    simp only [EditMoviesTvShows.handleUpdate, hg, Bool.not_false, if_true, guardFailed]
  · intro mediaId newStatus requestedMediaList createdAt patchOk
    unfold RequestedMedia.handleStatusChange
    rw [if_pos hc]; rfl
  · intro u
    simp only [ReviewModeration.handleDeleteReview, hg, Bool.not_false, if_true, guardFailed]

/-- Witness for C15: with a token that expired one millisecond ago the
role-change handler sends nothing; with a token that is still valid the same
call sends its PATCH. -/
theorem admin_writes_need_valid_session_witness :
    SessionInvalid ⟨[("jwtToken", "h.eyJleHAiOjF9.s"), ("loggedInUser", "ann")]⟩ 1001 ∧
    (ChangeUserRole.confirmChangeRole (.object [("id", .string "7"), ("isAdmin", .bool false)])
      ⟨[("jwtToken", "h.eyJleHAiOjF9.s"), ("loggedInUser", "ann")]⟩ 1001).requests = [] ∧
    (ChangeUserRole.confirmChangeRole (.object [("id", .string "7"), ("isAdmin", .bool false)])
      ⟨[("jwtToken", "h.eyJleHAiOjF9.s"), ("loggedInUser", "ann")]⟩ 999).requests.length = 1 :=
  have h : SessionInvalid ⟨[("jwtToken", "h.eyJleHAiOjF9.s"), ("loggedInUser", "ann")]⟩ 1001 :=
    Or.inr (Or.inr ⟨.object [("exp", .number ⟨1, 0⟩)], ⟨1, 0⟩, 1, rfl, rfl, by decide,
      by decide⟩)
  ⟨h, (admin_writes_need_valid_session _ 1001 h).2.2.1 _, by decide⟩

/-! ## Writes of the end-user application and reads of the admin views -/

/-- C16 fails on the code: several handlers of the end-user application write
to the data store without asking for the token. `handleWithdraw` sends its
`DELETE` for every storage state. With no `jwtToken` entry at all (only a
`loggedInUser` entry is left), `handleSubmitReply` sends its `PATCH`,
`handleToggleWatchlist` its `POST` and `addToWatchHistory` its `POST`, while
the sibling handler `removeFromHistory` of the same application, which asks
`verifyToken` first, sends nothing in that state. -/
theorem user_writes_sent_without_token :
    (∀ mediaId storage,
      (UserRequestedMedia.handleWithdraw mediaId storage).requests.map
        (fun r => (r.method, r.collection)) = [(Method.DELETE, "user_requested_media")]) ∧
    SessionInvalid ⟨[("loggedInUser", "\x7b\"id\":\"3\",\"user_name\":\"zoe\"\x7d")]⟩ 1000 ∧
    (Comments.handleSubmitReply "I agree"
        [.object [("id", .string "c1"), ("text", .string "Great"), ("replies", .array [])]]
        (.object [("id", .string "3"), ("user_name", .string "zoe")])
        (some (.string "m1")) (some (.string "c1")) "1/1/2024" false
        ⟨[("loggedInUser", "\x7b\"id\":\"3\",\"user_name\":\"zoe\"\x7d")]⟩ 1000).map
      (fun res => res.requests.map (fun r => (r.method, r.collection, r.isWrite))) =
      .ok [(Method.PATCH, "user_ratings", true)] ∧
    (MovieDetails.handleToggleWatchlist (.object [("id", .string "m1"), ("Title", .string "Up")])
        "2024-01-01T00:00:00.000Z" (.ok [])
        ⟨[("loggedInUser", "\x7b\"id\":\"3\",\"user_name\":\"zoe\"\x7d")]⟩).requests.map
      (fun r => (r.method, r.collection, r.isWrite)) =
      [(Method.GET, "watch_list", false), (Method.POST, "watch_list", true)] ∧
    (MovieDetails.addToWatchHistory (.object [("id", .string "m1"), ("Title", .string "Up")])
        "Jan 1" (.ok [])
        ⟨[("loggedInUser", "\x7b\"id\":\"3\",\"user_name\":\"zoe\"\x7d")]⟩).requests.map
      (fun r => (r.method, r.collection, r.isWrite)) =
      [(Method.GET, "watch_history", false), (Method.POST, "watch_history", true)] ∧
    (WatchHistory.removeFromHistory (some (.string "h1")) true
        ⟨[("loggedInUser", "\x7b\"id\":\"3\",\"user_name\":\"zoe\"\x7d")]⟩ 1000).requests.map
      (fun r => (r.method, r.collection, r.isWrite)) = [] :=
  ⟨fun _ _ => rfl, trivial, rfl, by decide, by decide, by decide⟩

/-- C17 fails on the code: the second mount effect of the admin Dashboard and
of ViewUsers, which the source introduces as fetching only if the token is
valid, has no condition. For every storage state and time the Dashboard
issues its four reads and ViewUsers its read of `users`. With a token that
expired and a stored administrator, the application loaded from that storage
admits `/dashboard` and `/user-management/view`, so both views mount: they
evict the session, navigate to the login page, and still issue the reads. -/
theorem admin_views_fetch_without_valid_token :
    (∀ storage now, (Dashboard.onMount storage now).requests =
      [fetchCollection "movies", fetchCollection "tv_shows", fetchCollection "user_ratings",
       fetchCollection "watch_history"]) ∧
    (∀ storage now, (ViewUsers.onMount storage now).requests = [fetchCollection "users"]) ∧
    SessionInvalid
      ⟨[("jwtToken", "h.eyJleHAiOjF9.s"), ("loggedInUser", "\x7b\"id\":\"1\",\"isAdmin\":true\x7d")]⟩
      1001 ∧
    (App.load
      ⟨[("jwtToken", "h.eyJleHAiOjF9.s"),
        ("loggedInUser", "\x7b\"id\":\"1\",\"isAdmin\":true\x7d")]⟩).map
      (fun app => (App.route app "/dashboard", App.route app "/user-management/view")) =
      .ok (.page "/dashboard", .page "/user-management/view") ∧
    (Dashboard.onMount
      ⟨[("jwtToken", "h.eyJleHAiOjF9.s"), ("loggedInUser", "\x7b\"id\":\"1\",\"isAdmin\":true\x7d")]⟩
      1001).storage = ⟨[]⟩ ∧
    (Dashboard.onMount
      ⟨[("jwtToken", "h.eyJleHAiOjF9.s"), ("loggedInUser", "\x7b\"id\":\"1\",\"isAdmin\":true\x7d")]⟩
      1001).navigate = some "/login" ∧
    (Dashboard.onMount
      ⟨[("jwtToken", "h.eyJleHAiOjF9.s"), ("loggedInUser", "\x7b\"id\":\"1\",\"isAdmin\":true\x7d")]⟩
      1001).requests.map (fun r => (r.method, r.collection)) =
      [(Method.GET, "movies"), (Method.GET, "tv_shows"), (Method.GET, "user_ratings"),
       (Method.GET, "watch_history")] ∧
    (ViewUsers.onMount
      ⟨[("jwtToken", "h.eyJleHAiOjF9.s"), ("loggedInUser", "\x7b\"id\":\"1\",\"isAdmin\":true\x7d")]⟩
      1001).requests.map (fun r => (r.method, r.collection)) = [(Method.GET, "users")] := by
  refine ⟨?_, ?_, ?_, rfl, by decide, by decide, by decide, by decide⟩
  · intro storage now
    unfold Dashboard.onMount
    cases sessionCheckFails storage now <;> rfl
  · intro storage now
    unfold ViewUsers.onMount
    cases sessionCheckFails storage now <;> rfl
  · exact Or.inr (Or.inr ⟨.object [("exp", .number ⟨1, 0⟩)], ⟨1, 0⟩, 1, rfl, rfl, by decide,
      by decide⟩)

/-! ## The login handlers on a host that may throw -/

theorem findWhere_some (callback : JSValue → Except JSError Bool) (users : List JSValue)
    (u : JSValue) (h : findWhere callback users = .ok (some u)) :
    u ∈ users ∧ callback u = .ok true := by
  induction users with
  | nil => cases h
  | cons user rest ih =>
    unfold findWhere at h
    cases hc : callback user with
    | error err => rw [hc] at h; cases h
    | ok b =>
      rw [hc] at h
      cases b with
      | true =>
        dsimp only at h
        injection h with h
        injection h with h
        subst h
        exact ⟨List.mem_cons_self _ _, hc⟩
      | false =>
        dsimp only at h
        exact ⟨List.mem_cons_of_mem _ (ih h).1, (ih h).2⟩

theorem truthy_of_get_some (u : JSValue) (k : String) (v : JSValue)
    (h : u.get k = .ok (some v)) : truthy (some u) = true := by
  cases u with
  | object fields => rfl
  | null => cases h
  | bool b => cases h
  | number d => cases h
  | string s => cases h
  | array items => cases h

theorem truthy_of_login_isMatch (email : String) (u : JSValue)
    (h : Login.isMatch email u = .ok true) : truthy (some u) = true := by
  unfold Login.isMatch at h
  cases hg : u.get "email" with
  | error err => rw [hg] at h; cases h
  | ok value =>
    rw [hg] at h
    injection h with h
    cases value with
    | none => cases h
    | some v => exact truthy_of_get_some u "email" v hg

theorem truthy_of_adminLogin_isMatch (email : String) (u : JSValue)
    (h : AdminLogin.isMatch email u = .ok true) : truthy (some u) = true := by
  unfold AdminLogin.isMatch at h
  cases hg : u.get "email" with
  | error err => rw [hg] at h; cases h
  | ok value =>
    rw [hg] at h
    injection h with h
    cases value with
    | none => cases h
    | some v => exact truthy_of_get_some u "email" v hg

theorem problem_toast (storage : Storage) : (LoginResult.problem storage).toast = loginProblem :=
  rfl

theorem invalid_toast (storage : Storage) :
    (LoginResult.invalid storage).toast = invalidCredentials :=
  rfl

theorem success_ne_invalidCredentials (message : String) :
    (⟨.success, message⟩ : Toast) ≠ invalidCredentials := by
  intro h
  cases h

theorem success_ne_loginProblem (message : String) :
    (⟨.success, message⟩ : Toast) ≠ loginProblem := by
  intro h
  cases h

theorem loginOnHost_of_lookup_fails (host : Host) (callback : JSValue → Except JSError Bool)
    (target : String) (response : StoreResponse) (password : String) (now : Int)
    (storage : Storage) (h : LookupFails response) :
    loginOnHost host callback target response password now storage = .problem storage := by
  rcases h with h | ⟨status, h⟩ <;> subst h <;> rfl

theorem loginOnHost_of_not_array (host : Host) (callback : JSValue → Except JSError Bool)
    (target : String) (body : JSValue) (password : String) (now : Int) (storage : Storage)
    (h : ∀ users, body ≠ .array users) :
    loginOnHost host callback target (.ok body) password now storage = .problem storage := by
  cases body with
  | array users => exact absurd rfl (h users)
  | null => rfl
  | bool b => rfl
  | number d => rfl
  | string s => rfl
  | object fields => rfl

theorem loginOnHost_of_search_throws (host : Host) (callback : JSValue → Except JSError Bool)
    (target : String) (users : List JSValue) (password : String) (now : Int)
    (storage : Storage) (err : JSError) (h : findWhere callback users = .error err) :
    loginOnHost host callback target (.ok (.array users)) password now storage =
      .problem storage := by
  simp only [loginOnHost, h]

theorem loginOnHost_of_none (host : Host) (callback : JSValue → Except JSError Bool)
    (target : String) (users : List JSValue) (password : String) (now : Int)
    (storage : Storage) (h : findWhere callback users = .ok none) :
    loginOnHost host callback target (.ok (.array users)) password now storage =
      .invalid storage := by
  simp only [loginOnHost, h]

theorem loginOnHost_of_found (host : Host) (callback : JSValue → Except JSError Bool)
    (target : String) (users : List JSValue) (password : String) (now : Int)
    (storage : Storage) (u : JSValue) (h : findWhere callback users = .ok (some u))
    (ht : truthy (some u) = true) :
    loginOnHost host callback target (.ok (.array users)) password now storage =
      match host.compare password (u.prop "password") with
      | .error _ => .problem storage
      | .ok false => .invalid storage
      | .ok true =>
        match host.signJWT (u.prop "name") now with
        | none => .problem storage
        | some token =>
          match host.setItem storage "loggedInUser" (JSON.stringify u) with
          | none => .problem storage
          | some stored =>
            match host.setItem stored "jwtToken" token with
            | none => .problem stored
            | some final =>
              match u.prop "name" with
              | some (.string name) =>
                { storage := final
                  toast := ⟨.success, "Welcome back, " ++ firstName name ++ "!"⟩
                  navigate := some target }
              | _ => .problem final := by
  simp only [loginOnHost, h, ht, Bool.not_true, Bool.false_eq_true, if_false]

theorem loginOnHost_of_persist_throws (host : Host) (callback : JSValue → Except JSError Bool)
    (target : String) (users : List JSValue) (password : String) (now : Int)
    (storage : Storage) (u : JSValue) (h : findWhere callback users = .ok (some u))
    (ht : truthy (some u) = true) (hc : host.compare password (u.prop "password") = .ok true)
    (hp : PersistThrows host u now storage) :
    (loginOnHost host callback target (.ok (.array users)) password now storage).toast =
      loginProblem := by
  rw [loginOnHost_of_found host callback target users password now storage u h ht, hc]
  rcases hp with hs | ⟨token, hs, h1 | ⟨stored, h1, h2 | ⟨final, h2, hn⟩⟩⟩
  · simp only [hs]
    rfl
  · simp only [hs, h1]
    rfl
  · simp only [hs, h1, h2]
    rfl
  · simp only [hs, h1, h2]
    cases hname : u.prop "name" with
    | none => rfl
    | some v =>
      cases v with
      | string name => exact absurd hname (hn name)
      | null => rfl
      | bool b => rfl
      | number d => rfl
      | array items => rfl
      | object fields => rfl

theorem loginOnHost_of_persisted (host : Host) (callback : JSValue → Except JSError Bool)
    (target : String) (users : List JSValue) (password : String) (now : Int)
    (storage : Storage) (u : JSValue) (token : String) (stored final : Storage) (name : String)
    (h : findWhere callback users = .ok (some u)) (ht : truthy (some u) = true)
    (hc : host.compare password (u.prop "password") = .ok true)
    (hs : host.signJWT (u.prop "name") now = some token)
    (h1 : host.setItem storage "loggedInUser" (JSON.stringify u) = some stored)
    (h2 : host.setItem stored "jwtToken" token = some final)
    (hn : u.prop "name" = some (.string name)) :
    loginOnHost host callback target (.ok (.array users)) password now storage =
      { storage := final
        toast := ⟨.success, "Welcome back, " ++ firstName name ++ "!"⟩
        navigate := some target } := by
  rw [loginOnHost_of_found host callback target users password now storage u h ht, hc]
  simp only [hs, h1, h2]
  rw [hn]

theorem persistThrows_or_persisted (host : Host) (u : JSValue) (now : Int) (storage : Storage) :
    PersistThrows host u now storage ∨
      ∃ token stored final name, host.signJWT (u.prop "name") now = some token ∧
        host.setItem storage "loggedInUser" (JSON.stringify u) = some stored ∧
        host.setItem stored "jwtToken" token = some final ∧
        u.prop "name" = some (.string name) := by
  unfold PersistThrows
  cases hs : host.signJWT (u.prop "name") now with
  | none => exact Or.inl (Or.inl rfl)
  | some token =>
    cases h1 : host.setItem storage "loggedInUser" (JSON.stringify u) with
    | none => exact Or.inl (Or.inr ⟨token, rfl, Or.inl rfl⟩)
    | some stored =>
      cases h2 : host.setItem stored "jwtToken" token with
      | none => exact Or.inl (Or.inr ⟨token, rfl, Or.inr ⟨stored, rfl, Or.inl h2⟩⟩)
      | some final =>
        by_cases hn : ∃ name, u.prop "name" = some (.string name)
        · obtain ⟨name, hn⟩ := hn
          exact Or.inr ⟨token, stored, final, name, rfl, rfl, h2, hn⟩
        · exact Or.inl (Or.inr ⟨token, rfl, Or.inr ⟨stored, rfl,
            Or.inr ⟨final, h2, fun name h => hn ⟨name, h⟩⟩⟩⟩)

theorem loginOnHost_notices (host : Host) (callback : JSValue → Except JSError Bool)
    (target : String) (response : StoreResponse) (password : String) (now : Int)
    (storage : Storage)
    (hobj : ∀ u, callback u = .ok true → truthy (some u) = true) :
    ((loginOnHost host callback target response password now storage).toast =
        invalidCredentials ↔
      ∃ users found, response = .ok (.array users) ∧ findWhere callback users = .ok found ∧
        (found = none ∨
          ∃ u, found = some u ∧ host.compare password (u.prop "password") = .ok false)) ∧
    ((loginOnHost host callback target response password now storage).toast = loginProblem ↔
      LookupFails response ∨
      (∃ body, response = .ok body ∧ ∀ users, body ≠ .array users) ∨
      ∃ users, response = .ok (.array users) ∧
        ((∃ err, findWhere callback users = .error err) ∨
          ∃ u, findWhere callback users = .ok (some u) ∧
            ((∃ err, host.compare password (u.prop "password") = .error err) ∨
              (host.compare password (u.prop "password") = .ok true ∧
                PersistThrows host u now storage)))) := by
  have hne := invalidCredentials_ne_loginProblem
  -- the three outcomes and the conditions under which each occurs
  have hinv : (∃ users found, response = .ok (.array users) ∧
      findWhere callback users = .ok found ∧
        (found = none ∨
          ∃ u, found = some u ∧ host.compare password (u.prop "password") = .ok false)) →
      (loginOnHost host callback target response password now storage).toast =
        invalidCredentials := by
    rintro ⟨users, found, hr, hf, hcase⟩
    subst hr
    rcases hcase with hnone | ⟨u, hu, hc⟩
    · subst hnone
      rw [loginOnHost_of_none host callback target users password now storage hf]
      rfl
    · subst hu
      rw [loginOnHost_of_found host callback target users password now storage u hf
        (hobj u (findWhere_some callback users u hf).2), hc]
      rfl
  have hprob : (LookupFails response ∨
      (∃ body, response = .ok body ∧ ∀ users, body ≠ .array users) ∨
      ∃ users, response = .ok (.array users) ∧
        ((∃ err, findWhere callback users = .error err) ∨
          ∃ u, findWhere callback users = .ok (some u) ∧
            ((∃ err, host.compare password (u.prop "password") = .error err) ∨
              (host.compare password (u.prop "password") = .ok true ∧
                PersistThrows host u now storage)))) →
      (loginOnHost host callback target response password now storage).toast =
        loginProblem := by
    rintro (hl | ⟨body, hr, hb⟩ | ⟨users, hr, ⟨err, hf⟩ | ⟨u, hf, ⟨err, hc⟩ | ⟨hc, hp⟩⟩⟩)
    · rw [loginOnHost_of_lookup_fails host callback target response password now storage hl]
      rfl
    · subst hr
      rw [loginOnHost_of_not_array host callback target body password now storage hb]
      rfl
    · subst hr
      rw [loginOnHost_of_search_throws host callback target users password now storage err hf]
      rfl
    · subst hr
      rw [loginOnHost_of_found host callback target users password now storage u hf
        (hobj u (findWhere_some callback users u hf).2), hc]
      rfl
    · subst hr
      exact loginOnHost_of_persist_throws host callback target users password now storage u hf
        (hobj u (findWhere_some callback users u hf).2) hc hp
  have hsucc : (∃ users u token stored final name, response = .ok (.array users) ∧
      findWhere callback users = .ok (some u) ∧
      host.compare password (u.prop "password") = .ok true ∧
      host.signJWT (u.prop "name") now = some token ∧
      host.setItem storage "loggedInUser" (JSON.stringify u) = some stored ∧
      host.setItem stored "jwtToken" token = some final ∧
      u.prop "name" = some (.string name)) →
      ∃ message, (loginOnHost host callback target response password now storage).toast =
        ⟨.success, message⟩ := by
    rintro ⟨users, u, token, stored, final, name, hr, hf, hc, hs, h1, h2, hn⟩
    subst hr
    rw [loginOnHost_of_persisted host callback target users password now storage u token stored
      final name hf (hobj u (findWhere_some callback users u hf).2) hc hs h1 h2 hn]
    exact ⟨_, rfl⟩
  -- one of the three conditions always holds
  have htotal : (∃ users found, response = .ok (.array users) ∧
      findWhere callback users = .ok found ∧
        (found = none ∨
          ∃ u, found = some u ∧ host.compare password (u.prop "password") = .ok false)) ∨
      (LookupFails response ∨
      (∃ body, response = .ok body ∧ ∀ users, body ≠ .array users) ∨
      ∃ users, response = .ok (.array users) ∧
        ((∃ err, findWhere callback users = .error err) ∨
          ∃ u, findWhere callback users = .ok (some u) ∧
            ((∃ err, host.compare password (u.prop "password") = .error err) ∨
              (host.compare password (u.prop "password") = .ok true ∧
                PersistThrows host u now storage)))) ∨
      (∃ users u token stored final name, response = .ok (.array users) ∧
      findWhere callback users = .ok (some u) ∧
      host.compare password (u.prop "password") = .ok true ∧
      host.signJWT (u.prop "name") now = some token ∧
      host.setItem storage "loggedInUser" (JSON.stringify u) = some stored ∧
      host.setItem stored "jwtToken" token = some final ∧
      u.prop "name" = some (.string name)) := by
    cases response with
    | failed => exact Or.inr (Or.inl (Or.inl (Or.inl rfl)))
    | notOk status => exact Or.inr (Or.inl (Or.inl (Or.inr ⟨status, rfl⟩)))
    | ok body =>
      by_cases hb : ∃ users, body = .array users
      · obtain ⟨users, hb⟩ := hb
        subst hb
        cases hf : findWhere callback users with
        | error err => exact Or.inr (Or.inl (Or.inr (Or.inr ⟨users, rfl, Or.inl ⟨err, hf⟩⟩)))
        | ok found =>
          cases found with
          | none => exact Or.inl ⟨users, none, rfl, hf, Or.inl rfl⟩
          | some u =>
            cases hc : host.compare password (u.prop "password") with
            | error err =>
              exact Or.inr (Or.inl (Or.inr (Or.inr ⟨users, rfl,
                Or.inr ⟨u, hf, Or.inl ⟨err, hc⟩⟩⟩)))
            | ok b =>
              cases b with
              | false => exact Or.inl ⟨users, some u, rfl, hf, Or.inr ⟨u, rfl, hc⟩⟩
              | true =>
                rcases persistThrows_or_persisted host u now storage with hp |
                  ⟨token, stored, final, name, hs, h1, h2, hn⟩
                · exact Or.inr (Or.inl (Or.inr (Or.inr ⟨users, rfl,
                    Or.inr ⟨u, hf, Or.inr ⟨hc, hp⟩⟩⟩)))
                · exact Or.inr (Or.inr ⟨users, u, token, stored, final, name, rfl, hf, hc, hs,
                    h1, h2, hn⟩)
      · exact Or.inr (Or.inl (Or.inr (Or.inl ⟨body, rfl, fun users h => hb ⟨users, h⟩⟩)))
  constructor
  · constructor
    · intro h
      rcases htotal with h1 | h2 | h3
      · exact h1
      · rw [hprob h2] at h
        exact absurd h.symm hne
      · obtain ⟨message, hm⟩ := hsucc h3
        rw [hm] at h
        exact absurd h (success_ne_invalidCredentials message)
    · exact hinv
  · constructor
    · intro h
      rcases htotal with h1 | h2 | h3
      · rw [hinv h1] at h
        exact absurd h hne
      · exact h2
      · obtain ⟨message, hm⟩ := hsucc h3
        rw [hm] at h
        exact absurd h (success_ne_loginProblem message)
    · exact hprob

/-! ## The profile editors -/

theorem verifyToken_result (notice : Option String) (storage : Storage) (now : Int) :
    (verifyToken notice storage now).result = !sessionCheckFails storage now := by
  cases h : sessionCheckFails storage now
  · have h2 : (falsy (storage.getItem "jwtToken") ||
        isTokenExpired (storage.getItem "jwtToken") now) = false := h
    simp only [verifyToken, h2, Bool.false_eq_true, if_false, Bool.not_false]
  · rw [verifyToken_of_check notice storage now h]
    rfl

theorem verifyToken_storage_of_fails (notice : Option String) (storage : Storage) (now : Int)
    (h : sessionCheckFails storage now = true) :
    (verifyToken notice storage now).storage = evict storage := by
  rw [verifyToken_of_check notice storage now h]
  rfl

theorem saved_userEntryOnly (storage : Storage) (request : Request) (response : StoreResponse)
    (target : String) :
    UserEntryOnly response storage (saved storage request response target).storage := by
  cases response with
  | failed => exact Or.inr (Or.inl rfl)
  | notOk status => exact Or.inr (Or.inl rfl)
  | ok body => exact Or.inr (Or.inr ⟨body, rfl, rfl⟩)

theorem patchStoredUser_userEntryOnly (body : JSValue) (response : StoreResponse)
    (storage : Storage) (now : Int) (res : HandlerResult)
    (h : patchStoredUser body response storage now = .ok res) :
    UserEntryOnly response storage res.storage := by
  unfold patchStoredUser at h
  split at h
  · cases h; exact Or.inl rfl
  · split at h
    · cases h; exact Or.inr (Or.inl rfl)
    · split at h
      · cases h; exact Or.inr (Or.inl rfl)
      · split at h
        · cases h
        · split at h
          · cases h; exact Or.inr (Or.inl rfl)
          · cases h; exact saved_userEntryOnly _ _ _ _

theorem patchStoredUser_of_valid (body : JSValue) (response : StoreResponse)
    (storage : Storage) (now : Int) (s : String) (id : Option JSValue)
    (hcheck : sessionCheckFails storage now = false)
    (hget : storage.getItem "loggedInUser" = some s) (hs : s ≠ "")
    (hid : storedUserId s = .ok id) (ht : truthy id = true) :
    patchStoredUser body response storage now =
      .ok (saved storage (patchUser id body) response "/login-security") := by
  unfold patchStoredUser
  simp only [hcheck, hget, hs, hid, ht, if_false, Bool.not_true, Bool.false_eq_true]

theorem loginOnHost_of_success (host : Host) (callback : JSValue → Except JSError Bool)
    (target : String) (response : StoreResponse) (password : String) (now : Int)
    (storage : Storage)
    (h : (loginOnHost host callback target response password now storage).toast.kind =
      .success) :
    ∃ users u token stored, response = .ok (.array users) ∧
      findWhere callback users = .ok (some u) ∧
      host.signJWT (u.prop "name") now = some token ∧
      host.setItem storage "loggedInUser" (JSON.stringify u) = some stored ∧
      host.setItem stored "jwtToken" token =
        some (loginOnHost host callback target response password now storage).storage := by
  cases response with
  | failed => cases h
  | notOk status => cases h
  | ok body =>
    cases body with
    | null => cases h
    | bool b => cases h
    | number d => cases h
    | string s => cases h
    | object fields => cases h
    | array users =>
      cases hf : findWhere callback users with
      | error err =>
        rw [loginOnHost_of_search_throws host callback target users password now storage err hf]
          at h
        cases h
      | ok found =>
        cases found with
        | none =>
          rw [loginOnHost_of_none host callback target users password now storage hf] at h
          cases h
        | some u =>
          cases ht : truthy (some u) with
          | false =>
            simp only [loginOnHost, hf, ht, Bool.not_false, if_true] at h
            cases h
          | true =>
            rw [loginOnHost_of_found host callback target users password now storage u hf ht]
              at h ⊢
            cases hc : host.compare password (u.prop "password") with
            | error err => rw [hc] at h; cases h
            | ok b =>
              cases b with
              | false => rw [hc] at h; cases h
              | true =>
                rcases persistThrows_or_persisted host u now storage with
                  hp | ⟨token, stored, final, name, hs, h1, h2, hn⟩
                · have hprob := loginOnHost_of_persist_throws host callback target users
                    password now storage u hf ht hc hp
                  rw [loginOnHost_of_found host callback target users password now storage u
                    hf ht] at hprob
                  rw [hprob] at h
                  cases h
                · refine ⟨users, u, token, stored, rfl, hf, hs, h1, ?_⟩
                  simp only [hs, h1, h2]
                  rw [hn]

theorem patchStoredUser_of_fails (body : JSValue) (response : StoreResponse)
    (storage : Storage) (now : Int) (h : sessionCheckFails storage now = true) :
    patchStoredUser body response storage now = .ok (evicted storage) := by
  unfold patchStoredUser
  rw [if_pos h]

/-- C18 fails as stated: with a valid token, `ChangeEmail.handleSaveChanges`
writes the `loggedInUser` entry after its `PATCH` succeeded and does not write
the `jwtToken` entry, which keeps its value next to the new record. -/
theorem changeEmail_writes_user_entry_alone :
    (ChangeEmail.handleSaveChanges "new@x.com"
        (.ok (.object [("id", .string "3"), ("email", .string "new@x.com")]))
        exampleSession 1700000000000).map (fun res => res.storage) =
      .ok ⟨[("loggedInUser", "\x7b\"id\":\"3\",\"email\":\"new@x.com\"\x7d"),
        ("jwtToken", "eyJhbGciOiJIUzI1NiJ9.eyJuYW1lIjoiQW5uIiwiZXhwIjoxNzAwMDAzNjAwfQ.AAAA")]⟩ ∧
    exampleSession.getItem "loggedInUser" ≠
      some "\x7b\"id\":\"3\",\"email\":\"new@x.com\"\x7d" :=
  ⟨rfl, by decide⟩

/-- C18, amended: the entries of the session are written together by the
logins only. A successful login of either application writes `loggedInUser`
and then `jwtToken`, also on a host whose calls may throw. Each profile
editor (`ChangeEmail`, `ChangeName`, `ChangePassword`, `EditProfile`,
`PersonalInfo`) leaves the storage in one of three states: evicted by its
token check, untouched, or with the body of the `ok` response written to
`loggedInUser` alone; so unless it evicts, the `jwtToken` entry keeps its
value. Each of the five evicts, removing both entries, when its token check
fails; and each of them, with a valid token, its own checks passed and an
`ok` response to its `PATCH`, writes the body of that response to
`loggedInUser`. -/
theorem session_entries_written_together_by_login_only (env : Env) (response : StoreResponse)
    (storage : Storage) (now : Int) :
    (∀ users email password u, users.find? (fun user => user.email == email) = some u →
      env.compareSync password u.password = true →
      (Login.handleLogin env (.ok users) email password now storage).storage =
        (storage.setItem "loggedInUser" (env.stringify u)).setItem "jwtToken"
          (env.signJWT u.name now)) ∧
    (∀ users email password u,
      users.find? (fun user => user.email == email && user.isAdmin == true) = some u →
      env.compareSync password u.password = true →
      (AdminLogin.handleLogin env (.ok users) email password now storage).storage =
        (storage.setItem "loggedInUser" (env.stringify u)).setItem "jwtToken"
          (env.signJWT u.name now)) ∧
    (∀ newEmail res, ChangeEmail.handleSaveChanges newEmail response storage now = .ok res →
      UserEntryOnly response storage res.storage) ∧
    (∀ newName res, ChangeName.handleSaveChanges newName response storage now = .ok res →
      UserEntryOnly response storage res.storage) ∧
    (∀ hashSync user currentPasswordInput newPassword retypeNewPassword res,
      ChangePassword.handleSaveChanges env hashSync user currentPasswordInput newPassword
        retypeNewPassword response storage now = .ok res →
      UserEntryOnly response storage res.storage) ∧
    (∀ user username bio profileImage,
      UserEntryOnly response storage
        (EditProfile.handleSave user username bio profileImage response storage now).storage) ∧
    (∀ user gender dob country,
      UserEntryOnly response storage
        (PersonalInfo.handleSaveChanges user gender dob country response storage now).storage) ∧
    (∀ after, UserEntryOnly response storage after →
      after = evict storage ∨ after.getItem "jwtToken" = storage.getItem "jwtToken") ∧
    (∀ newEmail s id body, sessionCheckFails storage now = false →
      storage.getItem "loggedInUser" = some s → s ≠ "" → storedUserId s = .ok id →
      truthy id = true → response = .ok body →
      (ChangeEmail.handleSaveChanges newEmail response storage now).map (fun res => res.storage) =
        .ok (storage.setItem "loggedInUser" (JSON.stringify body))) ∧
    (∀ (host : Host) (users : StoreResponse) (email password : String),
      (Login.handleLogin.onHost host users email password now storage).toast.kind = .success →
      ∃ list u token stored, users = .ok (.array list) ∧
        findWhere (Login.isMatch email) list = .ok (some u) ∧
        host.signJWT (u.prop "name") now = some token ∧
        host.setItem storage "loggedInUser" (JSON.stringify u) = some stored ∧
        host.setItem stored "jwtToken" token =
          some (Login.handleLogin.onHost host users email password now storage).storage) ∧
    (∀ (host : Host) (users : StoreResponse) (email password : String),
      (AdminLogin.handleLogin.onHost host users email password now storage).toast.kind =
        .success →
      ∃ list u token stored, users = .ok (.array list) ∧
        findWhere (AdminLogin.isMatch email) list = .ok (some u) ∧
        host.signJWT (u.prop "name") now = some token ∧
        host.setItem storage "loggedInUser" (JSON.stringify u) = some stored ∧
        host.setItem stored "jwtToken" token =
          some (AdminLogin.handleLogin.onHost host users email password now storage).storage) ∧
    (sessionCheckFails storage now = true →
      (∀ newEmail,
        ChangeEmail.handleSaveChanges newEmail response storage now = .ok (evicted storage)) ∧
      (∀ newName,
        ChangeName.handleSaveChanges newName response storage now = .ok (evicted storage)) ∧
      (∀ hashSync user currentPasswordInput newPassword retypeNewPassword,
        ChangePassword.handleSaveChanges env hashSync user currentPasswordInput newPassword
          retypeNewPassword response storage now = .ok (evicted storage)) ∧
      (∀ user username bio profileImage,
        (EditProfile.handleSave user username bio profileImage response storage now).storage =
          evict storage) ∧
      (∀ user gender dob country,
        PersonalInfo.handleSaveChanges user gender dob country response storage now =
          evicted storage) ∧
      (evict storage).getItem "jwtToken" = none ∧
      (evict storage).getItem "loggedInUser" = none) ∧
    (∀ body, sessionCheckFails storage now = false → response = .ok body →
      (∀ newName s id, storage.getItem "loggedInUser" = some s → s ≠ "" →
        storedUserId s = .ok id → truthy id = true →
        (ChangeName.handleSaveChanges newName response storage now).map
            (fun res => res.storage) =
          .ok (storage.setItem "loggedInUser" (JSON.stringify body))) ∧
      (∀ hashSync user currentPasswordInput newPassword, truthy (some user) = true →
        compareSyncValue env currentPasswordInput (user.prop "password") = .ok true →
        (ChangePassword.handleSaveChanges env hashSync user currentPasswordInput newPassword
            newPassword response storage now).map (fun res => res.storage) =
          .ok (storage.setItem "loggedInUser" (JSON.stringify body))) ∧
      (∀ user username bio profileImage id, user.get "id" = .ok id →
        (EditProfile.handleSave user username bio profileImage response storage now).storage =
          storage.setItem "loggedInUser" (JSON.stringify body)) ∧
      (∀ user gender dob country, truthy (some user) = true →
        (PersonalInfo.handleSaveChanges user gender dob country response storage now).storage =
          storage.setItem "loggedInUser" (JSON.stringify body))) := by
  refine ⟨?_, ?_, ?_, ?_, ?_, ?_, ?_, ?_, ?_, ?_, ?_, ?_, ?_⟩
  · intro users email password u hfind hcmp
    rw [login_of_found env users email password now storage u hfind, if_pos hcmp]
    rfl
  · intro users email password u hfind hcmp
    rw [adminLogin_of_found env users email password now storage u hfind, if_pos hcmp]
    rfl
  · intro newEmail res h
    exact patchStoredUser_userEntryOnly _ response storage now res h
  · intro newName res h
    exact patchStoredUser_userEntryOnly _ response storage now res h
  · intro hashSync user cur new retype res h
    unfold ChangePassword.handleSaveChanges at h
    split at h
    · cases h; exact Or.inl rfl
    · split at h
      · cases h; exact Or.inr (Or.inl rfl)
      · split at h
        · cases h
        · cases h; exact Or.inr (Or.inl rfl)
        · split at h
          · cases h; exact Or.inr (Or.inl rfl)
          · cases h; exact saved_userEntryOnly _ _ _ _
  · intro user username bio profileImage
    unfold EditProfile.handleSave
    cases hc : sessionCheckFails storage now
    · simp only [verifyToken_result, hc, Bool.not_false, Bool.not_true, Bool.false_eq_true,
        if_false]
      split
      · exact Or.inr (Or.inl rfl)
      · exact saved_userEntryOnly _ _ _ _
    · simp only [verifyToken_result, hc, Bool.not_true, Bool.not_false, if_true, guardFailed]
      exact Or.inl (verifyToken_storage_of_fails _ storage now hc)
  · intro user gender dob country
    unfold PersonalInfo.handleSaveChanges
    split
    · exact Or.inl rfl
    · split
      · exact Or.inr (Or.inl rfl)
      · exact saved_userEntryOnly _ _ _ _
  · intro after h
    rcases h with h | h | ⟨body, _, h⟩
    · exact Or.inl h
    · exact Or.inr (by rw [h])
    · exact Or.inr (by rw [h, getItem_setItem_ne _ _ _ _ (by decide)])
  · intro newEmail s id body hcheck hget hs hid ht hresp
    unfold ChangeEmail.handleSaveChanges
    rw [patchStoredUser_of_valid _ response storage now s id hcheck hget hs hid ht, hresp]
    rfl
  · intro host users email password h
    exact loginOnHost_of_success host _ "/" users password now storage h
  · intro host users email password h
    exact loginOnHost_of_success host _ "/dashboard" users password now storage h
  · intro hc
    refine ⟨?_, ?_, ?_, ?_, ?_, getItem_evicted_token storage, getItem_evicted_user storage⟩
    · intro newEmail
      exact patchStoredUser_of_fails _ response storage now hc
    · intro newName
      exact patchStoredUser_of_fails _ response storage now hc
    · intro hashSync user cur new retype
      unfold ChangePassword.handleSaveChanges
      rw [if_pos hc]
    · intro user username bio profileImage
      unfold EditProfile.handleSave
      simp only [verifyToken_result, hc, Bool.not_true, Bool.not_false, if_true, guardFailed]
      exact verifyToken_storage_of_fails _ storage now hc
    · intro user gender dob country
      unfold PersonalInfo.handleSaveChanges
      rw [if_pos hc]
  · intro body hc hresp
    subst hresp
    refine ⟨?_, ?_, ?_, ?_⟩
    · intro newName s id hget hs hid ht
      unfold ChangeName.handleSaveChanges
      rw [patchStoredUser_of_valid _ _ storage now s id hc hget hs hid ht]
      rfl
    · intro hashSync user cur new htruthy hcmp
      unfold ChangePassword.handleSaveChanges
      simp only [hc, htruthy, hcmp, Bool.false_eq_true, if_false, Bool.not_true, ne_eq,
        not_true_eq_false]
      rfl
    · intro user username bio profileImage id hid
      unfold EditProfile.handleSave
      simp only [verifyToken_result, hc, Bool.not_false, Bool.not_true, Bool.false_eq_true,
        if_false, hid]
      rfl
    · intro user gender dob country htruthy
      unfold PersonalInfo.handleSaveChanges
      simp only [hc, htruthy, Bool.false_eq_true, if_false, Bool.not_true]
      rfl

/-- Witness for C18: the change of email in the example session, whose token
is valid at the time of the call. -/
theorem session_entries_written_together_by_login_only_witness :
    (ChangeEmail.handleSaveChanges "new@x.com"
        (.ok (.object [("id", .string "3"), ("email", .string "new@x.com")]))
        exampleSession 1700000000000).map (fun res => res.storage) =
      .ok (exampleSession.setItem "loggedInUser"
        (JSON.stringify (.object [("id", .string "3"), ("email", .string "new@x.com")]))) :=
  (session_entries_written_together_by_login_only exampleEnv
    (.ok (.object [("id", .string "3"), ("email", .string "new@x.com")]))
    exampleSession 1700000000000).2.2.2.2.2.2.2.2.1 "new@x.com"
    "\x7b\"id\":\"3\",\"email\":\"old@x.com\"\x7d" (some (.string "3")) _
    (by decide) rfl (by decide) rfl rfl rfl

/-- C19: `ChangePassword.handleSaveChanges` sends a request only if the
session is valid, the loaded user has a stored hash against which the entered
current password verifies, and the new password equals the retyped one; the
request is then the single `PATCH` of the user's record whose body has as its
`password` field the value `bcrypt.hashSync` returned for the new password,
so that the plaintext enters the request only through the hash. In every
other case, an exception of the comparison included, nothing is sent.
Conversely, when the three conditions hold the handler returns and has sent
that `PATCH`. -/
theorem changePassword_sends_only_when_verified (env : Env) (hashSync : String → String)
    (user : JSValue) (currentPasswordInput newPassword retypeNewPassword : String)
    (response : StoreResponse) (storage : Storage) (now : Int) :
    (∀ res, ChangePassword.handleSaveChanges env hashSync user currentPasswordInput newPassword
        retypeNewPassword response storage now = .ok res →
      res.requests = [] ∨
      (¬ SessionInvalid storage now ∧
        (∃ hash, user.prop "password" = some (.string hash) ∧
          env.compareSync currentPasswordInput hash = true) ∧
        newPassword = retypeNewPassword ∧
        res.requests =
          [patchUser (user.prop "id")
            (.object [("password", .string (hashSync newPassword))])])) ∧
    (sessionCheckFails storage now = false →
      ∀ hash, user.prop "password" = some (.string hash) →
        env.compareSync currentPasswordInput hash = true →
        newPassword = retypeNewPassword →
        ∃ res, ChangePassword.handleSaveChanges env hashSync user currentPasswordInput
            newPassword retypeNewPassword response storage now = .ok res ∧
          res.requests =
            [patchUser (user.prop "id")
              (.object [("password", .string (hashSync newPassword))])]) := by
  have hsaved : ∀ (request : Request) (target : String),
      (saved storage request response target).requests = [request] := by
    intro request target
    cases response <;> rfl
  constructor
  · intro res h
    unfold ChangePassword.handleSaveChanges at h
    split at h
    · cases h; exact Or.inl rfl
    · rename_i hcheck
      split at h
      · cases h; exact Or.inl rfl
      · split at h
        · cases h
        · cases h; exact Or.inl rfl
        · rename_i hcmp
          split at h
          · cases h; exact Or.inl rfl
          · rename_i heq
            cases h
            refine Or.inr ⟨?_, ?_, ?_, hsaved _ _⟩
            · intro hinv
              exact hcheck (sessionCheckFails_of_invalid hinv)
            · unfold compareSyncValue at hcmp
              split at hcmp
              · rename_i h' hp
                exact ⟨h', hp, by simpa using hcmp⟩
              · cases hcmp
            · exact not_not.mp heq
  · intro hcheck hash hp hcmp heq
    have hu : truthy (some user) = true := by
      cases user with
      | object fields => rfl
      | null => simp [JSValue.prop, JSValue.get] at hp
      | bool b => simp [JSValue.prop, JSValue.get] at hp
      | number d => simp [JSValue.prop, JSValue.get] at hp
      | string s => simp [JSValue.prop, JSValue.get] at hp
      | array items => simp [JSValue.prop, JSValue.get] at hp
    refine ⟨_, ?_, hsaved _ "/login-security"⟩
    unfold ChangePassword.handleSaveChanges
    simp only [hcheck, hu, hp, compareSyncValue, hcmp, heq, Bool.false_eq_true, if_false,
      Bool.not_true, ne_eq, not_true_eq_false]

/-- Witness for C19: in the example session, the user whose stored hash is
that of `secret` changes the password to `s3cret!`; the handler returns and
its one request carries the hash. -/
theorem changePassword_sends_only_when_verified_witness :
    ∃ res, ChangePassword.handleSaveChanges exampleEnv (fun p => "hash(" ++ p ++ ")")
        (.object [("id", .string "3"), ("password", .string "hash(secret)")])
        "secret" "s3cret!" "s3cret!" .failed exampleSession 1700000000000 = .ok res ∧
      res.requests =
        [patchUser (some (.string "3"))
          (.object [("password", .string "hash(s3cret!)")])] :=
  (changePassword_sends_only_when_verified exampleEnv (fun p => "hash(" ++ p ++ ")")
    (.object [("id", .string "3"), ("password", .string "hash(secret)")])
    "secret" "s3cret!" "s3cret!" .failed exampleSession 1700000000000).2
    (by decide) "hash(secret)" rfl (by decide) rfl

/-! ## Recommendations -/

theorem toDigitsCore_ne_nil (base fuel n : Nat) (ds : List Char) (h : ds ≠ []) :
    Nat.toDigitsCore base fuel n ds ≠ [] := by
  induction fuel generalizing n ds with
  | zero => simpa [Nat.toDigitsCore] using h
  | succ fuel ih =>
    unfold Nat.toDigitsCore
    simp only
    split
    · exact List.cons_ne_nil _ _
    · exact ih _ _ (List.cons_ne_nil _ _)

theorem natRepr_ne_empty (n : Nat) : Nat.repr n ≠ "" := by
  unfold Nat.repr Nat.toDigits
  intro h
  have h2 : Nat.toDigitsCore 10 (n + 1) n [] ≠ [] := by
    unfold Nat.toDigitsCore
    simp only
    split
    · exact List.cons_ne_nil _ _
    · exact toDigitsCore_ne_nil _ _ _ _ (List.cons_ne_nil _ _)
  apply h2
  have h3 := congrArg String.data h
  simpa [List.asString] using h3

theorem intToString_ne_empty (n : Int) : toString n ≠ "" := by
  cases n with
  | ofNat m => exact natRepr_ne_empty m
  | negSucc m =>
    intro h
    have h3 := congrArg String.length h
    change ("-" ++ Nat.repr (m + 1)).length = 0 at h3
    rw [String.length_append] at h3
    have : ("-" : String).length = 1 := rfl
    omega

theorem Id.toString_ne_empty (id : Id) (h : id.truthy = true) : id.toString ≠ "" := by
  cases id with
  | int n => exact intToString_ne_empty n
  | str s => simpa [Id.truthy] using h

theorem idText_eq_nonempty (v : Option Id) (s : String) (h : idText v = s) (hs : s ≠ "") :
    ∃ id, v = some id ∧ id.toString = s := by
  unfold idText at h
  cases v with
  | none => exact absurd h.symm hs
  | some id =>
    dsimp only at h
    by_cases ht : id.truthy = true
    · rw [if_pos ht] at h
      exact ⟨id, rfl, h⟩
    · rw [if_neg ht] at h
      exact absurd h.symm hs

theorem highRatings_mem (currentUserId : String) (userRatings kept : List RatingRecord)
    (h : highRatings currentUserId userRatings = .ok kept) :
    ∀ record ∈ kept, record ∈ userRatings ∧ isHighRating currentUserId record = .ok true := by
  induction userRatings generalizing kept with
  | nil =>
    cases h
    intro record hmem
    cases hmem
  | cons r rs ih =>
    unfold highRatings at h
    cases hr : isHighRating currentUserId r with
    | error err => rw [hr] at h; cases h
    | ok keep =>
      rw [hr] at h
      cases hrest : highRatings currentUserId rs with
      | error err => rw [hrest] at h; cases h
      | ok kept' =>
        rw [hrest] at h
        dsimp only at h
        cases h
        intro record hmem
        cases keep with
        | false =>
          simp only [Bool.false_eq_true, if_false] at hmem
          exact ⟨List.mem_cons_of_mem _ (ih kept' hrest record hmem).1,
            (ih kept' hrest record hmem).2⟩
        | true =>
          simp only [if_true, List.mem_cons] at hmem
          rcases hmem with hmem | hmem
          · subst hmem
            exact ⟨List.mem_cons_self _ _, hr⟩
          · exact ⟨List.mem_cons_of_mem _ (ih kept' hrest record hmem).1,
              (ih kept' hrest record hmem).2⟩

theorem highRatings_total (currentUserId : String) (userRatings : List RatingRecord)
    (h : ∀ record ∈ userRatings, ∃ rating, toNumber record.rating = .ok rating) :
    ∃ kept, highRatings currentUserId userRatings = .ok kept := by
  induction userRatings with
  | nil => exact ⟨[], rfl⟩
  | cons r rs ih =>
    obtain ⟨rating, hr⟩ := h r (List.mem_cons_self _ _)
    obtain ⟨kept, hk⟩ := ih (fun record hmem => h record (List.mem_cons_of_mem _ hmem))
    unfold highRatings isHighRating
    simp only [hr, hk]
    exact ⟨_, rfl⟩

theorem mem_mapSet (entries : List (Id × CatalogItem)) (key : Id) (value : CatalogItem)
    (p : Id × CatalogItem) (h : p ∈ mapSet entries key value) :
    p ∈ entries ∨ p = (key, value) := by
  unfold mapSet at h
  split at h
  · rw [List.mem_map] at h
    obtain ⟨q, hq, hqp⟩ := h
    split at hqp
    · exact Or.inr hqp.symm
    · exact Or.inl (hqp ▸ hq)
  · rw [List.mem_append, List.mem_singleton] at h
    exact h

theorem mem_addRecommendation (items : List CatalogItem) (recsMap : List (Id × CatalogItem))
    (record : RatingRecord) (p : Id × CatalogItem)
    (h : p ∈ addRecommendation items recsMap record) :
    p ∈ recsMap ∨
      (recordMovieId record = some p.1 ∧ p.1.truthy = true ∧ findMedia items p.1 = some p.2) := by
  unfold addRecommendation at h
  split at h
  · exact Or.inl h
  · rename_i movieId hm
    split at h
    · rename_i ht
      split at h
      · rename_i found hf
        rcases mem_mapSet _ _ _ _ h with h | h
        · exact Or.inl h
        · subst h
          exact Or.inr ⟨hm, ht, hf⟩
      · exact Or.inl h
    · exact Or.inl h

theorem mem_foldl_addRecommendation (items : List CatalogItem) (high : List RatingRecord)
    (acc : List (Id × CatalogItem)) (p : Id × CatalogItem)
    (h : p ∈ high.foldl (addRecommendation items) acc) :
    p ∈ acc ∨ ∃ record ∈ high,
      recordMovieId record = some p.1 ∧ p.1.truthy = true ∧ findMedia items p.1 = some p.2 := by
  induction high generalizing acc with
  | nil => exact Or.inl h
  | cons r rs ih =>
    rw [List.foldl_cons] at h
    rcases ih _ h with h | ⟨record, hmem, hrec⟩
    · rcases mem_addRecommendation _ _ _ _ h with h | h
      · exact Or.inl h
      · exact Or.inr ⟨r, List.mem_cons_self _ _, h⟩
    · exact Or.inr ⟨record, List.mem_cons_of_mem _ hmem, hrec⟩

theorem orElseId_eq_some (a b : Option Id) (m : Id) (h : orElseId a b = some m) :
    a = some m ∨ b = some m := by
  unfold orElseId at h
  split at h
  · split at h
    · exact Or.inl h
    · exact Or.inr h
  · exact Or.inr h

theorem recordMovieId_eq_some (record : RatingRecord) (m : Id)
    (h : recordMovieId record = some m) :
    record.movieId = some m ∨ record.media_id = some m ∨ record.movie_id = some m := by
  unfold recordMovieId at h
  rcases orElseId_eq_some _ _ _ h with h | h
  · rcases orElseId_eq_some _ _ _ h with h | h
    · exact Or.inl h
    · exact Or.inr (Or.inl h)
  · exact Or.inr (Or.inr h)

theorem isHighRating_true (currentUserId : String) (record : RatingRecord)
    (h : isHighRating currentUserId record = .ok true) :
    idText record.user_id = currentUserId ∧
      ∃ rating, toNumber record.rating = .ok rating ∧ rating.geInt 4 = true := by
  unfold isHighRating at h
  cases hr : toNumber record.rating with
  | error err => rw [hr] at h; cases h
  | ok rating =>
    rw [hr] at h
    dsimp only at h
    have h2 : (idText record.user_id == currentUserId && rating.geInt 4) = true := by
      injection h
    rw [Bool.and_eq_true, beq_iff_eq] at h2
    exact ⟨h2.1, rating, rfl, h2.2⟩

/-- C20: for every current user, ratings list and catalog list, the
recommendations the home page computes contain at most 10 items, and every
recommended item is a catalog item whose id, as a string, equals a media id
of some rating record whose `user_id`, as a string, equals the current user's
id and whose numeric rating is at least 4. The recommendations are computed
whenever the user is logged in, both lists are non-empty and every rating
converts to a number. The current user is a record of the store, whose id is
a number or a non-empty text (`hne`): the store assigns the ids. -/
theorem recommendations_sound (isLoggedIn : Bool) (currentUser : CurrentUser) (userId : Id)
    (userRatings : List RatingRecord) (items : List CatalogItem)
    (hid : currentUser.id = some userId) (hne : userId ≠ .str "") :
    (∀ recs,
      HomePage.recommendations isLoggedIn (some currentUser) userRatings items = some recs →
      recs.length ≤ 10 ∧ ∀ item ∈ recs, Recommendable userId userRatings items item) ∧
    (isLoggedIn = true → userRatings ≠ [] → items ≠ [] →
      (∀ record ∈ userRatings, ∃ rating, toNumber record.rating = .ok rating) →
      ∃ recs,
        HomePage.recommendations isLoggedIn (some currentUser) userRatings items = some recs) := by
  have hidne : userId.toString ≠ "" := by
    cases userId with
    | int n => exact intToString_ne_empty n
    | str s =>
      intro h
      apply hne
      change s = "" at h
      rw [h]
  constructor
  · intro recs h
    unfold HomePage.recommendations at h
    dsimp only at h
    split at h
    · rw [hid] at h
      dsimp only at h
      cases hh : highRatings userId.toString userRatings with
      | error err => rw [hh] at h; cases h
      | ok high =>
        rw [hh] at h
        dsimp only at h
        injection h with h
        subst h
        refine ⟨by simp [List.length_take], ?_⟩
        intro item hitem
        have hitem2 := List.mem_of_mem_take hitem
        rw [List.mem_map] at hitem2
        obtain ⟨p, hp, hpi⟩ := hitem2
        rcases mem_foldl_addRecommendation items high [] p hp with hp | ⟨record, hmem, hm, ht, hf⟩
        · cases hp
        · obtain ⟨hrec, hhigh⟩ := highRatings_mem _ _ _ hh record hmem
          obtain ⟨huser, rating, hrating, hge⟩ := isHighRating_true _ _ hhigh
          obtain ⟨uid, huid, huidText⟩ := idText_eq_nonempty _ _ huser hidne
          have hfound := List.find?_some hf
          have hin := List.mem_of_find?_eq_some hf
          rw [beq_iff_eq] at hfound
          obtain ⟨itemId, hitemId, hitemText⟩ :=
            idText_eq_nonempty _ _ hfound (Id.toString_ne_empty _ ht)
          subst hpi
          exact ⟨hin, record, hrec, itemId, p.1, uid, rating, hitemId,
            recordMovieId_eq_some _ _ hm, hitemText, huid, huidText, hrating, hge⟩
    · cases h
  · intro hlog hr hi hnum
    obtain ⟨kept, hk⟩ := highRatings_total userId.toString userRatings hnum
    refine ⟨((kept.foldl (addRecommendation items) []).map (fun p => p.2)).take 10, ?_⟩
    unfold HomePage.recommendations
    have h1 : decide (userRatings.length > 0) = true :=
      decide_eq_true (List.length_pos.mpr hr)
    have h2 : decide (items.length > 0) = true :=
      decide_eq_true (List.length_pos.mpr hi)
    simp only [hlog, h1, h2, hid, hk, Bool.and_self, if_true]

/-- Witness for C20: user 3 rated `m1` with five stars and `m2` with two, and
another user rated `m2` with five; only `m1` is recommended. -/
theorem recommendations_sound_witness :
    HomePage.recommendations true (some ⟨some (.int 3)⟩)
        [{ user_id := some (.str "3"), rating := some (.string "5"), movieId := none
           media_id := some (.str "m1"), movie_id := none },
         { user_id := some (.int 3), rating := some (.number ⟨2, 0⟩), movieId := some (.str "m2")
           media_id := none, movie_id := none },
         { user_id := some (.int 4), rating := some (.number ⟨5, 0⟩), movieId := some (.str "m2")
           media_id := none, movie_id := none }]
        [⟨some (.str "m1"), "Up"⟩, ⟨some (.str "m2"), "Heat"⟩] = some [⟨some (.str "m1"), "Up"⟩] ∧
    ([⟨some (.str "m1"), "Up"⟩] : List CatalogItem).length ≤ 10 ∧
    ∀ item ∈ ([⟨some (.str "m1"), "Up"⟩] : List CatalogItem),
      Recommendable (.int 3)
        [{ user_id := some (.str "3"), rating := some (.string "5"), movieId := none
           media_id := some (.str "m1"), movie_id := none },
         { user_id := some (.int 3), rating := some (.number ⟨2, 0⟩), movieId := some (.str "m2")
           media_id := none, movie_id := none },
         { user_id := some (.int 4), rating := some (.number ⟨5, 0⟩), movieId := some (.str "m2")
           media_id := none, movie_id := none }]
        [⟨some (.str "m1"), "Up"⟩, ⟨some (.str "m2"), "Heat"⟩] item :=
  ⟨by decide,
   (recommendations_sound true ⟨some (.int 3)⟩ (.int 3) _ _ rfl (by decide)).1 _ (by decide)⟩

/-! ## Dictionaries and the grouping of the watch history -/

theorem indexed_named_perm {α : Type} (entries : List (String × α)) :
    (((entries.filterMap (fun p => (arrayIndex p.1).map (fun n => (n, p.1)))).map
        (fun p => p.2)) ++
      (entries.filter (fun p => (arrayIndex p.1).isNone)).map (fun p => p.1)).Perm
      (entries.map (fun p => p.1)) := by
  induction entries with
  | nil => exact List.Perm.refl _
  | cons p ps ih =>
    cases h : arrayIndex p.1 with
    | none =>
      simp only [List.filterMap_cons, h, Option.map_none', List.filter_cons, Option.isNone_none,
        if_true, List.map_cons]
      exact List.perm_middle.trans (List.Perm.cons _ ih)
    | some n =>
      simp only [List.filterMap_cons, h, Option.map_some', List.filter_cons, Option.isNone_some,
        Bool.false_eq_true, if_false, List.map_cons, List.cons_append]
      exact List.Perm.cons _ ih

theorem keys_perm {α : Type} (entries : List (String × α)) :
    (Object.keys entries).Perm (entries.map (fun p => p.1)) := by
  unfold Object.keys
  have hsort := (List.perm_insertionSort (fun a b : Nat × String => a.1 ≤ b.1)
    (entries.filterMap (fun p => (arrayIndex p.1).map (fun n => (n, p.1))))).map
    (fun p : Nat × String => p.2)
  exact (List.Perm.append_right _ hsort).trans (indexed_named_perm entries)

theorem ownProperty_of_mem {α : Type} (entries : List (String × α)) (key : String)
    (h : key ∈ entries.map (fun p => p.1)) :
    ∃ p ∈ entries, p.1 = key ∧ ownProperty entries key = some p.2 := by
  unfold ownProperty
  cases hf : entries.find? (fun p => p.1 == key) with
  | none =>
    rw [List.find?_eq_none] at hf
    rw [List.mem_map] at h
    obtain ⟨p, hp, hk⟩ := h
    exact absurd (by simpa using hk) (hf p hp)
  | some p =>
    have h1 := List.find?_some hf
    have h2 := List.mem_of_find?_eq_some hf
    exact ⟨p, h2, by simpa using h1, rfl⟩

theorem grouped_step (mapByDate : List (String × List HistoryEntry)) (seen : List HistoryEntry)
    (entry : HistoryEntry) (hg : Grouped mapByDate seen)
    (hn : entry.date ∉ objectPrototypeNames) :
    ∃ next, regroupHistory.step mapByDate entry = .ok next ∧ Grouped next (seen ++ [entry]) := by
  obtain ⟨hnodup, hitems, hkeys⟩ := hg
  unfold regroupHistory.step
  by_cases hany : mapByDate.any (fun p => p.1 == entry.date) = true
  · refine ⟨mapByDate.map (fun p => if p.1 == entry.date then (p.1, p.2 ++ [entry]) else p),
      by simp only [hany, if_true], ?_, ?_, ?_⟩
    · have : (mapByDate.map
          (fun p => if p.1 == entry.date then (p.1, p.2 ++ [entry]) else p)).map (fun p => p.1) =
          mapByDate.map (fun p => p.1) := by
        rw [List.map_map]
        apply List.map_congr_left
        intro p _
        simp only [Function.comp]
        split <;> rfl
      rw [this]
      exact hnodup
    · intro q hq
      rw [List.mem_map] at hq
      obtain ⟨p, hp, hpq⟩ := hq
      obtain ⟨hne, hfil⟩ := hitems p hp
      by_cases hd : (p.1 == entry.date) = true
      · rw [if_pos hd] at hpq
        subst hpq
        have hd2 : (entry.date == p.1) = true := by
          rw [beq_iff_eq] at hd ⊢
          exact hd.symm
        refine ⟨by simp, ?_⟩
        simp only [List.filter_append, List.filter_cons, hd2, if_true, List.filter_nil]
        rw [← hfil]
      · rw [if_neg hd] at hpq
        subst hpq
        have hd2 : (entry.date == p.1) = false := by
          rw [beq_eq_false_iff_ne]
          intro e
          apply hd
          rw [beq_iff_eq]
          exact e.symm
        refine ⟨hne, ?_⟩
        simp only [List.filter_append, List.filter_cons, hd2, Bool.false_eq_true, if_false,
          List.filter_nil, List.append_nil]
        exact hfil
    · intro e he
      have hmap : (mapByDate.map
          (fun p => if p.1 == entry.date then (p.1, p.2 ++ [entry]) else p)).map (fun p => p.1) =
          mapByDate.map (fun p => p.1) := by
        rw [List.map_map]
        apply List.map_congr_left
        intro p _
        simp only [Function.comp]
        split <;> rfl
      rw [hmap]
      rw [List.mem_append, List.mem_singleton] at he
      rcases he with he | he
      · exact hkeys e he
      · subst he
        rw [List.any_eq_true] at hany
        obtain ⟨p, hp, hpd⟩ := hany
        rw [beq_iff_eq] at hpd
        rw [List.mem_map]
        exact ⟨p, hp, hpd⟩
  · have hfresh : ∀ p ∈ mapByDate, p.1 ≠ entry.date := by
      intro p hp e
      apply hany
      rw [List.any_eq_true]
      exact ⟨p, hp, by rw [beq_iff_eq]; exact e⟩
    refine ⟨mapByDate ++ [(entry.date, [entry])],
      by simp only [hany, hn, if_false, Bool.false_eq_true], ?_, ?_, ?_⟩
    · rw [List.map_append, List.map_singleton]
      apply List.Nodup.append hnodup (List.nodup_singleton _)
      intro k hk hk2
      rw [List.mem_singleton] at hk2
      subst hk2
      rw [List.mem_map] at hk
      obtain ⟨p, hp, hpk⟩ := hk
      exact hfresh p hp hpk
    · intro q hq
      rw [List.mem_append, List.mem_singleton] at hq
      rcases hq with hq | hq
      · obtain ⟨hne, hfil⟩ := hitems q hq
        have hd2 : (entry.date == q.1) = false := by
          rw [beq_eq_false_iff_ne]
          exact fun e => hfresh q hq e.symm
        refine ⟨hne, ?_⟩
        simp only [List.filter_append, List.filter_cons, hd2, Bool.false_eq_true, if_false,
          List.filter_nil, List.append_nil]
        exact hfil
      · subst hq
        refine ⟨by simp, ?_⟩
        have hnone : seen.filter (fun e => e.date == entry.date) = [] := by
          rw [List.filter_eq_nil_iff]
          intro e he hed
          rw [beq_iff_eq] at hed
          have := hkeys e he
          rw [List.mem_map] at this
          obtain ⟨p, hp, hpk⟩ := this
          exact hfresh p hp (hpk.trans hed)
        simp only [List.filter_append, hnone, List.nil_append, List.filter_cons, beq_self_eq_true,
          if_true, List.filter_nil]
    · intro e he
      rw [List.map_append, List.mem_append, List.map_singleton, List.mem_singleton]
      rw [List.mem_append, List.mem_singleton] at he
      rcases he with he | he
      · exact Or.inl (hkeys e he)
      · exact Or.inr (by rw [he])

theorem grouped_forEach (rest : List HistoryEntry) (mapByDate : List (String × List HistoryEntry))
    (seen : List HistoryEntry) (hg : Grouped mapByDate seen)
    (hn : ∀ entry ∈ rest, entry.date ∉ objectPrototypeNames) :
    ∃ final, regroupHistory.forEach mapByDate rest = .ok final ∧ Grouped final (seen ++ rest) := by
  induction rest generalizing mapByDate seen with
  | nil => exact ⟨mapByDate, rfl, by rw [List.append_nil]; exact hg⟩
  | cons entry rest ih =>
    obtain ⟨next, hstep, hnext⟩ := grouped_step mapByDate seen entry hg
      (hn entry (List.mem_cons_self _ _))
    obtain ⟨final, hfinal, hgf⟩ := ih next (seen ++ [entry]) hnext
      (fun e he => hn e (List.mem_cons_of_mem _ he))
    refine ⟨final, ?_, ?_⟩
    · unfold regroupHistory.forEach
      rw [hstep]
      exact hfinal
    · rw [List.append_assoc] at hgf
      exact hgf

/-- C21: `regroupHistory` returns, and it partitions its input by date: the
dates of the groups are pairwise distinct; each group is non-empty and holds
exactly the entries of its date, in their input order; and every entry is in
the group of its date (and in no other, since the members of a group carry
the date of the group). The dates are display texts of a day, as
`addToWatchHistory` writes them with `toLocaleString`; such a text is no name
of a property of `Object.prototype` (`h`), which the dictionary `mapByDate`,
an object literal, would read through its prototype. -/
theorem regroupHistory_partitions (historyArray : List HistoryEntry)
    (h : ∀ entry ∈ historyArray, entry.date ∉ objectPrototypeNames) :
    ∃ groups, regroupHistory historyArray = .ok groups ∧
      (groups.map (fun group => group.date)).Nodup ∧
      (∀ group ∈ groups, group.items ≠ [] ∧
        group.items = historyArray.filter (fun entry => entry.date == group.date)) ∧
      (∀ entry ∈ historyArray, ∃ group ∈ groups, group.date = entry.date ∧
        entry ∈ group.items) ∧
      (∀ group ∈ groups, ∀ entry ∈ group.items, entry.date = group.date) := by
  obtain ⟨final, hfinal, hnodup, hitems, hkeys⟩ :=
    grouped_forEach historyArray [] [] ⟨List.nodup_nil, by simp, by simp⟩ h
  rw [List.nil_append] at hitems hkeys
  have hperm := keys_perm final
  have hgroup : ∀ group ∈ (Object.keys final).map
      (fun date => ({ date := date, items := (ownProperty final date).getD [] } : HistoryGroup)),
      group.items ≠ [] ∧
        group.items = historyArray.filter (fun entry => entry.date == group.date) := by
    intro group hgm
    rw [List.mem_map] at hgm
    obtain ⟨date, hdate, hgd⟩ := hgm
    obtain ⟨p, hp, hpk, hown⟩ := ownProperty_of_mem final date (hperm.mem_iff.mp hdate)
    subst hgd
    simp only [hown, Option.getD_some]
    rw [← hpk]
    exact hitems p hp
  refine ⟨_, by unfold regroupHistory; rw [hfinal], ?_, hgroup, ?_, ?_⟩
  · rw [List.map_map]
    have : ((fun group : HistoryGroup => group.date) ∘
        (fun date => ({ date := date, items := (ownProperty final date).getD [] } :
          HistoryGroup))) = id := rfl
    rw [this, List.map_id]
    exact hperm.nodup_iff.mpr hnodup
  · intro entry he
    have hk := hperm.mem_iff.mpr (hkeys entry he)
    refine ⟨{ date := entry.date, items := (ownProperty final entry.date).getD [] },
      List.mem_map.mpr ⟨entry.date, hk, rfl⟩, rfl, ?_⟩
    have := (hgroup _ (List.mem_map.mpr ⟨entry.date, hk, rfl⟩)).2
    rw [this, List.mem_filter]
    exact ⟨he, by simp⟩
  · intro group hgm entry he
    rw [(hgroup group hgm).2, List.mem_filter] at he
    simpa using he.2

/-- Witness for C21: two days of history, the first day seen again after the
second. -/
theorem regroupHistory_partitions_witness :
    ∃ groups,
      regroupHistory [⟨"h1", "Mar 5", "Up"⟩, ⟨"h2", "Mar 6", "Heat"⟩, ⟨"h3", "Mar 5", "Alien"⟩] =
        .ok groups ∧
      (groups.map (fun group => group.date)).Nodup ∧
      (∀ group ∈ groups, group.items ≠ [] ∧
        group.items =
          [⟨"h1", "Mar 5", "Up"⟩, ⟨"h2", "Mar 6", "Heat"⟩, ⟨"h3", "Mar 5", "Alien"⟩].filter
            (fun entry => entry.date == group.date)) ∧
      (∀ entry ∈ [(⟨"h1", "Mar 5", "Up"⟩ : HistoryEntry), ⟨"h2", "Mar 6", "Heat"⟩,
          ⟨"h3", "Mar 5", "Alien"⟩],
        ∃ group ∈ groups, group.date = entry.date ∧ entry ∈ group.items) ∧
      (∀ group ∈ groups, ∀ entry ∈ group.items, entry.date = group.date) :=
  regroupHistory_partitions _ (by decide)

/-! ## The release-year chart -/

theorem unitsLe_total (a b : List Nat) : unitsLe a b = true ∨ unitsLe b a = true := by
  induction a generalizing b with
  | nil => exact Or.inl (by cases b <;> rfl)
  | cons x xs ih =>
    cases b with
    | nil => exact Or.inr rfl
    | cons y ys =>
      simp only [unitsLe, Bool.or_eq_true, decide_eq_true_eq, Bool.and_eq_true, beq_iff_eq]
      rcases Nat.lt_trichotomy x y with h | h | h
      · exact Or.inl (Or.inl h)
      · rcases ih ys with h2 | h2
        · exact Or.inl (Or.inr ⟨h, h2⟩)
        · exact Or.inr (Or.inr ⟨h.symm, h2⟩)
      · exact Or.inr (Or.inl h)

theorem unitsLe_trans (a b c : List Nat) (hab : unitsLe a b = true) (hbc : unitsLe b c = true) :
    unitsLe a c = true := by
  induction a generalizing b c with
  | nil => cases c <;> rfl
  | cons x xs ih =>
    cases b with
    | nil => simp [unitsLe] at hab
    | cons y ys =>
      cases c with
      | nil => simp [unitsLe] at hbc
      | cons z zs =>
        simp only [unitsLe, Bool.or_eq_true, decide_eq_true_eq, Bool.and_eq_true,
          beq_iff_eq] at hab hbc ⊢
        rcases hab with h1 | ⟨h1, h1'⟩
        · rcases hbc with h2 | ⟨h2, _⟩
          · exact Or.inl (by omega)
          · exact Or.inl (by omega)
        · rcases hbc with h2 | ⟨h2, h2'⟩
          · exact Or.inl (by omega)
          · exact Or.inr ⟨by omega, ih ys zs h1' h2'⟩

theorem sorted_insertionSort_sortLe (keys : List String) :
    (keys.insertionSort sortLe).Sorted sortLe := by
  haveI : IsTotal String sortLe := ⟨fun _ _ => unitsLe_total _ _⟩
  haveI : IsTrans String sortLe := ⟨fun _ _ _ h1 h2 => unitsLe_trans _ _ _ h1 h2⟩
  exact List.sorted_insertionSort sortLe keys

theorem sum_indicator_eq_count (keys : List String) (x : String) :
    (keys.map (fun k => if x = k then 1 else 0)).sum = keys.count x := by
  induction keys with
  | nil => rfl
  | cons k ks ih =>
    rw [List.map_cons, List.sum_cons, ih, List.count_cons]
    by_cases h : x = k
    · subst h
      simp
      omega
    · have h2 : (k == x) = false := by
        rw [beq_eq_false_iff_ne]
        exact fun e => h e.symm
      simp [h, h2]

theorem sum_count_eq_length (keys : List String) (hn : keys.Nodup) (l : List String)
    (h : ∀ x ∈ l, x ∈ keys) : (keys.map (fun k => l.count k)).sum = l.length := by
  induction l with
  | nil => simp
  | cons x xs ih =>
    have hx : keys.count x = 1 := List.count_eq_one_of_mem hn (h x (List.mem_cons_self _ _))
    have hsplit : (keys.map (fun k => (x :: xs).count k)) =
        keys.map (fun k => xs.count k + (if x = k then 1 else 0)) := by
      apply List.map_congr_left
      intro k _
      rw [List.count_cons]
      by_cases e : x = k
      · simp [e]
      · have : (x == k) = false := by rw [beq_eq_false_iff_ne]; exact e
        simp [e, this]
    rw [hsplit, List.sum_map_add, ih (fun y hy => h y (List.mem_cons_of_mem _ hy)),
      sum_indicator_eq_count, hx, List.length_cons]

theorem counted_step (inheritedText : String → String) (yearCounts : List (String × Count))
    (keys : List String) (media : Media) (hc : Counted yearCounts keys)
    (hn : ∀ key, media.chartKey = some key → key ∉ objectPrototypeNames) :
    Counted (Dashboard.countYear inheritedText yearCounts media)
      (keys ++ (media.chartKey.map (fun k => [k])).getD []) := by
  obtain ⟨hnodup, hvals, hkeys⟩ := hc
  unfold Dashboard.countYear
  cases hk : media.chartKey with
  | none =>
    simp only [Option.map_none', Option.getD_none, List.append_nil]
    exact ⟨hnodup, hvals, hkeys⟩
  | some year =>
    have hnp := hn year hk
    have hne : year ≠ "__proto__" := by
      intro e
      apply hnp
      rw [e]
      decide
    simp only [Option.map_some', Option.getD_some]
    by_cases hany : yearCounts.any (fun p => p.1 == year) = true
    · simp only [hany, if_true]
      have hmem : year ∈ yearCounts.map (fun p => p.1) := by
        rw [List.any_eq_true] at hany
        obtain ⟨p, hp, hpy⟩ := hany
        rw [beq_iff_eq] at hpy
        exact List.mem_map.mpr ⟨p, hp, hpy⟩
      have hmap : (yearCounts.map
          (fun p => if p.1 == year then (p.1, p.2.increment) else p)).map (fun p => p.1) =
          yearCounts.map (fun p => p.1) := by
        rw [List.map_map]
        apply List.map_congr_left
        intro p _
        simp only [Function.comp]
        split <;> rfl
      refine ⟨by rw [hmap]; exact hnodup, ?_, ?_⟩
      · intro q hq
        rw [List.mem_map] at hq
        obtain ⟨p, hp, hpq⟩ := hq
        have hv := hvals p hp
        by_cases hd : (p.1 == year) = true
        · rw [if_pos hd] at hpq
          subst hpq
          rw [beq_iff_eq] at hd
          simp only [hv, Count.increment, List.count_append, hd, List.count_singleton_self]
        · rw [if_neg hd] at hpq
          subst hpq
          have hd2 : (year == p.1) = false := by
            rw [beq_eq_false_iff_ne]
            intro e
            apply hd
            rw [beq_iff_eq]
            exact e.symm
          simp only [hv, List.count_append, List.count_cons, List.count_nil, hd2,
            Bool.false_eq_true, if_false, Nat.add_zero]
      · intro key
        rw [hmap, List.mem_append, List.mem_singleton, hkeys key]
        constructor
        · exact Or.inl
        · rintro (h | h)
          · exact h
          · rw [h]
            exact (hkeys year).mp hmem
    · have hfresh : year ∉ yearCounts.map (fun p => p.1) := by
        intro hmem
        apply hany
        rw [List.mem_map] at hmem
        obtain ⟨p, hp, hpy⟩ := hmem
        rw [List.any_eq_true]
        exact ⟨p, hp, by rw [beq_iff_eq]; exact hpy⟩
      have hcount : keys.count year = 0 :=
        List.count_eq_zero_of_not_mem (fun h => hfresh ((hkeys year).mpr h))
      simp only [hany, hne, hnp, if_false, Bool.false_eq_true]
      refine ⟨?_, ?_, ?_⟩
      · rw [List.map_append, List.map_singleton]
        apply List.Nodup.append hnodup (List.nodup_singleton _)
        intro k hk1 hk2
        rw [List.mem_singleton] at hk2
        subst hk2
        exact hfresh hk1
      · intro q hq
        rw [List.mem_append, List.mem_singleton] at hq
        rcases hq with hq | hq
        · have hqy : (year == q.1) = false := by
            rw [beq_eq_false_iff_ne]
            intro e
            apply hfresh
            rw [e]
            exact List.mem_map.mpr ⟨q, hq, rfl⟩
          simp only [hvals q hq, List.count_append, List.count_cons, List.count_nil, hqy,
            Bool.false_eq_true, if_false, Nat.add_zero]
        · subst hq
          simp only [List.count_append, hcount, List.count_singleton_self]
      · intro key
        rw [List.map_append, List.mem_append, List.map_singleton, List.mem_singleton,
          List.mem_append, List.mem_singleton, hkeys key]

theorem counted_foldl (inheritedText : String → String) (rest : List Media)
    (yearCounts : List (String × Count)) (keys : List String) (hc : Counted yearCounts keys)
    (hn : ∀ media ∈ rest, ∀ key, media.chartKey = some key → key ∉ objectPrototypeNames) :
    Counted (rest.foldl (Dashboard.countYear inheritedText) yearCounts)
      (keys ++ rest.filterMap Media.chartKey) := by
  induction rest generalizing yearCounts keys with
  | nil => simpa using hc
  | cons media rest ih =>
    rw [List.foldl_cons]
    have hstep := counted_step inheritedText yearCounts keys media hc
      (hn media (List.mem_cons_self _ _))
    have := ih _ _ hstep (fun m hm => hn m (List.mem_cons_of_mem _ hm))
    have hlist : keys ++ (media.chartKey.map (fun k => [k])).getD [] ++
        rest.filterMap Media.chartKey = keys ++ (media :: rest).filterMap Media.chartKey := by
      cases hk : media.chartKey with
      | none => simp [List.filterMap_cons, hk]
      | some k => simp [List.filterMap_cons, hk]
    rw [hlist] at this
    exact this

theorem length_filterMap_chartKey (all : List Media) :
    (all.filterMap Media.chartKey).length =
      (all.filter (fun media => media.chartKey.isSome)).length := by
  induction all with
  | nil => rfl
  | cons media rest ih =>
    cases hk : media.chartKey with
    | none => simp [List.filterMap_cons, List.filter_cons, hk, ih]
    | some k => simp [List.filterMap_cons, List.filter_cons, hk, ih]

/-- C22 fails as stated for a year that names a property of
`Object.prototype`: the dictionary is an object literal. A medium whose year
is `__proto__` gets no row at all, and one whose year is `toString` gets a row
whose count is a text, not the number of media with that key. The rows of the
other years are as claimed. -/
theorem yearChartData_on_prototype_name :
    (∀ inheritedText : String → String,
      Dashboard.yearChartData inheritedText [⟨"Up", some "__proto__"⟩] [] = some []) ∧
    (∀ inheritedText : String → String,
      Dashboard.yearChartData inheritedText
          [⟨"Up", some "2009"⟩, ⟨"Heat", some "toString"⟩] [⟨"Lost", some "2004–2010"⟩] =
        some [⟨"2004", some (.number 1)⟩, ⟨"2009", some (.number 1)⟩,
          ⟨"toString", some (.text (inheritedText "toString" ++ "1"))⟩]) :=
  ⟨fun _ => rfl, fun _ => rfl⟩

/-- C22, amended: for every list of movies and TV shows, not both empty, in
which no year key is the name of a property of `Object.prototype`, the chart
data is built and has exactly one row per distinct year key among the media
with a non-empty `Year`, the key being the trimmed text before the first en
dash; each row's count is the number of media with that key; the counts sum
to the number of media with a non-empty `Year`; and the rows are sorted
ascending by year string, without repetition. -/
theorem yearChartData_counts_by_year (inheritedText : String → String)
    (movies tvShows : List Media) (hne : movies ≠ [] ∨ tvShows ≠ [])
    (hn : ∀ media ∈ movies ++ tvShows, ∀ key, media.chartKey = some key →
      key ∉ objectPrototypeNames) :
    ∃ rows, Dashboard.yearChartData inheritedText movies tvShows = some rows ∧
      (rows.map (fun row => row.year)).Sorted sortLe ∧
      (rows.map (fun row => row.year)).Nodup ∧
      (∀ key, key ∈ rows.map (fun row => row.year) ↔
        key ∈ (movies ++ tvShows).filterMap Media.chartKey) ∧
      (∀ row ∈ rows, row.count =
        some (.number (((movies ++ tvShows).filterMap Media.chartKey).count row.year))) ∧
      (rows.map (fun row =>
        ((movies ++ tvShows).filterMap Media.chartKey).count row.year)).sum =
        ((movies ++ tvShows).filter (fun media => media.chartKey.isSome)).length := by
  obtain ⟨hnodup, hvals, hkeys⟩ := counted_foldl inheritedText (movies ++ tvShows) [] []
    ⟨List.nodup_nil, by simp, by simp⟩ hn
  rw [List.nil_append] at hvals hkeys
  generalize hyc : (movies ++ tvShows).foldl (Dashboard.countYear inheritedText) [] = yearCounts
    at hnodup hvals hkeys
  have hperm : ((Object.keys yearCounts).insertionSort sortLe).Perm
      (yearCounts.map (fun p => p.1)) :=
    (List.perm_insertionSort sortLe _).trans (keys_perm yearCounts)
  have hyears : (((Object.keys yearCounts).insertionSort sortLe).map
      (fun year => ({ year := year, count := ownProperty yearCounts year } : YearRow))).map
      (fun row => row.year) = (Object.keys yearCounts).insertionSort sortLe := by
    rw [List.map_map]
    exact List.map_id _
  have hcond : ¬ (movies.length = 0 ∧ tvShows.length = 0) := by
    rintro ⟨h1, h2⟩
    rcases hne with h | h
    · exact h (List.length_eq_zero.mp h1)
    · exact h (List.length_eq_zero.mp h2)
  refine ⟨((Object.keys yearCounts).insertionSort sortLe).map
      (fun year => { year := year, count := ownProperty yearCounts year }), ?_, ?_, ?_, ?_, ?_, ?_⟩
  · unfold Dashboard.yearChartData
    rw [if_neg hcond]
    simp only [hyc]
  · rw [hyears]
    exact sorted_insertionSort_sortLe _
  · rw [hyears]
    exact hperm.nodup_iff.mpr hnodup
  · intro key
    rw [hyears, hperm.mem_iff]
    exact hkeys key
  · intro row hrow
    rw [List.mem_map] at hrow
    obtain ⟨year, hyear, hrw⟩ := hrow
    obtain ⟨p, hp, hpk, hown⟩ := ownProperty_of_mem yearCounts year (hperm.mem_iff.mp hyear)
    subst hrw
    simp only [hown]
    rw [hvals p hp, hpk]
  · rw [← length_filterMap_chartKey]
    have h1 : (((Object.keys yearCounts).insertionSort sortLe).map
        (fun year => ({ year := year, count := ownProperty yearCounts year } : YearRow))).map
        (fun row => ((movies ++ tvShows).filterMap Media.chartKey).count row.year) =
        ((Object.keys yearCounts).insertionSort sortLe).map
          (fun k => ((movies ++ tvShows).filterMap Media.chartKey).count k) := by
      rw [List.map_map]
      rfl
    rw [h1]
    exact sum_count_eq_length _ (hperm.nodup_iff.mpr hnodup) _
      (fun x hx => hperm.mem_iff.mpr ((hkeys x).mpr hx))

/-- Witness for C22: two films of 2009, one written with spaces, a series
running from 2004 to 2010, and a record without a year. -/
theorem yearChartData_counts_by_year_witness :
    Dashboard.yearChartData (fun _ => "") exampleMovies exampleShows =
      some [⟨"2004", some (.number 1)⟩, ⟨"2009", some (.number 2)⟩] ∧
    ∃ rows, Dashboard.yearChartData (fun _ => "") exampleMovies exampleShows = some rows ∧
      (rows.map (fun row => row.year)).Sorted sortLe ∧
      (rows.map (fun row => row.year)).Nodup ∧
      (∀ key, key ∈ rows.map (fun row => row.year) ↔
        key ∈ (exampleMovies ++ exampleShows).filterMap Media.chartKey) ∧
      (∀ row ∈ rows, row.count =
        some (.number (((exampleMovies ++ exampleShows).filterMap Media.chartKey).count
          row.year))) ∧
      (rows.map (fun row =>
        ((exampleMovies ++ exampleShows).filterMap Media.chartKey).count row.year)).sum =
        ((exampleMovies ++ exampleShows).filter (fun media => media.chartKey.isSome)).length :=
  ⟨rfl, yearChartData_counts_by_year (fun _ => "") exampleMovies exampleShows
    (Or.inl (by decide)) (by decide)⟩

/-! ## The age of a request -/

/-- C23: for every creation time not later than now, with `d = now - created`
in milliseconds, `timeAgo` returns `Just now` when `d < 120000`; `m min ago`
with `m = floor(d / 60000)` when `2 ≤ m ≤ 59`; `1 hour ago` when
`floor(d / 3600000) = 1`; `h hours ago` with `h = floor(d / 3600000)` when
`2 ≤ h ≤ 23`; `1 day ago` when `floor(d / 86400000) = 1`; and `n days ago`
with `n = floor(d / 86400000)` when `n ≥ 2`. -/
theorem timeAgo_cases (now created : Int) (h : created ≤ now) :
    (now - created < 120000 → timeAgo now (some created) = "Just now") ∧
    (2 ≤ (now - created) / 60000 → (now - created) / 60000 ≤ 59 →
      timeAgo now (some created) = toString ((now - created) / 60000) ++ " min ago") ∧
    ((now - created) / 3600000 = 1 → timeAgo now (some created) = "1 hour ago") ∧
    (2 ≤ (now - created) / 3600000 → (now - created) / 3600000 ≤ 23 →
      timeAgo now (some created) = toString ((now - created) / 3600000) ++ " hours ago") ∧
    ((now - created) / 86400000 = 1 → timeAgo now (some created) = "1 day ago") ∧
    (2 ≤ (now - created) / 86400000 →
      timeAgo now (some created) = toString ((now - created) / 86400000) ++ " days ago") := by
  have e1 : (1000 * 60 * 60 * 24 : Int) = 86400000 := by norm_num
  have e2 : (1000 * 60 * 60 : Int) = 3600000 := by norm_num
  have e3 : (1000 * 60 : Int) = 60000 := by norm_num
  simp only [timeAgo]
  simp only [e1]
  simp only [e2]
  simp only [e3]
  refine ⟨?_, ?_, ?_, ?_, ?_, ?_⟩
  · intro hd
    rw [if_pos (by omega), if_pos (by omega), if_pos (by omega)]
  · intro h1 h2
    rw [if_pos (by omega), if_pos (by omega), if_neg (by omega)]
  · intro h1
    rw [if_pos (by omega), if_neg (by omega), if_pos h1]
  · intro h1 h2
    rw [if_pos (by omega), if_neg (by omega), if_neg (by omega)]
  · intro h1
    rw [if_neg (by omega), if_pos h1]
  · intro h1
    rw [if_neg (by omega), if_neg (by omega)]

/-- Witness for C23: a request created two and a half minutes ago. -/
theorem timeAgo_cases_witness :
    timeAgo 1700000000000 (some 1699999850000) = "2 min ago" :=
  (timeAgo_cases 1700000000000 1699999850000 (by decide)).2.1 (by decide) (by decide)

/-! ## Deletion of the account -/

theorem deleteRecords_spec (store : StoreAnswers) (table : String) (data : List JSValue) :
    (∀ q ∈ (deleteRecords store table data).1, q.collection = table) ∧
    ((deleteRecords store table data).2 = true ↔
      ∀ record ∈ data, ∃ id, record.get "id" = .ok id ∧ store.delete table id = true) ∧
    ((deleteRecords store table data).2 = true →
      ∀ record ∈ data, ∀ id, record.get "id" = .ok id →
        deleteRequest table id ∈ (deleteRecords store table data).1) := by
  induction data with
  | nil => simp [deleteRecords]
  | cons record rest ih =>
    obtain ⟨ih1, ih2, ih3⟩ := ih
    unfold deleteRecords
    cases hid : record.get "id" with
    | error err =>
      refine ⟨by simp, ?_, by simp⟩
      simp only [Bool.false_eq_true, false_iff]
      intro h
      obtain ⟨id, hid', _⟩ := h record (List.mem_cons_self _ _)
      rw [hid] at hid'
      cases hid'
    | ok id =>
      by_cases hd : store.delete table id = true
      · simp only [hd, if_true]
        refine ⟨?_, ?_, ?_⟩
        · intro q hq
          rw [List.mem_cons] at hq
          rcases hq with hq | hq
          · rw [hq]; rfl
          · exact ih1 q hq
        · rw [ih2]
          constructor
          · intro h r hr
            rw [List.mem_cons] at hr
            rcases hr with hr | hr
            · subst hr
              exact ⟨id, hid, hd⟩
            · exact h r hr
          · intro h r hr
            exact h r (List.mem_cons_of_mem _ hr)
        · intro hdone r hr id' hid'
          rw [List.mem_cons] at hr
          rcases hr with hr | hr
          · subst hr
            rw [hid] at hid'
            injection hid' with e
            subst e
            exact List.mem_cons_self _ _
          · exact List.mem_cons_of_mem _ (ih3 hdone r hr id' hid')
      · simp only [hd, if_false, Bool.false_eq_true]
        refine ⟨?_, ?_, by simp⟩
        · intro q hq
          rw [List.mem_singleton] at hq
          rw [hq]; rfl
        · simp only [false_iff]
          intro h
          obtain ⟨id', hid', hd'⟩ := h record (List.mem_cons_self _ _)
          rw [hid] at hid'
          injection hid' with e
          subst e
          exact hd hd'

theorem deleteAllUserRecords_spec (store : StoreAnswers) (table : String)
    (userId : Option JSValue) :
    (∀ q ∈ (deleteAllUserRecords store table userId).1, q.collection = table) ∧
    ((deleteAllUserRecords store table userId).2 = true ↔ Cleared store userId table) ∧
    ((deleteAllUserRecords store table userId).2 = true →
      ∀ data, store.list table userId = .ok data →
        ∀ record ∈ data, ∀ id, record.get "id" = .ok id →
          deleteRequest table id ∈ (deleteAllUserRecords store table userId).1) := by
  unfold deleteAllUserRecords Cleared
  cases hl : store.list table userId with
  | failed =>
    refine ⟨?_, by simp, by simp⟩
    intro q hq
    rw [List.mem_singleton] at hq
    rw [hq]; rfl
  | notOk status =>
    refine ⟨?_, by simp, by simp⟩
    intro q hq
    rw [List.mem_singleton] at hq
    rw [hq]; rfl
  | ok data =>
    obtain ⟨h1, h2, h3⟩ := deleteRecords_spec store table data
    refine ⟨?_, ?_, ?_⟩
    · intro q hq
      rw [List.mem_cons] at hq
      rcases hq with hq | hq
      · rw [hq]; rfl
      · exact h1 q hq
    · simp only [h2]
      constructor
      · intro h
        exact ⟨data, rfl, h⟩
      · rintro ⟨data', hd, h⟩
        injection hd with e
        subst e
        exact h
    · intro hdone data' hd record hr id hid
      injection hd with e
      subst e
      exact List.mem_cons_of_mem _ (h3 hdone record hr id hid)

theorem deleteTables_spec (store : StoreAnswers) (userId : Option JSValue)
    (tables : List String) :
    (∀ q ∈ (deleteTables store userId tables).1, q.collection ∈ tables) ∧
    ((deleteTables store userId tables).2 = true ↔
      ∀ table ∈ tables, Cleared store userId table) ∧
    ((deleteTables store userId tables).2 = true →
      ∀ table ∈ tables, ∀ data, store.list table userId = .ok data →
        ∀ record ∈ data, ∀ id, record.get "id" = .ok id →
          deleteRequest table id ∈ (deleteTables store userId tables).1) := by
  induction tables with
  | nil => simp [deleteTables]
  | cons table rest ih =>
    obtain ⟨ih1, ih2, ih3⟩ := ih
    obtain ⟨h1, h2, h3⟩ := deleteAllUserRecords_spec store table userId
    unfold deleteTables
    by_cases hdone : (deleteAllUserRecords store table userId).2 = true
    · simp only [hdone, if_true]
      refine ⟨?_, ?_, ?_⟩
      · intro q hq
        rw [List.mem_append] at hq
        rcases hq with hq | hq
        · rw [h1 q hq]
          exact List.mem_cons_self _ _
        · exact List.mem_cons_of_mem _ (ih1 q hq)
      · rw [ih2]
        constructor
        · intro h t ht
          rw [List.mem_cons] at ht
          rcases ht with ht | ht
          · rw [ht]
            exact h2.mp hdone
          · exact h t ht
        · intro h t ht
          exact h t (List.mem_cons_of_mem _ ht)
      · intro hrest t ht data hd record hr id hid
        rw [List.mem_cons] at ht
        rw [List.mem_append]
        rcases ht with ht | ht
        · subst ht
          exact Or.inl (h3 hdone data hd record hr id hid)
        · exact Or.inr (ih3 hrest t ht data hd record hr id hid)
    · simp only [hdone, if_false, Bool.false_eq_true]
      refine ⟨?_, ?_, by simp⟩
      · intro q hq
        rw [h1 q hq]
        exact List.mem_cons_self _ _
      · simp only [false_iff]
        intro h
        exact hdone (h2.mpr (h table (List.mem_cons_self _ _)))

/-- C24: in the deletion of the account, with an invalid session nothing is
sent. A request to `users` is sent only as the last request, the `DELETE` of
the user's record, after every table of the user was cleared: for each of
`user_ratings`, `watch_list`, `watch_history`, `preferred_list` and
`user_requested_media` the store listed the user's records and the `DELETE`
of each listed record was sent before and came back `ok`. With a valid
session and a failing store request (a table that is not cleared, or the
failing `DELETE` of the user) the storage is left as it was, and while a
table is not cleared no request goes to `users`. When every table is cleared
the `DELETE` of the user is sent, and after its `ok` response the session is
evicted. -/
theorem accountDeletion_deletes_user_last (store : StoreAnswers) (storage : Storage)
    (now : Int) :
    (SessionInvalid storage now →
      (AccountSettings.handleConfirmDelete store storage now).requests = []) ∧
    (∀ r ∈ (AccountSettings.handleConfirmDelete store storage now).requests,
      r.collection = "users" →
      ∃ s userId pre, storage.getItem "loggedInUser" = some s ∧ storedUserId s = .ok userId ∧
        (AccountSettings.handleConfirmDelete store storage now).requests =
          pre ++ [deleteRequest "users" userId] ∧
        (∀ q ∈ pre, q.collection ≠ "users") ∧
        (∀ table ∈ userTables, ∃ data, store.list table userId = .ok data ∧
          ∀ record ∈ data, ∃ id, record.get "id" = .ok id ∧
            store.delete table id = true ∧ deleteRequest table id ∈ pre)) ∧
    (∀ s userId, sessionCheckFails storage now = false →
      storage.getItem "loggedInUser" = some s → storedUserId s = .ok userId →
      ¬ ((∀ table ∈ userTables, Cleared store userId table) ∧
          store.delete "users" userId = true) →
      (AccountSettings.handleConfirmDelete store storage now).storage = storage ∧
      (¬ (∀ table ∈ userTables, Cleared store userId table) →
        ∀ r ∈ (AccountSettings.handleConfirmDelete store storage now).requests,
          r.collection ≠ "users")) ∧
    (∀ s userId, sessionCheckFails storage now = false →
      storage.getItem "loggedInUser" = some s → s ≠ "" → storedUserId s = .ok userId →
      truthy userId = true → (∀ table ∈ userTables, Cleared store userId table) →
      deleteRequest "users" userId ∈
          (AccountSettings.handleConfirmDelete store storage now).requests ∧
        (store.delete "users" userId = true →
          (AccountSettings.handleConfirmDelete store storage now).storage = evict storage ∧
          (AccountSettings.handleConfirmDelete store storage now).navigate = some "/login")) := by
  have hno : ∀ userId, ∀ q ∈ (deleteTables store userId userTables).1, q.collection ≠ "users" := by
    intro userId q hq e
    have := (deleteTables_spec store userId userTables).1 q hq
    rw [e] at this
    revert this
    decide
  refine ⟨?_, ?_, ?_, ?_⟩
  · intro hinv
    unfold AccountSettings.handleConfirmDelete
    rw [if_pos (sessionCheckFails_of_invalid hinv)]
    rfl
  · intro r hr husers
    unfold AccountSettings.handleConfirmDelete at hr ⊢
    by_cases hc : sessionCheckFails storage now = true
    · rw [if_pos hc] at hr
      cases hr
    · rw [if_neg hc] at hr ⊢
      cases hg : storage.getItem "loggedInUser" with
      | none => rw [hg] at hr; cases hr
      | some s =>
        rw [hg] at hr
        dsimp only at hr ⊢
        by_cases hs : s = ""
        · rw [if_pos hs] at hr; cases hr
        · rw [if_neg hs] at hr ⊢
          cases hid : storedUserId s with
          | error err => rw [hid] at hr; cases hr
          | ok userId =>
            rw [hid] at hr
            dsimp only at hr ⊢
            by_cases ht : (!truthy userId) = true
            · rw [if_pos ht] at hr; cases hr
            · rw [if_neg ht] at hr ⊢
              obtain ⟨_, h2, h3⟩ := deleteTables_spec store userId userTables
              by_cases hdone : (deleteTables store userId userTables).2 = true
              · have hdone' : ¬ ((!(deleteTables store userId userTables).2) = true) := by
                  rw [hdone]; decide
                rw [if_neg hdone'] at hr ⊢
                have hall := h2.mp hdone
                have hpre : ∀ table ∈ userTables, ∃ data, store.list table userId = .ok data ∧
                    ∀ record ∈ data, ∃ id, record.get "id" = .ok id ∧
                      store.delete table id = true ∧
                      deleteRequest table id ∈ (deleteTables store userId userTables).1 := by
                  intro table htable
                  obtain ⟨data, hd, hrec⟩ := hall table htable
                  refine ⟨data, hd, ?_⟩
                  intro record hrecord
                  obtain ⟨id, hid', hdel⟩ := hrec record hrecord
                  exact ⟨id, hid', hdel, h3 hdone table htable data hd record hrecord id hid'⟩
                by_cases hu : store.delete "users" userId = true
                · rw [if_pos hu]
                  exact ⟨s, userId, _, rfl, hid, rfl, hno userId, hpre⟩
                · rw [if_neg hu]
                  exact ⟨s, userId, _, rfl, hid, rfl, hno userId, hpre⟩
              · have hdone' : (!(deleteTables store userId userTables).2) = true := by
                  simpa using hdone
                rw [if_pos hdone'] at hr
                exact absurd husers (hno userId r hr)
  · intro s userId hc hg hid hfail
    unfold AccountSettings.handleConfirmDelete
    rw [if_neg (by rw [hc]; decide), hg]
    dsimp only
    by_cases hs : s = ""
    · rw [if_pos hs]
      exact ⟨rfl, fun _ r hr => by cases hr⟩
    · rw [if_neg hs, hid]
      dsimp only
      by_cases ht : (!truthy userId) = true
      · rw [if_pos ht]
        exact ⟨rfl, fun _ r hr => by cases hr⟩
      · rw [if_neg ht]
        obtain ⟨_, h2, _⟩ := deleteTables_spec store userId userTables
        by_cases hdone : (deleteTables store userId userTables).2 = true
        · have hdone' : ¬ ((!(deleteTables store userId userTables).2) = true) := by
            rw [hdone]; decide
          rw [if_neg hdone']
          have hall := h2.mp hdone
          have hu : ¬ store.delete "users" userId = true := fun hu => hfail ⟨hall, hu⟩
          rw [if_neg hu]
          exact ⟨rfl, fun hnot => absurd hall hnot⟩
        · have hdone' : (!(deleteTables store userId userTables).2) = true := by
            simpa using hdone
          rw [if_pos hdone']
          exact ⟨rfl, fun _ r hr => hno userId r hr⟩
  · intro s userId hc hg hs hid ht hall
    unfold AccountSettings.handleConfirmDelete
    rw [if_neg (by rw [hc]; decide), hg]
    dsimp only
    rw [if_neg hs, hid]
    dsimp only
    rw [if_neg (by rw [ht]; decide)]
    have hdone := (deleteTables_spec store userId userTables).2.1.mpr hall
    rw [if_neg (by rw [hdone]; decide)]
    by_cases hu : store.delete "users" userId = true
    · rw [if_pos hu]
      exact ⟨by simp, fun _ => ⟨rfl, rfl⟩⟩
    · rw [if_neg hu]
      exact ⟨by simp, fun h => absurd h hu⟩

/-- Witness for C24: in the example session and store the three records of
the user are deleted, then the user, and the session is evicted. -/
theorem accountDeletion_deletes_user_last_witness :
    deleteRequest "users" (some (.string "3")) ∈
        (AccountSettings.handleConfirmDelete exampleStore exampleSession 1700000000000).requests ∧
      (AccountSettings.handleConfirmDelete exampleStore exampleSession 1700000000000).storage =
        evict exampleSession ∧
      (AccountSettings.handleConfirmDelete exampleStore exampleSession
        1700000000000).navigate = some "/login" ∧
      (AccountSettings.handleConfirmDelete exampleStore exampleSession
        1700000000000).requests.map (fun r => (r.method, r.collection)) =
        [(Method.GET, "user_ratings"), (Method.DELETE, "user_ratings"),
         (Method.GET, "watch_list"), (Method.GET, "watch_history"),
         (Method.DELETE, "watch_history"), (Method.DELETE, "watch_history"),
         (Method.GET, "preferred_list"), (Method.GET, "user_requested_media"),
         (Method.DELETE, "users")] :=
  have hall : ∀ table ∈ userTables, Cleared exampleStore (some (.string "3")) table := by
    intro table htable
    simp only [userTables, List.mem_cons, List.mem_singleton, List.not_mem_nil, or_false]
      at htable
    rcases htable with h | h | h | h | h <;> subst h
    · exact ⟨_, rfl, by simp [JSValue.get, exampleStore]⟩
    · exact ⟨_, rfl, by simp⟩
    · exact ⟨_, rfl, by simp [JSValue.get, exampleStore]⟩
    · exact ⟨_, rfl, by simp⟩
    · exact ⟨_, rfl, by simp⟩
  have h := (accountDeletion_deletes_user_last exampleStore exampleSession 1700000000000).2.2.2
    "\x7b\"id\":\"3\",\"email\":\"old@x.com\"\x7d" (some (.string "3")) (by decide) rfl
    (by decide) rfl rfl hall
  ⟨h.1, (h.2 rfl).1, (h.2 rfl).2, by decide⟩

/-! ## Tokens without an expiry -/

theorem isTokenExpired_of_missing_exp (t : String) (payload : JSValue) (now : Int)
    (hdec : decodePayload t = .ok payload) (hexp : payload.get "exp" = .ok none) :
    isTokenExpired (some t) now = false := by
  simp only [isTokenExpired, if_neg (ne_empty_of_decoded t payload hdec), hdec, expiryPassed,
    hexp, toNumber, JSNumber.mulInt, JSNumber.ltInt]

/-- C25 fails on the code: a payload without `exp` is not judged expired. The
token `h.e30.s` carries the empty object as payload; `payload.exp` is `undefined`,
the product with 1000 is `NaN`, the comparison with the clock is false, and
`isTokenExpired` returns `false` at every time, so `verifyToken` keeps the
session. The same holds for the payload `5`, which is not an object, and for
an `exp` that is not numeric, such as the text `soon`. Only the payload
`null`, on which the property read throws, is judged expired. -/
theorem isTokenExpired_false_without_exp :
    decodePayload "h.e30.s" = .ok (.object []) ∧
    (∀ now : Int, isTokenExpired (some "h.e30.s") now = false) ∧
    (∀ now : Int,
      (verifyToken none ⟨[("jwtToken", "h.e30.s"), ("loggedInUser", "ann")]⟩ now).result = true) ∧
    decodePayload "h.NQ.s" = .ok (.number ⟨5, 0⟩) ∧
    (∀ now : Int, isTokenExpired (some "h.NQ.s") now = false) ∧
    decodePayload "h.eyJleHAiOiJzb29uIn0.s" = .ok (.object [("exp", .string "soon")]) ∧
    isTokenExpired (some "h.eyJleHAiOiJzb29uIn0.s") 1700000000000 = false ∧
    decodePayload "h.bnVsbA.s" = .ok .null ∧
    isTokenExpired (some "h.bnVsbA.s") 1700000000000 = true := by
  have h1 : ∀ now : Int, isTokenExpired (some "h.e30.s") now = false :=
    fun now => isTokenExpired_of_missing_exp "h.e30.s" (.object []) now rfl rfl
  refine ⟨rfl, h1, ?_, rfl, ?_, rfl, by decide, rfl, by decide⟩
  · intro now
    have h2 : (falsy (some "h.e30.s") || isTokenExpired (some "h.e30.s") now) = false := by
      rw [h1 now]
      rfl
    have hg : (⟨[("jwtToken", "h.e30.s"), ("loggedInUser", "ann")]⟩ : Storage).getItem
        "jwtToken" = some "h.e30.s" := rfl
    simp only [verifyToken, hg, h2, Bool.false_eq_true, if_false]
  · intro now
    exact isTokenExpired_of_missing_exp "h.NQ.s" (.number ⟨5, 0⟩) now rfl rfl

/-! ## Creating an account and logging in -/

/-- C26 fails on the code: `AddAdmin` stores the email trimmed and in lower
case, and `AdminLogin` compares the stored email with the typed one as it is.
An administrator created with the email `Ann@X.com` and the password `secret`
is stored with the email `ann@x.com`; the login with `Ann@X.com` and `secret`,
exactly as typed, finds no record and reports invalid credentials, leaving
the storage as it was. The login with `ann@x.com` succeeds. -/
theorem addAdmin_then_login_fails_for_capital_email :
    (AddAdmin.handleSubmit (fun p => "hash(" ++ p ++ ")") lowerAscii "2024-01-01T00:00:00.000Z"
        ⟨"Ann Admin", "ann", "Ann@X.com", "secret"⟩ true exampleSession
        1700000000000).requests.map (fun r => (r.method, r.collection)) =
      [(Method.POST, "users")] ∧
    (AddAdmin.handleSubmit (fun p => "hash(" ++ p ++ ")") lowerAscii "2024-01-01T00:00:00.000Z"
        ⟨"Ann Admin", "ann", "Ann@X.com", "secret"⟩ true exampleSession
        1700000000000).requests.map
        (fun r => (r.body.map (jsonServer.created "7")).bind User.ofJSON) =
      [some { id := "7", name := "Ann Admin", user_name := some "ann", email := "ann@x.com"
              password := "hash(secret)", isAdmin := true
              other := [("createdAt", "2024-01-01T00:00:00.000Z")] }] ∧
    exampleEnv.compareSync "secret" "hash(secret)" = true ∧
    AdminLogin.handleLogin exampleEnv
        (.ok [{ id := "7", name := "Ann Admin", user_name := some "ann", email := "ann@x.com"
                password := "hash(secret)", isAdmin := true
                other := [("createdAt", "2024-01-01T00:00:00.000Z")] }])
        "Ann@X.com" "secret" 1700000000000 ⟨[]⟩ =
      { storage := ⟨[]⟩, toast := invalidCredentials, navigate := none } ∧
    (AdminLogin.handleLogin exampleEnv
        (.ok [{ id := "7", name := "Ann Admin", user_name := some "ann", email := "ann@x.com"
                password := "hash(secret)", isAdmin := true
                other := [("createdAt", "2024-01-01T00:00:00.000Z")] }])
        "ann@x.com" "secret" 1700000000000 ⟨[]⟩).navigate = some "/dashboard" :=
  ⟨by decide, rfl, by decide, by decide, by decide⟩

theorem find?_append_of_fresh (users : List User) (newUser : User) (email : String)
    (hfresh : ∀ u ∈ users, u.email ≠ email) (hnew : newUser.email = email) :
    (users ++ [newUser]).find? (fun user => user.email == email) = some newUser := by
  rw [List.find?_append]
  have hnone : users.find? (fun user => user.email == email) = none := by
    rw [List.find?_eq_none]
    intro u hu
    simpa using hfresh u hu
  rw [hnone]
  simp [hnew]

/-- C27 fails as stated: registration does not look for the email among the
existing users, and the login takes the first record with the email. With an
older account under `a@x.com` whose password is `secret`, Ann Again registers
`a@x.com` with `password1`; the login with `a@x.com` and `password1` finds the
older record, whose hash does not verify, and reports invalid credentials. -/
theorem register_then_login_fails_for_taken_email :
    (Registration.handleRegister (fun p => "hash(" ++ p ++ ")") "2024-01-01T00:00:00.000Z"
        "Ann Again" "a@x.com" "password1" "password1" true).requests.map
        (fun r => (r.body.map (jsonServer.created "8")).bind User.ofJSON) =
      [some { id := "8", name := "Ann Again", user_name := none, email := "a@x.com"
              password := "hash(password1)", isAdmin := false
              other := [("createdAt", "2024-01-01T00:00:00.000Z")] }] ∧
    (Registration.handleRegister (fun p => "hash(" ++ p ++ ")") "2024-01-01T00:00:00.000Z"
        "Ann Again" "a@x.com" "password1" "password1" true).navigate = some "/login" ∧
    exampleEnv.compareSync "password1" "hash(password1)" = true ∧
    Login.handleLogin exampleEnv
        (.ok [ann, { id := "8", name := "Ann Again", user_name := none, email := "a@x.com"
                     password := "hash(password1)", isAdmin := false
                     other := [("createdAt", "2024-01-01T00:00:00.000Z")] }])
        "a@x.com" "password1" 1700000000000 ⟨[]⟩ =
      { storage := ⟨[]⟩, toast := invalidCredentials, navigate := none } :=
  ⟨rfl, rfl, by decide, by decide⟩

/-- C27, amended: for every prior contents of the users collection that holds
no record with the email E, after `handleRegister` stored a user with email E
and password P (P of at least 8 characters and equal to its confirmation),
the end-user `handleLogin` with E and P succeeds and persists the newly
created user, provided the hash primitive verifies a password against its own
hash. The registration sends one `POST` of the new record, which the store
appends with the identifier it generates. -/
theorem register_then_login (env : Env) (hashSync : String → String) (users : List User)
    (id createdAt name email password confirmPassword : String) (responseOk : Bool) (now : Int)
    (storage : Storage)
    (hverify : env.compareSync password (hashSync password) = true)
    (hfresh : ∀ u ∈ users, u.email ≠ email)
    (hconfirm : password = confirmPassword)
    (hlength : 8 ≤ (utf16Units password).length) :
    ∃ body newUser,
      (Registration.handleRegister hashSync createdAt name email password confirmPassword
        responseOk).requests =
        [{ method := .POST, collection := "users", record := none, query := []
           body := some body }] ∧
      User.ofJSON (jsonServer.created id body) = some newUser ∧
      newUser.id = id ∧ newUser.name = name ∧ newUser.email = email ∧
      Login.handleLogin env (.ok (users ++ [newUser])) email password now storage =
        { storage := persistSession env newUser now storage
          toast := welcome newUser
          navigate := some "/" } := by
  refine ⟨Registration.newUser hashSync createdAt name email password,
    { id := id, name := name, user_name := none, email := email
      password := hashSync password, isAdmin := false, other := [("createdAt", createdAt)] },
    ?_, ?_, rfl, rfl, rfl, ?_⟩
  · unfold Registration.handleRegister
    rw [if_neg (by simpa using hconfirm), if_neg (by omega)]
  · simp [User.ofJSON, jsonServer.created, Registration.newUser, stringProp, JSValue.prop,
      JSValue.get]
  · rw [login_of_found env _ email password now storage _
      (find?_append_of_fresh users _ email hfresh rfl)]
    simp only [hverify, if_true]

/-- Witness for C27: Zoë registers next to Ann and logs in. -/
theorem register_then_login_witness :
    ∃ body newUser,
      (Registration.handleRegister (fun p => "hash(" ++ p ++ ")") "2024-01-01T00:00:00.000Z"
        "Zoe" "z@x.com" "password1" "password1" true).requests =
        [{ method := .POST, collection := "users", record := none, query := []
           body := some body }] ∧
      User.ofJSON (jsonServer.created "8" body) = some newUser ∧
      newUser.id = "8" ∧ newUser.name = "Zoe" ∧ newUser.email = "z@x.com" ∧
      Login.handleLogin exampleEnv (.ok ([ann] ++ [newUser])) "z@x.com" "password1"
          1700000000000 ⟨[]⟩ =
        { storage := persistSession exampleEnv newUser 1700000000000 ⟨[]⟩
          toast := welcome newUser
          navigate := some "/" } :=
  register_then_login exampleEnv (fun p => "hash(" ++ p ++ ")") [ann] "8"
    "2024-01-01T00:00:00.000Z" "Zoe" "z@x.com" "password1" "password1" true 1700000000000 ⟨[]⟩
    (by decide) (by decide) rfl (by decide)

/-! ## From a request to the catalogue -/

/-- C28 fails on the code: the end-user form stores the rating certificate
under `Rating` and the release date under `Release Date`, and the approval
reads `Rated` or `rated` and `Released` or `releaseDate`. For the example
form, submitted by user 3 and then approved by the administrator, the record
posted to `movies` carries the title, year, runtime, genre, director, writer,
actors, plot, language, country, poster and IMDb rating that were typed, and
neither the certificate `PG` nor the release date `29 May 2009`: it has no
`Rated` and no `Released` property, nor the two under any other name. -/
theorem approved_request_loses_rating_and_release_date :
    (AddMedia.handleSubmit "2024-01-01T00:00:00.000Z" exampleForm true exampleSession
        1700000000000).map (fun res => res.requests.map (fun r => (r.method, r.collection))) =
      .ok [(Method.POST, "user_requested_media")] ∧
    (AddMedia.newMedia "2024-01-01T00:00:00.000Z" exampleForm (some (.string "3"))
        1700000000000).prop "Rating" = some (.string "PG") ∧
    (RequestedMedia.handleStatusChange (some (.string "1700000000000")) "approved"
        [AddMedia.newMedia "2024-01-01T00:00:00.000Z" exampleForm (some (.string "3"))
          1700000000000]
        "2024-01-02T00:00:00.000Z" true exampleSession 1700000000000).requests.map
        (fun r => (r.method, r.collection)) =
      [(Method.PATCH, "user_requested_media"), (Method.POST, "movies")] ∧
    (RequestedMedia.handleStatusChange (some (.string "1700000000000")) "approved"
        [AddMedia.newMedia "2024-01-01T00:00:00.000Z" exampleForm (some (.string "3"))
          1700000000000]
        "2024-01-02T00:00:00.000Z" true exampleSession 1700000000000).requests.map
        (fun r => r.body.map JSValue.keys) =
      [some ["request_status"],
       some ["user_id", "media_type", "Title", "Year", "Runtime", "Genre", "Director", "Writer",
         "Actors", "Plot", "Language", "Country", "Poster", "imdbRating", "createdAt"]] ∧
    (approvedMedia
        (AddMedia.newMedia "2024-01-01T00:00:00.000Z" exampleForm (some (.string "3"))
          1700000000000)
        "2024-01-02T00:00:00.000Z").prop "Title" = some (.string "Up") ∧
    (approvedMedia
        (AddMedia.newMedia "2024-01-01T00:00:00.000Z" exampleForm (some (.string "3"))
          1700000000000)
        "2024-01-02T00:00:00.000Z").prop "Rated" = none ∧
    (approvedMedia
        (AddMedia.newMedia "2024-01-01T00:00:00.000Z" exampleForm (some (.string "3"))
          1700000000000)
        "2024-01-02T00:00:00.000Z").prop "Released" = none := by
  refine ⟨rfl, rfl, ?_, ?_, rfl, rfl, rfl⟩
  · decide
  · decide

/-! ## Pagination -/

theorem slice_of_nonneg {α : Type} (xs : List α) (a n : Nat) :
    slice xs (a : Int) ((a : Int) + (n : Int)) = (xs.drop a).take n := by
  unfold slice
  have h1 : ¬ ((a : Int) < 0) := by omega
  have h2 : ¬ ((a : Int) + (n : Int) < 0) := by omega
  simp only [h1, h2, if_false]
  by_cases ha : a ≤ xs.length
  · have hk : (min (a : Int) (xs.length : Int)).toNat = a := by
      rw [min_eq_left (by omega)]
      exact Int.toNat_ofNat a
    rw [hk]
    by_cases hb : a + n ≤ xs.length
    · have hf : (min ((a : Int) + (n : Int)) (xs.length : Int) -
          min (a : Int) (xs.length : Int)).toNat = n := by
        rw [min_eq_left (by omega), min_eq_left (by omega)]
        omega
      rw [hf]
    · have hf : (min ((a : Int) + (n : Int)) (xs.length : Int) -
          min (a : Int) (xs.length : Int)).toNat = xs.length - a := by
        rw [min_eq_right (by omega), min_eq_left (by omega)]
        omega
      rw [hf, List.take_of_length_le (by rw [List.length_drop]),
        List.take_of_length_le (by rw [List.length_drop]; omega)]
  · have hk : (min (a : Int) (xs.length : Int)).toNat = xs.length := by
      rw [min_eq_right (by omega)]
      exact Int.toNat_ofNat _
    rw [hk, List.drop_of_length_le (le_refl _), List.drop_of_length_le (by omega)]
    simp

theorem currentItems_eq {α : Type} (items : List α) (page : Nat) :
    currentItems items ((page : Int) + 1) = (items.drop (20 * page)).take 20 := by
  unfold currentItems itemsPerPage
  have h : ((page : Int) + 1 - 1) * ((20 : Nat) : Int) = ((20 * page : Nat) : Int) := by
    push_cast
    ring
  rw [h]
  exact slice_of_nonneg items (20 * page) 20

theorem join_pages {α : Type} (items : List α) (k : Nat) :
    ((List.range k).map (fun i => (items.drop (20 * i)).take 20)).flatten = items.take (20 * k) := by
  induction k with
  | zero => simp
  | succ k ih =>
    rw [List.range_succ, List.map_append, List.flatten_append, ih, List.map_singleton,
      List.flatten_singleton, Nat.mul_succ, List.take_add]

/-- C29: pagination partitions the list. For every list, with `totalPages`
the ceiling of its length over 20, the slices shown for the pages 1 to
`totalPages`, concatenated in order, are the list; each such page holds
between 1 and 20 items, and every page but the last holds 20. -/
theorem pagination_partitions {α : Type} (items : List α) :
    ((List.range (totalPages items.length)).map
      (fun i : Nat => currentItems items ((i : Int) + 1))).flatten = items ∧
    (∀ page : Nat, page < totalPages items.length →
      1 ≤ (currentItems items ((page : Int) + 1)).length ∧
      (currentItems items ((page : Int) + 1)).length ≤ 20 ∧
      (page + 1 < totalPages items.length →
        (currentItems items ((page : Int) + 1)).length = 20)) := by
  have htotal : totalPages items.length = (items.length + 19) / 20 := by
    unfold totalPages itemsPerPage
    split <;> omega
  constructor
  · have hpages : (fun i : Nat => currentItems items ((i : Int) + 1)) =
        (fun i : Nat => (items.drop (20 * i)).take 20) :=
      funext (fun i => currentItems_eq items i)
    rw [hpages, join_pages, List.take_of_length_le]
    rw [htotal]
    omega
  · intro page hpage
    rw [currentItems_eq, List.length_take, List.length_drop]
    rw [htotal] at hpage ⊢
    refine ⟨?_, ?_, ?_⟩
    · omega
    · omega
    · intro h
      omega

/-- Witness for C29: a list of 45 items has three pages; the first holds 20
items and the third holds the last 5. -/
theorem pagination_partitions_witness :
    totalPages (List.range 45).length = 3 ∧
    (currentItems (List.range 45) ((0 : Nat) + 1)).length = 20 ∧
    1 ≤ (currentItems (List.range 45) ((2 : Nat) + 1)).length ∧
    currentItems (List.range 45) 3 = [40, 41, 42, 43, 44] :=
  ⟨by decide,
   ((pagination_partitions (List.range 45)).2 0 (by decide)).2.2 (by decide),
   ((pagination_partitions (List.range 45)).2 2 (by decide)).1,
   by decide⟩

/-! ## The notices of the login handlers: claim C10 -/

theorem toJSON_get_name (u : User) : u.toJSON.get "name" = .ok (some (.string u.name)) := rfl

theorem toJSON_get_email (u : User) : u.toJSON.get "email" = .ok (some (.string u.email)) := by
  cases hn : u.user_name <;> simp [User.toJSON, JSValue.get, hn]

theorem toJSON_get_password (u : User) :
    u.toJSON.get "password" = .ok (some (.string u.password)) := by
  cases hn : u.user_name <;> simp [User.toJSON, JSValue.get, hn]

theorem toJSON_get_isAdmin (u : User) :
    u.toJSON.get "isAdmin" = .ok (some (.bool u.isAdmin)) := by
  cases hn : u.user_name <;> simp [User.toJSON, JSValue.get, hn]

theorem login_isMatch_toJSON (email : String) (u : User) :
    Login.isMatch email u.toJSON = .ok (u.email == email) := by
  unfold Login.isMatch
  rw [toJSON_get_email]
  rfl

theorem adminLogin_isMatch_toJSON (email : String) (u : User) :
    AdminLogin.isMatch email u.toJSON = .ok (u.email == email && u.isAdmin == true) := by
  unfold AdminLogin.isMatch JSValue.prop
  rw [toJSON_get_email, toJSON_get_isAdmin]
  cases u.isAdmin <;> rfl

theorem findWhere_map_toJSON (callback : JSValue → Except JSError Bool) (test : User → Bool)
    (h : ∀ u : User, callback u.toJSON = .ok (test u)) (users : List User) :
    findWhere callback (users.map User.toJSON) = .ok ((users.find? test).map User.toJSON) := by
  induction users with
  | nil => rfl
  | cons u rest ih =>
    rw [List.map_cons, findWhere, h u, List.find?_cons]
    cases test u with
    | true => rfl
    | false => exact ih

theorem loginOnHost_of_typed (env : Env) (callback : JSValue → Except JSError Bool)
    (test : User → Bool) (target : String) (users : List User) (password : String) (now : Int)
    (storage : Storage) (h : ∀ u : User, callback u.toJSON = .ok (test u))
    (hj : ∀ u, env.stringify u = JSON.stringify u.toJSON) :
    loginOnHost env.host callback target (.ok (.array (users.map User.toJSON))) password now
        storage =
      match users.find? test with
      | some foundUser =>
        if env.compareSync password foundUser.password then
          { storage := persistSession env foundUser now storage
            toast := welcome foundUser
            navigate := some target }
        else { storage := storage, toast := invalidCredentials, navigate := none }
      | none => { storage := storage, toast := invalidCredentials, navigate := none } := by
  have hf := findWhere_map_toJSON callback test h users
  cases hfind : users.find? test with
  | none =>
    rw [hfind] at hf
    rw [loginOnHost_of_none env.host callback target _ password now storage hf]
    rfl
  | some u =>
    rw [hfind] at hf
    rw [loginOnHost_of_found env.host callback target _ password now storage u.toJSON hf rfl]
    have hp : u.toJSON.prop "password" = some (.string u.password) := by
      unfold JSValue.prop
      rw [toJSON_get_password]
    have hn : u.toJSON.prop "name" = some (.string u.name) := rfl
    rw [hp, hn]
    simp only [Host.compare, Env.host]
    cases env.compareSync password u.password with
    | false => rfl
    | true =>
      simp only [if_true, persistSession, welcome, hj]

/-- On well-typed records and a host on which no call throws, the handlers
`handleLogin` do what the typed models `Login.handleLogin` and
`AdminLogin.handleLogin` say. -/
theorem handleLogin_onHost_of_typed (env : Env) (users : List User) (email password : String)
    (now : Int) (storage : Storage) (hj : ∀ u, env.stringify u = JSON.stringify u.toJSON) :
    Login.handleLogin.onHost env.host (.ok (.array (users.map User.toJSON))) email password now
        storage = Login.handleLogin env (.ok users) email password now storage ∧
    AdminLogin.handleLogin.onHost env.host (.ok (.array (users.map User.toJSON))) email password
        now storage = AdminLogin.handleLogin env (.ok users) email password now storage ∧
    Login.handleLogin.onHost env.host .failed email password now storage =
      Login.handleLogin env .failed email password now storage ∧
    AdminLogin.handleLogin.onHost env.host .failed email password now storage =
      AdminLogin.handleLogin env .failed email password now storage ∧
    (∀ status, Login.handleLogin.onHost env.host (.notOk status) email password now storage =
      Login.handleLogin env (.notOk status) email password now storage) ∧
    (∀ status, AdminLogin.handleLogin.onHost env.host (.notOk status) email password now storage =
      AdminLogin.handleLogin env (.notOk status) email password now storage) := by
  refine ⟨?_, ?_, rfl, rfl, fun _ => rfl, fun _ => rfl⟩
  · unfold Login.handleLogin.onHost Login.handleLogin
    rw [loginOnHost_of_typed env _ (fun user => user.email == email) "/" users password now
      storage (login_isMatch_toJSON email) hj]
  · unfold AdminLogin.handleLogin.onHost AdminLogin.handleLogin
    rw [loginOnHost_of_typed env _ (fun user => user.email == email && user.isAdmin == true)
      "/dashboard" users password now storage (adminLogin_isMatch_toJSON email) hj]

set_option maxRecDepth 20000 in
/-- C10 fails as stated: the notice of a login problem is also shown when the
lookup of the users succeeded. The whole handler is one `try` block, and
every exception in it ends in the `catch` branch. For Ann, whose record
carries a profile image, the lookup succeeds, the record matches and the
password verifies; in a browser whose storage cannot take the record the
write of `loggedInUser` throws, and in a context where the signing rejects no
token is made: both times `handleLogin` reports "There was a problem logging
in. Please try again.", in both applications. In a host with room enough the
same login succeeds. -/
theorem handleLogin_problem_after_lookup :
    ¬ LookupFails (.ok (.array [annWithImage])) ∧
    findWhere (Login.isMatch "a@x.com") [annWithImage] = .ok (some annWithImage) ∧
    (quotaHost 64).compare "secret" (annWithImage.prop "password") = .ok true ∧
    Login.handleLogin.onHost (quotaHost 64) (.ok (.array [annWithImage])) "a@x.com" "secret"
        1700000000000 ⟨[]⟩ =
      { storage := ⟨[]⟩, toast := loginProblem, navigate := none } ∧
    AdminLogin.handleLogin.onHost (quotaHost 64) (.ok (.array [annWithImage])) "a@x.com"
        "secret" 1700000000000 ⟨[]⟩ =
      { storage := ⟨[]⟩, toast := loginProblem, navigate := none } ∧
    Login.handleLogin.onHost unsignedHost (.ok (.array [annWithImage])) "a@x.com" "secret"
        1700000000000 ⟨[]⟩ =
      { storage := ⟨[]⟩, toast := loginProblem, navigate := none } ∧
    (Login.handleLogin.onHost (quotaHost 5000000) (.ok (.array [annWithImage])) "a@x.com"
        "secret" 1700000000000 ⟨[]⟩).toast = ⟨.success, "Welcome back, Ann!"⟩ := by
  refine ⟨?_, rfl, rfl, ?_, ?_, ?_, ?_⟩
  · rintro (h | ⟨_, h⟩) <;> cases h
  · rfl
  · rfl
  · rfl
  · rfl

/-- C10, amended: in both applications `handleLogin` shows "Invalid email or
password" exactly when the lookup gave a list of users, the search threw
nothing, and either no record matches or the password check on the matched
record answers false; and it shows "There was a problem logging in. Please
try again." exactly when the lookup fails (the request fails or the response
is not ok) or a later step throws: the body is not a list, the search or the
password check throws, the signing rejects, a write to `localStorage` throws,
or the name of the record is not a string. The two notices differ. -/
theorem handleLogin_notices_on_host (host : Host) (response : StoreResponse)
    (email password : String) (now : Int) (storage : Storage) :
    ((Login.handleLogin.onHost host response email password now storage).toast =
        invalidCredentials ↔
      ∃ users found, response = .ok (.array users) ∧
        findWhere (Login.isMatch email) users = .ok found ∧
        (found = none ∨
          ∃ u, found = some u ∧ host.compare password (u.prop "password") = .ok false)) ∧
    ((Login.handleLogin.onHost host response email password now storage).toast =
        loginProblem ↔
      LookupFails response ∨
      (∃ body, response = .ok body ∧ ∀ users, body ≠ .array users) ∨
      ∃ users, response = .ok (.array users) ∧
        ((∃ err, findWhere (Login.isMatch email) users = .error err) ∨
          ∃ u, findWhere (Login.isMatch email) users = .ok (some u) ∧
            ((∃ err, host.compare password (u.prop "password") = .error err) ∨
              (host.compare password (u.prop "password") = .ok true ∧
                PersistThrows host u now storage)))) ∧
    ((AdminLogin.handleLogin.onHost host response email password now storage).toast =
        invalidCredentials ↔
      ∃ users found, response = .ok (.array users) ∧
        findWhere (AdminLogin.isMatch email) users = .ok found ∧
        (found = none ∨
          ∃ u, found = some u ∧ host.compare password (u.prop "password") = .ok false)) ∧
    ((AdminLogin.handleLogin.onHost host response email password now storage).toast =
        loginProblem ↔
      LookupFails response ∨
      (∃ body, response = .ok body ∧ ∀ users, body ≠ .array users) ∨
      ∃ users, response = .ok (.array users) ∧
        ((∃ err, findWhere (AdminLogin.isMatch email) users = .error err) ∨
          ∃ u, findWhere (AdminLogin.isMatch email) users = .ok (some u) ∧
            ((∃ err, host.compare password (u.prop "password") = .error err) ∨
              (host.compare password (u.prop "password") = .ok true ∧
                PersistThrows host u now storage)))) ∧
    invalidCredentials ≠ loginProblem := by
  have h1 := loginOnHost_notices host (Login.isMatch email) "/" response password now storage
    (truthy_of_login_isMatch email)
  have h2 := loginOnHost_notices host (AdminLogin.isMatch email) "/dashboard" response password
    now storage (truthy_of_adminLogin_isMatch email)
  exact ⟨h1.1, h1.2, h2.1, h2.2, invalidCredentials_ne_loginProblem⟩

end Mediaverse
